import Mathlib

/-!
# RFP / quote service: data model and handlers

A shallow embedding of `rfp-quote-service` (Go, gorm over PostgreSQL).

Modelling conventions.

* An instant (`time.Time`) is an integer count of clock ticks; `After` and
  `Before` are the strict orders on instants.  One handler invocation reads
  the clock once (`now`).
* Amounts are `float64` values decoded from JSON, hence finite.  A finite
  float stands for the decimal number it prints as, which is the number the
  driver hands to the database, and floats are ordered like these numbers; so
  amounts are rationals.  The amount columns have type `decimal(15,2)`: the
  table keeps an amount rounded to two decimals, ties away from zero, and an
  insert fails when a rounded amount has more than 13 digits before the
  point.
* The relational store is three tables held as lists in insertion order
  together with the two id sequences.  A statement whose error the handler
  inspects takes a flag saying whether the storage layer reported an error
  for it, so that the handler's error branch is part of the model.
* The caller's identity and role come from the authentication middleware and
  are arguments of each handler.
-/

namespace RfpQuoteService

/-! ## models/rfp.go -/

/-- An instant of `time.Time`. -/
abbrev Time := Int

/-- The Go type `RFPStatus` is a string. -/
abbrev RFPStatus := String

def RFPStatusOpen : RFPStatus := "open"
def RFPStatusClosed : RFPStatus := "closed"
def RFPStatusDraft : RFPStatus := "draft"

/-- A row of table `rfps`. -/
structure RFP where
  ID : Nat
  Title : String
  Description : String
  Quantity : Int
  LastDate : Time
  MinAmount : ℚ
  MaxAmount : ℚ
  Status : RFPStatus
  IsActive : Bool
  CategoryID : Option Nat
  UserID : Nat
  CreatedAt : Time
  UpdatedAt : Time
deriving DecidableEq

/-- A row of table `rfp_vendors`; the primary key is `(RFPID, VendorID)`. -/
structure RFPVendor where
  RFPID : Nat
  VendorID : Nat
  InvitedAt : Time
deriving DecidableEq

/-- A row of table `rfp_quotes`. -/
structure RFPQuote where
  ID : Nat
  RFPID : Nat
  VendorID : Nat
  VendorPrice : ℚ
  ItemDescription : String
  Quantity : Int
  TotalCost : ℚ
  Status : String
  SubmittedAt : Time
  CreatedAt : Time
  UpdatedAt : Time
deriving DecidableEq

/-- Method `RFP.IsOpen`: `r.Status == RFPStatusOpen && r.LastDate.After(time.Now())`. -/
def RFP.IsOpen (r : RFP) (now : Time) : Bool :=
  r.Status == RFPStatusOpen && decide (now < r.LastDate)

/-- Method `RFP.IsExpired`: `r.LastDate.Before(time.Now())`. -/
def RFP.IsExpired (r : RFP) (now : Time) : Bool :=
  decide (r.LastDate < now)

/-! ## The store -/

/-- The integer nearest to the fraction `n / d`, ties away from zero: the rounding of the
PostgreSQL type `numeric`. -/
def roundHalfAway (n : Int) (d : Nat) : Int :=
  if 0 ≤ n then (2 * n + d) / (2 * d) else -((2 * (-n) + d) / (2 * d))

/-- The number of hundredths that a column of type `decimal(15,2)` keeps for an amount. -/
def decimalCents (x : ℚ) : Int :=
  roundHalfAway (x.num * 100) x.den

/-- The value that a column of type `decimal(15,2)` keeps for an amount: the amount rounded to
two decimals. -/
def roundDecimal2 (x : ℚ) : ℚ :=
  Rat.divInt (decimalCents x) 100

/-- Whether a column of type `decimal(15,2)` accepts an amount: the rounded value has at most 13
digits before the decimal point.  Otherwise the statement fails with a numeric field overflow. -/
def fitsDecimal15_2 (x : ℚ) : Bool :=
  decide ((decimalCents x).natAbs < 10 ^ 15)

/-- The database: the three migrated tables and the two serial id sequences. -/
structure Store where
  rfps : List RFP
  rfp_vendors : List RFPVendor
  rfp_quotes : List RFPQuote
  nextRFPID : Nat
  nextQuoteID : Nat
deriving DecidableEq

/-- The freshly migrated database. -/
def emptyStore : Store :=
  { rfps := [], rfp_vendors := [], rfp_quotes := [], nextRFPID := 1, nextQuoteID := 1 }

/-- The JSON envelope written by `respondWithJSON`: status and message. -/
structure Response where
  status : Nat
  message : String
deriving DecidableEq

/-! ## controllers/quote_controller.go -/

structure SubmitQuoteRequest where
  RFPID : Nat
  VendorPrice : ℚ
  ItemDescription : String
  Quantity : Int
  TotalCost : ℚ
deriving DecidableEq

/-- The call `utils.ValidateStruct(req)` for `SubmitQuoteRequest`: the struct tags are checked in
field order and the first failure is reported as `field <Field> is <tag>`. -/
def validateSubmitQuoteRequest (req : SubmitQuoteRequest) : Option String :=
  if req.RFPID = 0 then some "field RFPID is required"
  else if req.VendorPrice < 0 then some "field VendorPrice is min"
  else if req.ItemDescription = "" then some "field ItemDescription is required"
  else if req.Quantity < 1 then some "field Quantity is min"
  else if req.TotalCost < 0 then some "field TotalCost is min"
  else none

/-- Whether `tx.Create(&quote)` reports an error: for a reason outside the model, which the flag
`createErr` stands for, or because the price or the total cost does not fit its column. -/
def quoteCreateFails (req : SubmitQuoteRequest) (createErr : Bool) : Bool :=
  createErr || !(fitsDecimal15_2 req.VendorPrice) || !(fitsDecimal15_2 req.TotalCost)

/-- Handler `QuoteController.SubmitQuote`, from the role check on.  `createErr` says whether
`tx.Create(&quote)` reported an error for a reason outside the model; `quote` is the row as the
table keeps it. -/
def SubmitQuote (s : Store) (now : Time) (userID : Nat) (userRole : String)
    (req : SubmitQuoteRequest) (createErr : Bool) : Response × Store :=
  if userRole ≠ "vendor" then (⟨400, "You are not a Vendor"⟩, s)
  else
    match validateSubmitQuoteRequest req with
    | some e => (⟨400, e⟩, s)
    | none =>
      match s.rfps.find? (fun r => r.ID == req.RFPID) with
      | none => (⟨404, "RFP not found"⟩, s)
      | some rfp =>
        if !(rfp.IsOpen now) then (⟨400, "RFP is closed or expired"⟩, s)
        else
          match s.rfp_quotes.find? (fun q => q.RFPID == req.RFPID && q.VendorID == userID) with
          | some _ => (⟨400, "Quote already submitted for this RFP"⟩, s)
          | none =>
            if req.TotalCost < rfp.MinAmount || req.TotalCost > rfp.MaxAmount then
              (⟨400, "Quote amount is outside the specified budget range"⟩, s)
            else
              let quote : RFPQuote :=
                { ID := s.nextQuoteID
                  RFPID := req.RFPID
                  VendorID := userID
                  VendorPrice := roundDecimal2 req.VendorPrice
                  ItemDescription := req.ItemDescription
                  Quantity := req.Quantity
                  TotalCost := roundDecimal2 req.TotalCost
                  Status := "pending"
                  SubmittedAt := now
                  CreatedAt := now
                  UpdatedAt := now }
              if quoteCreateFails req createErr then (⟨500, "Failed to submit quote"⟩, s)
              else
                (⟨200, "Quote submitted successfully"⟩,
                  { s with rfp_quotes := s.rfp_quotes ++ [quote], nextQuoteID := s.nextQuoteID + 1 })

/-- Handler `QuoteController.GetAvailableRFPs`, from the role check on: the rows of
`rfps INNER JOIN rfp_vendors ON rfps.id = rfp_vendors.rfp_id` that pass the three `Where`
clauses, one result row per joined pair.  `queryErr` says whether `Find` reported an error. -/
def GetAvailableRFPs (s : Store) (now : Time) (userID : Nat) (userRole : String)
    (queryErr : Bool) : Response × List RFP :=
  if userRole ≠ "vendor" then (⟨400, "You are not a Vendor"⟩, [])
  else if queryErr then (⟨500, "Failed to fetch available RFPs"⟩, [])
  else
    (⟨200, "Available RFPs"⟩,
      s.rfps.flatMap fun r =>
        (s.rfp_vendors.filter fun l =>
          r.ID == l.RFPID
            && l.VendorID == userID
            && (r.Status == RFPStatusOpen && decide (r.LastDate > now) && r.IsActive == true)
            && !((s.rfp_quotes.filter fun q => q.VendorID == userID).map (·.RFPID)).contains
                r.ID).map fun _ => r)

/-! ## services/auth_service.go, services/notification_service.go -/

/-- The decoded `data` object of the auth service's user endpoint. -/
structure UserData where
  Email : String
  Role : String
deriving DecidableEq

/-- What `as.client.Get(url)` gives for one user lookup: a transport error, or a response with its
status code and its body (`none` when the body does not decode). -/
inductive UserLookup where
  | transportError : UserLookup
  | response (statusCode : Nat) (body : Option UserData) : UserLookup
deriving DecidableEq

/-- The loop body of `GetVendorEmailsByIDs`: the email appended for one lookup outcome. -/
def vendorEmailOf : UserLookup → List String
  | .transportError => []
  | .response statusCode body =>
    if statusCode = 200 then
      match body with
      | some d => if d.Role = "vendor" then [d.Email] else []
      | none => []
    else []

/-- The loop of `GetVendorEmailsByIDs` from call number `i` on; `get i id` is the outcome of the
`i`-th HTTP call, made for vendor `id`. -/
def getVendorEmailsFrom (get : Nat → Nat → UserLookup) : Nat → List Nat → List String
  | _, [] => []
  | i, id :: rest => vendorEmailOf (get i id) ++ getVendorEmailsFrom get (i + 1) rest

/-- Method `AuthService.GetVendorEmailsByIDs`. -/
def GetVendorEmailsByIDs (get : Nat → Nat → UserLookup) (vendorIDs : List Nat) : List String :=
  getVendorEmailsFrom get 0 vendorIDs

/-- One element of the decoded `data` array of the vendor listing. -/
structure VendorData where
  ID : Nat
  Email : String
  CategoryID : Option Nat
deriving DecidableEq

/-- What `as.client.Get(url)` gives for the vendor listing. -/
inductive VendorListing where
  | transportError : VendorListing
  | response (statusCode : Nat) (body : Option (List VendorData)) : VendorListing
deriving DecidableEq

/-- Method `AuthService.GetVendorEmailsByCategory`. -/
def GetVendorEmailsByCategory (list : Nat → VendorListing) (categoryID : Nat) : List String :=
  match list categoryID with
  | .transportError => []
  | .response statusCode body =>
    if statusCode ≠ 200 then []
    else
      match body with
      | none => []
      | some data =>
        (data.filter fun vendor => vendor.CategoryID == some categoryID).map (·.Email)

/-- The request posted by `NotificationService.SendEmail`; the body text is a fixed rendering of
the RFP and is not part of the model. -/
structure EmailRequest where
  EmailTo : String
  Subject : String
  SendNow : Bool
deriving DecidableEq

/-! ## controllers/rfp_controller.go -/

structure CreateRFPRequest where
  Title : String
  Description : String
  Quantity : Int
  LastDate : Time
  MinAmount : ℚ
  MaxAmount : ℚ
  CategoryID : Nat
  VendorIDs : List Nat
deriving DecidableEq

/-- The call `utils.ValidateStruct(req)` for `CreateRFPRequest`.  The tag `required` on `LastDate`
has no effect: `DateOnly` is a struct type the validator descends into. -/
def validateCreateRFPRequest (req : CreateRFPRequest) : Option String :=
  if req.Title = "" then some "field Title is required"
  else if req.Title.length > 255 then some "field Title is max"
  else if req.Quantity < 1 then some "field Quantity is min"
  else if req.MinAmount < 0 then some "field MinAmount is min"
  else if req.MaxAmount < 0 then some "field MaxAmount is min"
  else if req.CategoryID = 0 then some "field CategoryID is required"
  else none

/-- What one call of `CreateRFP` does: its response, the store it leaves, and the send-email
requests issued by the goroutine it starts. -/
structure CreateRFPResult where
  response : Response
  store : Store
  emails : List EmailRequest

/-- Whether `tx.Create(&rfp)` reports an error: for a reason outside the model, which the flag
`createErr` stands for, or because the minimum or the maximum does not fit its column. -/
def rfpCreateFails (req : CreateRFPRequest) (createErr : Bool) : Bool :=
  createErr || !(fitsDecimal15_2 req.MinAmount) || !(fitsDecimal15_2 req.MaxAmount)

/-- Handler `RFPController.CreateRFP`, from the role check on.  `createErr` says whether
`tx.Create(&rfp)` reported an error for a reason outside the model; `rfp` is the row as the table
keeps it.  The vendor links are inserted in the same transaction and
their errors are not inspected; an insert that repeats the key `(rfp_id, vendor_id)` fails, which
in PostgreSQL aborts the transaction, so that `tx.Commit()` rolls everything back while the id
sequence keeps its advance.  `get` and `list` are the remote lookups of the auth service. -/
def CreateRFP (s : Store) (now : Time) (userID : Nat) (userRole : String)
    (req : CreateRFPRequest) (createErr : Bool)
    (get : Nat → Nat → UserLookup) (list : Nat → VendorListing) : CreateRFPResult :=
  if userRole ≠ "admin" then ⟨⟨400, "You are not Admin"⟩, s, []⟩
  else
    match validateCreateRFPRequest req with
    | some e => ⟨⟨400, e⟩, s, []⟩
    | none =>
      if req.MaxAmount < req.MinAmount then
        ⟨⟨400, "Max amount must be greater than min amount"⟩, s, []⟩
      else if req.LastDate < now then ⟨⟨400, "Last date must be in the future"⟩, s, []⟩
      else if req.VendorIDs.length ≤ 0 then ⟨⟨400, "Select at least one vendor"⟩, s, []⟩
      else if rfpCreateFails req createErr then ⟨⟨500, "Failed to create RFP"⟩, s, []⟩
      else
        let rfp : RFP :=
          { ID := s.nextRFPID
            Title := req.Title
            Description := req.Description
            Quantity := req.Quantity
            LastDate := req.LastDate
            MinAmount := roundDecimal2 req.MinAmount
            MaxAmount := roundDecimal2 req.MaxAmount
            Status := RFPStatusOpen
            IsActive := true
            CategoryID := some req.CategoryID
            UserID := userID
            CreatedAt := now
            UpdatedAt := now }
        let committed : Store :=
          if req.VendorIDs.Nodup then
            { s with
              rfps := s.rfps ++ [rfp]
              rfp_vendors := s.rfp_vendors ++
                req.VendorIDs.map fun vendorID =>
                  { RFPID := rfp.ID, VendorID := vendorID, InvitedAt := now }
              nextRFPID := s.nextRFPID + 1 }
          else { s with nextRFPID := s.nextRFPID + 1 }
        let vendorEmails : List String :=
          if req.VendorIDs.length > 0 then GetVendorEmailsByIDs get req.VendorIDs
          else GetVendorEmailsByCategory list req.CategoryID
        ⟨⟨200, "New RFP Request is created"⟩, committed,
          vendorEmails.map fun email =>
            { EmailTo := email, Subject := "New RFP Request: " ++ rfp.Title, SendNow := true }⟩

/-- Handler `RFPController.DeleteRFP`, from the role check on.  `rfpID` is the number in the URL
(the route admits digits only) and `deleteErr` says whether `tx.Delete(&rfp)` reported an error.
The database is migrated with `DisableForeignKeyConstraintWhenMigrating`, so the statement
removes the `rfps` row only. -/
def DeleteRFP (s : Store) (userID : Nat) (userRole : String) (rfpID : Nat)
    (deleteErr : Bool) : Response × Store :=
  if userRole ≠ "admin" then (⟨400, "You are not Admin"⟩, s)
  else if rfpID ≥ 2 ^ 32 then (⟨400, "Invalid RFP ID"⟩, s)
  else
    match s.rfps.find? (fun r => r.ID == rfpID && r.UserID == userID) with
    | none => (⟨402, "Rfp request Not found"⟩, s)
    | some rfp =>
      if deleteErr then (⟨500, "Failed to delete RFP"⟩, s)
      else
        (⟨200, "Rfp request successfully deleted"⟩,
          { s with rfps := s.rfps.filter fun r => r.ID != rfp.ID })

/-- Handler `RFPController.UpdateRFPStatus`, from the role check on.  `status` is the decoded
`status` field of the body and `saveErr` says whether `tx.Save(&rfp)` reported an error. -/
def UpdateRFPStatus (s : Store) (now : Time) (userID : Nat) (userRole : String) (rfpID : Nat)
    (status : String) (saveErr : Bool) : Response × Store :=
  if userRole ≠ "admin" then (⟨400, "You are not Admin"⟩, s)
  else
    let choice : Option (RFPStatus × Bool) :=
      if status = "open" then some (RFPStatusOpen, true)
      else if status = "closed" then some (RFPStatusClosed, false)
      else none
    match choice with
    | none => (⟨400, "Invalid status value. It must be \x27open\x27 or \x27closed\x27"⟩, s)
    | some (newStatus, IsActive) =>
      if rfpID ≥ 2 ^ 32 then (⟨400, "Invalid RFP ID"⟩, s)
      else
        match s.rfps.find? (fun r => r.ID == rfpID && r.UserID == userID) with
        | none => (⟨402, "RFP request not found"⟩, s)
        | some rfp =>
          let saved : RFP := { rfp with Status := newStatus, IsActive := IsActive, UpdatedAt := now }
          if saveErr then (⟨500, "Failed to update RFP status"⟩, s)
          else
            (⟨200, "RFP status updated successfully"⟩,
              { s with rfps := s.rfps.map fun r => if r.ID = saved.ID then saved else r })

/-! ## routes/routes.go: the service as a transition system -/

/-- One request to a route of `SetupRoutes`, with everything the handler reads from outside the
store.  The four `GET` routes only read. -/
inductive Op where
  | createRFP (now : Time) (userID : Nat) (userRole : String) (req : CreateRFPRequest)
      (createErr : Bool) (get : Nat → Nat → UserLookup) (list : Nat → VendorListing) : Op
  | updateRFPStatus (now : Time) (userID : Nat) (userRole : String) (rfpID : Nat)
      (status : String) (saveErr : Bool) : Op
  | deleteRFP (userID : Nat) (userRole : String) (rfpID : Nat) (deleteErr : Bool) : Op
  | submitQuote (now : Time) (userID : Nat) (userRole : String) (req : SubmitQuoteRequest)
      (createErr : Bool) : Op
  | getRFPs (userID : Nat) (userRole : String) : Op
  | getRFPQuotes (userID : Nat) (userRole : String) (rfpID : Nat) : Op
  | getVendorRFPs (now : Time) (userID : Nat) (userRole : String) (status : String) : Op
  | getAvailableRFPs (now : Time) (userID : Nat) (userRole : String) : Op

/-- The store after one request. -/
def step (s : Store) : Op → Store
  | .createRFP now userID userRole req createErr get list =>
    (CreateRFP s now userID userRole req createErr get list).store
  | .updateRFPStatus now userID userRole rfpID status saveErr =>
    (UpdateRFPStatus s now userID userRole rfpID status saveErr).2
  | .deleteRFP userID userRole rfpID deleteErr => (DeleteRFP s userID userRole rfpID deleteErr).2
  | .submitQuote now userID userRole req createErr =>
    (SubmitQuote s now userID userRole req createErr).2
  | .getRFPs _ _ => s
  | .getRFPQuotes _ _ _ => s
  | .getVendorRFPs _ _ _ _ => s
  | .getAvailableRFPs _ _ _ => s

/-- The store after a sequence of requests served one after the other. -/
def run (s : Store) (ops : List Op) : Store :=
  ops.foldl step s

/-- The stores the service can be in: those reached from the empty database. -/
def Reachable (s : Store) : Prop :=
  ∃ ops : List Op, run emptyStore ops = s

/-- The declared primary keys: `rfps.id`, and `(rfp_id, vendor_id)` of `rfp_vendors`. -/
def Store.PrimaryKeys (s : Store) : Prop :=
  (s.rfps.map (·.ID)).Nodup ∧ (s.rfp_vendors.map fun l => (l.RFPID, l.VendorID)).Nodup

/-! ## Definitions used in the statements, and the scenario of the specification -/

/-- The request of the scenario: budget 1000 to 5000, deadline at instant 700, vendors 1 and 2. -/
def scenarioCreate : CreateRFPRequest :=
  { Title := "Laptops", Description := "office laptops", Quantity := 10, LastDate := 700,
    MinAmount := 1000, MaxAmount := 5000, CategoryID := 3, VendorIDs := [1, 2] }

/-- The RFP stored for `scenarioCreate` by admin 9 at instant 0 on the empty database. -/
def scenarioRFP : RFP :=
  { ID := 1, Title := "Laptops", Description := "office laptops", Quantity := 10, LastDate := 700,
    MinAmount := 1000, MaxAmount := 5000, Status := RFPStatusOpen, IsActive := true,
    CategoryID := some 3, UserID := 9, CreatedAt := 0, UpdatedAt := 0 }

/-- The database after that creation. -/
def scenarioStore : Store :=
  { rfps := [scenarioRFP], rfp_vendors := [⟨1, 1, 0⟩, ⟨1, 2, 0⟩], rfp_quotes := [],
    nextRFPID := 2, nextQuoteID := 1 }

/-- A quote request for the scenario RFP with the given total cost. -/
def scenarioQuote (total : ℚ) : SubmitQuoteRequest :=
  { RFPID := 1, VendorPrice := 300, ItemDescription := "laptop", Quantity := 10,
    TotalCost := total }

/-- The row that `SubmitQuote` inserts, as the table keeps it. -/
def submittedQuote (s : Store) (now : Time) (userID : Nat) (req : SubmitQuoteRequest) : RFPQuote :=
  ⟨s.nextQuoteID, req.RFPID, userID, roundDecimal2 req.VendorPrice, req.ItemDescription,
    req.Quantity, roundDecimal2 req.TotalCost, "pending", now, now, now⟩

/-- The row that `CreateRFP` inserts into `rfps`, as the table keeps it. -/
def createdRFP (s : Store) (now : Time) (userID : Nat) (req : CreateRFPRequest) : RFP :=
  ⟨s.nextRFPID, req.Title, req.Description, req.Quantity, req.LastDate,
    roundDecimal2 req.MinAmount, roundDecimal2 req.MaxAmount, RFPStatusOpen, true,
    some req.CategoryID, userID, now, now⟩

/-- At most one quote for each pair of RFP id and vendor id. -/
def QuoteUnique (s : Store) : Prop :=
  ∀ rfpID vendor : Nat,
    (s.rfp_quotes.filter fun q => q.RFPID == rfpID && q.VendorID == vendor).length ≤ 1

/-- An RFP row with status open and a last date of 10 whose active flag is false. -/
def inactiveOpenRFP : RFP :=
  { scenarioRFP with LastDate := 10, IsActive := false }

/-- The requests that create the scenario RFP on the empty database. -/
def scenarioOps : List Op :=
  [Op.createRFP 0 9 "admin" scenarioCreate false (fun _ _ => .transportError)
    (fun _ => .transportError)]

/-- Ids handed out so far lie below the sequence, and the primary keys hold. -/
def Store.WellFormed (s : Store) : Prop :=
  (∀ r ∈ s.rfps, r.ID < s.nextRFPID) ∧ (∀ l ∈ s.rfp_vendors, l.RFPID < s.nextRFPID) ∧
    s.PrimaryKeys

/-- Every stored RFP with this id has status closed and the active flag false. -/
def ClosedIn (s : Store) (rfpID : Nat) : Prop :=
  ∀ r ∈ s.rfps, r.ID = rfpID → r.Status = RFPStatusClosed ∧ r.IsActive = false

instance (s : Store) (rfpID : Nat) : Decidable (ClosedIn s rfpID) := by
  unfold ClosedIn; infer_instance

/-- Every stored RFP with this id belongs to this admin. -/
def OwnedBy (s : Store) (rfpID owner : Nat) : Prop :=
  ∀ r ∈ s.rfps, r.ID = rfpID → r.UserID = owner

instance (s : Store) (rfpID owner : Nat) : Decidable (OwnedBy s rfpID owner) := by
  unfold OwnedBy; infer_instance

/-- Whether the request is an `UpdateRFPStatus` by this admin for this RFP id with status
`open`. -/
def Op.reopens (rfpID owner : Nat) : Op → Bool
  | .updateRFPStatus _ userID _ id status _ => id == rfpID && userID == owner && status == "open"
  | _ => false

/-- The scenario RFP is created and then closed by its owner. -/
def closeOps : List Op :=
  scenarioOps ++ [Op.updateRFPStatus 1 9 "admin" 1 "closed" false]

/-- What the description of `GetVendorEmailsByIDs` lets one lookup contribute: the email when the
lookup returned HTTP 200 with a decodable body whose role is vendor, and nothing otherwise. -/
def resolvedVendorEmail (r : UserLookup) : Option String :=
  match r with
  | .response statusCode (some d) =>
    if statusCode = 200 ∧ d.Role = "vendor" then some d.Email else none
  | _ => none

/-- The scenario request with vendor 1 listed twice. -/
def repeatedVendorCreate : CreateRFPRequest :=
  { scenarioCreate with VendorIDs := [1, 1] }

/-- A remote that knows vendors 1 and 2 and fails for every other id. -/
def scenarioLookup : Nat → Nat → UserLookup := fun _ id =>
  if id = 1 then .response 200 (some ⟨"v1@example.com", "vendor"⟩)
  else if id = 2 then .response 200 (some ⟨"v2@example.com", "vendor"⟩)
  else .transportError


/-- Handler `RFPController.GetRFPQuotes`, from the role check on.  The caller's id is read from
the context and discarded; `rfpID` is the number in the URL, parsed as a 64-bit value, and
`queryErr` says whether `Find` reported an error.  The result rows are those of `rfp_quotes`
with this `rfp_id`. -/
def GetRFPQuotes (s : Store) (_userID : Nat) (userRole : String) (rfpID : Nat)
    (queryErr : Bool) : Response × List RFPQuote :=
  if userRole ≠ "admin" then (⟨403, "You are not an admin"⟩, [])
  else if rfpID ≥ 2 ^ 64 then (⟨400, "Invalid RFP ID"⟩, [])
  else if queryErr then (⟨500, "Failed to fetch quotes"⟩, [])
  else (⟨200, "success"⟩, s.rfp_quotes.filter fun q => q.RFPID == rfpID)

/-- What a call of `UnmarshalJSON` ends in. -/
inductive UnmarshalResult where
  | panic : UnmarshalResult
  | error : UnmarshalResult
  | date (t : Time) : UnmarshalResult
deriving DecidableEq

/-- The Go slice expression `s[lo:hi]` on a string of bytes: `none` stands for the run-time
panic raised unless `0 ≤ lo ≤ hi ≤ len(s)`. -/
def goSlice (s : List (Fin 256)) (lo hi : Int) : Option (List (Fin 256)) :=
  if 0 ≤ lo ∧ lo ≤ hi ∧ hi ≤ s.length then some ((s.drop lo.toNat).take (hi - lo).toNat)
  else none

/-- Method `DateOnly.UnmarshalJSON` on the bytes `b`; `parse` is `time.Parse` with the layout
`2006-01-02` (`none` for a parse error). -/
def DateOnly.UnmarshalJSON (parse : List (Fin 256) → Option Time) (b : List (Fin 256)) :
    UnmarshalResult :=
  match goSlice b 1 ((b.length : Int) - 1) with
  | none => .panic
  | some inner =>
    match parse inner with
    | none => .error
    | some t => .date t

/-- Every stored RFP is open and active, or closed and inactive. -/
def StatusConsistent (s : Store) : Prop :=
  ∀ r ∈ s.rfps,
    (r.Status = RFPStatusOpen ∧ r.IsActive = true) ∨
      (r.Status = RFPStatusClosed ∧ r.IsActive = false)

/-- The scenario RFP with a quote by vendor 1, submitted at instant 5. -/
def quotedStore : Store :=
  (SubmitQuote scenarioStore 5 1 "vendor" (scenarioQuote 3000) false).2

/-- The amounts of the stored RFPs are values of their column: rounding leaves them as they
are. -/
def Store.ColumnValues (s : Store) : Prop :=
  ∀ r ∈ s.rfps, roundDecimal2 r.MinAmount = r.MinAmount ∧ roundDecimal2 r.MaxAmount = r.MaxAmount

/-- A quote for the scenario RFP, within its budget, whose item price is 10^13. -/
def overflowQuote : SubmitQuoteRequest :=
  { scenarioQuote 3000 with VendorPrice := 10000000000000 }

/-- A quote for the scenario RFP, within its budget, whose item price is one eighth. -/
def eighthQuote : SubmitQuoteRequest :=
  { scenarioQuote 3000 with VendorPrice := mkRat 1 8 }

/-- The scenario request with minimum and maximum both 10^13. -/
def overflowCreate : CreateRFPRequest :=
  { scenarioCreate with MinAmount := 10000000000000, MaxAmount := 10000000000000 }

/-- A database that holds `inactiveOpenRFP`, linked to vendor 1. -/
def inactiveStore : Store :=
  { rfps := [inactiveOpenRFP], rfp_vendors := [⟨1, 1, 0⟩], rfp_quotes := [], nextRFPID := 2,
    nextQuoteID := 1 }

end RfpQuoteService

/-!
# Notification service: work items and delivery

A shallow embedding of `notification-service`.  Go `int` fields are integers
and `RetryCount++` wraps at 64 bits.  Instants count clock ticks from the zero
value of `time.Time`, so that instant 0 is the zero value.  The outcome of
`utils.SendEmail` is an argument: `none` for success, `some text` for an error
with that text.  The goroutine started by `SendEmail` is a pending task of the
service state that runs as a step of its own.  `Save` is the method of gorm:
it updates the row that has the id of the struct and inserts the struct when
there is no such row, an insert giving each zero-valued field the default its
column declares and writing that back to the struct.
-/

namespace NotificationService

/-- An instant of `time.Time`. -/
abbrev Time := Int

/-- The Go types `NotificationStatus` and `NotificationType` are strings. -/
abbrev NotificationStatus := String

abbrev NotificationType := String

def StatusPending : NotificationStatus := "pending"
def StatusSent : NotificationStatus := "sent"
def StatusFailed : NotificationStatus := "failed"
def StatusRetry : NotificationStatus := "retry"
def TypeEmail : NotificationType := "email"
def TypeSMS : NotificationType := "sms"

/-- A row of table `notifications`; `Type'` is the Go field `Type`. -/
structure Notification where
  ID : Nat
  Type' : NotificationType
  To : String
  Subject : String
  Content : String
  Status : NotificationStatus
  RetryCount : Int
  MaxRetries : Int
  ScheduledAt : Option Time
  SentAt : Option Time
  ErrorMsg : String
  CreatedAt : Time
  UpdatedAt : Time
deriving DecidableEq

/-- The value of a Go `int` after an arithmetic result `x`: reduced to the signed 64-bit range. -/
def wrapInt (x : Int) : Int :=
  (x + 2 ^ 63) % 2 ^ 64 - 2 ^ 63

/-- Method `Notification.CanRetry`. -/
def Notification.CanRetry (n : Notification) : Bool :=
  decide (n.RetryCount < n.MaxRetries) && n.Status == StatusFailed

/-- Method `Notification.IncrementRetry`. -/
def Notification.IncrementRetry (n : Notification) : Notification :=
  let n1 : Notification := { n with RetryCount := wrapInt (n.RetryCount + 1) }
  if n1.RetryCount ≥ n1.MaxRetries then { n1 with Status := StatusFailed }
  else { n1 with Status := StatusRetry }

/-- The database: the table `notifications` and its id sequence. -/
structure Store where
  notifications : List Notification
  nextID : Nat
deriving DecidableEq

def emptyStore : Store :=
  { notifications := [], nextID := 1 }

/-- The constraints that table `notifications` puts on a row, as the tags of the struct declare
them: the `check` clauses of `type` and `status` and the sizes of `to` and `subject`.  A
statement that would write a row violating them fails and writes nothing. -/
def Notification.Admissible (n : Notification) : Bool :=
  n.Type' == TypeEmail &&
    (n.Status == StatusPending || n.Status == StatusSent || n.Status == StatusFailed ||
      n.Status == StatusRetry) &&
    decide (n.To.length ≤ 255) && decide (n.Subject.length ≤ 255)

/-- What an insert by gorm does to the struct before the statement runs: a zero-valued field
whose column declares a default takes it (`type`, `status`, `max_retries`; the default of
`retry_count` is its zero value), and a zero `created_at` or `updated_at` takes the current
instant. -/
def Notification.withDefaults (n : Notification) (now : Time) : Notification :=
  { n with
    Type' := if n.Type' = "" then TypeEmail else n.Type'
    Status := if n.Status = "" then StatusPending else n.Status
    MaxRetries := if n.MaxRetries = 0 then 3 else n.MaxRetries
    CreatedAt := if n.CreatedAt = 0 then now else n.CreatedAt
    UpdatedAt := if n.UpdatedAt = 0 then now else n.UpdatedAt }

/-- The statement `database.DB.Save(notification)`: the struct after the call and the database
after it.  With a zero id the struct is inserted under the next id of the sequence, which is
drawn before the row is checked.  Otherwise every column of the row with this id is rewritten and
`updated_at` becomes the current instant; when no row has the id the struct is inserted under
its id.  The error of a failed statement is dropped by the one caller and is not part of the
result. -/
def Store.Save (s : Store) (now : Time) (n : Notification) : Notification × Store :=
  if n.ID = 0 then
    let created : Notification := n.withDefaults now
    if created.Admissible && !(s.notifications.any fun m => m.ID == s.nextID) then
      ({ created with ID := s.nextID },
        { notifications := s.notifications ++ [{ created with ID := s.nextID }]
          nextID := s.nextID + 1 })
    else (created, { s with nextID := s.nextID + 1 })
  else
    let updated : Notification := { n with UpdatedAt := now }
    if s.notifications.any (fun m => m.ID == n.ID) then
      if updated.Admissible then
        (updated,
          { s with notifications := s.notifications.map fun m => if m.ID = n.ID then updated else m })
      else (updated, s)
    else
      let created : Notification := updated.withDefaults now
      if created.Admissible then (created, { s with notifications := s.notifications ++ [created] })
      else (created, s)

/-- The JSON envelope written by `respondWithJSON`: status and message. -/
structure Response where
  status : Nat
  message : String
deriving DecidableEq

structure SendEmailRequest where
  To : String
  Subject : String
  Content : String
  SendNow : Bool
deriving DecidableEq

/-- The call `utils.ValidateStruct(req)` for `SendEmailRequest`, read off the struct tags; the
function itself is not among the sources of this service and is taken to be the one of the
sibling services.  `isEmail` is the validator's email format test. -/
def validateSendEmailRequest (isEmail : String → Bool) (req : SendEmailRequest) : Option String :=
  if req.To = "" then some "field To is required"
  else if !(isEmail req.To) then some "field To is email"
  else if req.Content = "" then some "field Content is required"
  else none

/-- Handler `NotificationController.SendEmail`, from the decoded request on.  `createErr` says
whether `database.DB.Create(&notification)` reported an error.  The third component is the id
handed to the goroutine `processEmailNotificationAsync`, when one is started. -/
def SendEmail (s : Store) (now : Time) (isEmail : String → Bool) (req : SendEmailRequest)
    (createErr : Bool) : Response × Store × Option Nat :=
  match validateSendEmailRequest isEmail req with
  | some e => (⟨400, e⟩, s, none)
  | none =>
    let subject : String := if req.Subject = "" then "Notification" else req.Subject
    let notification : Notification :=
      { ID := s.nextID
        Type' := TypeEmail
        To := req.To
        Subject := subject
        Content := req.Content
        Status := StatusPending
        RetryCount := 0
        MaxRetries := 3
        ScheduledAt := none
        SentAt := none
        ErrorMsg := ""
        CreatedAt := now
        UpdatedAt := now }
    if createErr then (⟨500, "Failed to create notification"⟩, s, none)
    else
      (⟨200, "Email queued successfully"⟩,
        { s with notifications := s.notifications ++ [notification], nextID := s.nextID + 1 },
        some notification.ID)

/-- Method `processEmailNotification`: whether the send succeeded, the struct behind the pointer
after the call, and the store after `database.DB.Save(notification)`.  `sendErr` is what
`utils.SendEmail` returned. -/
def processEmailNotification (s : Store) (now : Time) (sendErr : Option String)
    (notification : Notification) : Bool × Notification × Store :=
  let after : Notification :=
    match sendErr with
    | some text =>
      ({ notification with Status := StatusFailed, ErrorMsg := text } : Notification).IncrementRetry
    | none => { notification with Status := StatusSent, SentAt := some now, ErrorMsg := "" }
  (sendErr.isNone, (s.Save now after).1, (s.Save now after).2)

/-- Method `processEmailNotificationAsync`: the store after the goroutine has run. -/
def processEmailNotificationAsync (s : Store) (now : Time) (notificationID : Nat)
    (sendErr : Option String) : Store :=
  match s.notifications.find? (fun n => n.ID == notificationID) with
  | none => s
  | some notification => (processEmailNotification s now sendErr notification).2.2

/-- What one call of `ProcessPendingNotifications` does: its response, the three counters of the
response body, the store it leaves, and the items it handed to `utils.SendEmail`, in order. -/
structure BatchResult where
  response : Response
  processed : Nat
  successful : Nat
  failed : Nat
  store : Store
  attempted : List Notification
deriving DecidableEq

/-- The loop body of `ProcessPendingNotifications` for one fetched item. -/
def processOne (now : Time) (send : Notification → Option String) (acc : BatchResult)
    (notification : Notification) : BatchResult :=
  if notification.Type' = TypeEmail then
    let r := processEmailNotification acc.store now (send notification) notification
    { acc with
      processed := acc.processed + 1
      successful := if r.1 then acc.successful + 1 else acc.successful
      failed := if r.1 then acc.failed else acc.failed + 1
      store := r.2.2
      attempted := acc.attempted ++ [notification] }
  else { acc with processed := acc.processed + 1, failed := acc.failed + 1 }

/-- Handler `NotificationController.ProcessPendingNotifications`.  `send n` is what
`utils.SendEmail` returns for item `n` in this pass and `queryErr` says whether `Find` reported
an error. -/
def ProcessPendingNotifications (s : Store) (now : Time) (send : Notification → Option String)
    (queryErr : Bool) : BatchResult :=
  if queryErr then ⟨⟨500, "Failed to fetch notifications"⟩, 0, 0, 0, s, []⟩
  else
    let notifications := s.notifications.filter fun n =>
      n.Status == StatusPending || n.Status == StatusRetry
    notifications.foldl (processOne now send) ⟨⟨200, "Batch processing completed"⟩, 0, 0, 0, s, []⟩

/-- The service between requests: the database and the ids of the goroutines that `SendEmail`
has started and that have not run yet. -/
structure Service where
  store : Store
  detached : List Nat
deriving DecidableEq

def emptyService : Service :=
  { store := emptyStore, detached := [] }

/-- One step of the service: a `SendEmail` request, the run of a started goroutine, or a
`ProcessPendingNotifications` pass. -/
inductive Op where
  | sendEmail (now : Time) (isEmail : String → Bool) (req : SendEmailRequest)
      (createErr : Bool) : Op
  | runDetached (now : Time) (notificationID : Nat) (sendErr : Option String) : Op
  | processPending (now : Time) (send : Notification → Option String) (queryErr : Bool) : Op

/-- The service after one step.  A goroutine runs only if it has been started and has not run. -/
def step (v : Service) : Op → Service
  | .sendEmail now isEmail req createErr =>
    let r := SendEmail v.store now isEmail req createErr
    { store := r.2.1, detached := v.detached ++ r.2.2.toList }
  | .runDetached now notificationID sendErr =>
    if notificationID ∈ v.detached then
      { store := processEmailNotificationAsync v.store now notificationID sendErr
        detached := v.detached.erase notificationID }
    else v
  | .processPending now send queryErr =>
    { v with store := (ProcessPendingNotifications v.store now send queryErr).store }

def run (v : Service) (ops : List Op) : Service :=
  ops.foldl step v

/-- The check constraint of column `type`: every row is an email item. -/
def Store.AllEmail (s : Store) : Prop :=
  ∀ n ∈ s.notifications, n.Type' = TypeEmail

instance (s : Store) : Decidable s.AllEmail := by
  unfold Store.AllEmail; infer_instance

/-- A request to notify one address. -/
def sampleRequest : SendEmailRequest :=
  { To := "v1@example.com", Subject := "", Content := "hello", SendNow := true }

/-- The item that `SendEmail` creates for `sampleRequest` at instant 0 on the empty database. -/
def sampleItem : Notification :=
  { ID := 1, Type' := TypeEmail, To := "v1@example.com", Subject := "Notification",
    Content := "hello", Status := StatusPending, RetryCount := 0, MaxRetries := 3,
    ScheduledAt := none, SentAt := none, ErrorMsg := "", CreatedAt := 0, UpdatedAt := 0 }

/-- An item that has no row, with id 7 and `max_retries` 0. -/
def unstoredItem : Notification :=
  { sampleItem with ID := 7, MaxRetries := 0 }

/-- A transport that refuses every message. -/
def alwaysFails : Notification → Option String := fun _ => some "failed to send email: timeout"

/-- The item is queued, three batch passes fail to send it, and only then does the goroutine
started by `SendEmail` run, its send failing too. -/
def lateGoroutineOps : List Op :=
  [Op.sendEmail 0 (fun _ => true) sampleRequest false,
    Op.processPending 1 alwaysFails false,
    Op.processPending 2 alwaysFails false,
    Op.processPending 3 alwaysFails false,
    Op.runDetached 4 1 (some "failed to send email: timeout")]

end NotificationService

/-!
# Auth service: one-time codes for password reset

A shallow embedding of `generateOTP`, `ForgotPassword` and `ResetPassword` of
`auth-service`.  An instant is a count of nanoseconds.  The three bytes read
from `crypto/rand`, the validator's email format test and the password hash
function are arguments.
-/

namespace AuthService

/-- An instant of `time.Time`, in nanoseconds. -/
abbrev Time := Int

/-- The duration `time.Minute`. -/
def Minute : Int := 60 * 1000000000

/-- A row of table `users`, without the vendor details. -/
structure User where
  ID : Nat
  FirstName : String
  LastName : String
  Email : String
  Password : String
  Role : String
  IsActive : Bool
  CreatedAt : Time
  UpdatedAt : Time
deriving DecidableEq

/-- Modelled from the spec: the record type `models.PasswordResetOTP`, whose declaration is not
among the sources.  It is the stored code record of the specification, with the fields that the
controller reads and writes and the primary key by which gorm saves and deletes a row. -/
structure PasswordResetOTP where
  ID : Nat
  Email : String
  OTP : String
  Attempts : Int
  ExpiresAt : Time
deriving DecidableEq

/-- The database: the users, the stored code records and the id sequence of the latter. -/
structure Store where
  users : List User
  otps : List PasswordResetOTP
  nextOTPID : Nat
deriving DecidableEq

/-- The JSON envelope written by `respondWithJSON`: status and message. -/
structure Response where
  status : Nat
  message : String
deriving DecidableEq

/-- A call of `notificationService.SendEmail`: recipient and subject. -/
structure SentEmail where
  To : String
  Subject : String
deriving DecidableEq

/-- The format `%06d` of `fmt.Sprintf` on a number that is not negative: its decimal digits,
padded on the left with zeros to six characters and never cut. -/
def sprintf06d (n : Nat) : String :=
  String.mk (List.replicate (6 - (toString n).length) '0') ++ toString n

/-- Function `generateOTP` on the three bytes that `rand.Read` delivered.  In Go `%` and `<<`
bind tighter than `|`, so the remainder is taken of the last byte alone. -/
def generateOTP (b0 b1 b2 : Fin 256) : String :=
  sprintf06d ((b0.val <<< 16) ||| (b1.val <<< 8) ||| (b2.val % 1000000))

structure ForgotPasswordRequest where
  Email : String
deriving DecidableEq

structure ResetPasswordRequest where
  Email : String
  OTP : String
  NewPassword : String
deriving DecidableEq

/-- The call `utils.ValidateStruct(req)` for `ForgotPasswordRequest`, read off the struct tags;
the function itself is not among the sources of this service and is taken to be the one of the
sibling services.  `isEmail` is the validator's email format test. -/
def validateForgotPasswordRequest (isEmail : String → Bool) (req : ForgotPasswordRequest) :
    Option String :=
  if req.Email = "" then some "field Email is required"
  else if !(isEmail req.Email) then some "field Email is email"
  else none

/-- The call `utils.ValidateStruct(req)` for `ResetPasswordRequest`, read off the struct tags in
the same way; `len` and `min` count characters. -/
def validateResetPasswordRequest (isEmail : String → Bool) (req : ResetPasswordRequest) :
    Option String :=
  if req.Email = "" then some "field Email is required"
  else if !(isEmail req.Email) then some "field Email is email"
  else if req.OTP = "" then some "field OTP is required"
  else if req.OTP.length ≠ 6 then some "field OTP is len"
  else if req.NewPassword = "" then some "field NewPassword is required"
  else if req.NewPassword.length < 8 then some "field NewPassword is min"
  else none

/-- Handler `AuthController.ForgotPassword`, from the decoded request on.  `createErr` says
whether `database.DB.Create(&resetOTP)` reported an error. -/
def ForgotPassword (s : Store) (now : Time) (isEmail : String → Bool)
    (req : ForgotPasswordRequest) (b0 b1 b2 : Fin 256) (createErr : Bool) :
    Response × Store × List SentEmail :=
  match validateForgotPasswordRequest isEmail req with
  | some e => (⟨400, e⟩, s, [])
  | none =>
    match s.users.find? (fun u => u.Email == req.Email) with
    | none => (⟨200, "If the email exists, an OTP has been sent"⟩, s, [])
    | some _ =>
      let cleared : Store := { s with otps := s.otps.filter fun o => !(o.Email == req.Email) }
      let otp := generateOTP b0 b1 b2
      let resetOTP : PasswordResetOTP :=
        { ID := s.nextOTPID
          Email := req.Email
          OTP := otp
          Attempts := 0
          ExpiresAt := now + 15 * Minute }
      if createErr then (⟨500, "Failed to process request"⟩, cleared, [])
      else
        (⟨200, "If the email exists, an OTP has been sent"⟩,
          { cleared with otps := cleared.otps ++ [resetOTP], nextOTPID := s.nextOTPID + 1 },
          [⟨req.Email, "Password Reset OTP"⟩])

/-- The statement `database.DB.Delete(&resetOTP)`: the rows with this primary key go. -/
def Store.deleteOTP (s : Store) (resetOTP : PasswordResetOTP) : Store :=
  { s with otps := s.otps.filter fun o => !(o.ID == resetOTP.ID) }

/-- The statement `database.DB.Save(&resetOTP)` for a row that exists: it is rewritten. -/
def Store.saveOTP (s : Store) (resetOTP : PasswordResetOTP) : Store :=
  { s with otps := s.otps.map fun o => if o.ID = resetOTP.ID then resetOTP else o }

/-- Handler `AuthController.ResetPassword`, from the decoded request on.  `hash` is
`utils.HashPassword` (`none` for an error) and `updateErr` says whether the password update
reported an error.  `Attempts++` is taken on a value below 3 and cannot wrap. -/
def ResetPassword (s : Store) (now : Time) (isEmail : String → Bool)
    (req : ResetPasswordRequest) (hash : String → Option String) (updateErr : Bool) :
    Response × Store × List SentEmail :=
  match validateResetPasswordRequest isEmail req with
  | some e => (⟨400, e⟩, s, [])
  | none =>
    match s.otps.find? (fun o => o.Email == req.Email) with
    | none => (⟨400, "Invalid or expired OTP"⟩, s, [])
    | some resetOTP =>
      if now > resetOTP.ExpiresAt then (⟨400, "OTP has expired"⟩, s.deleteOTP resetOTP, [])
      else if resetOTP.Attempts ≥ 3 then
        (⟨400, "Too many failed attempts. Please request a new OTP"⟩, s.deleteOTP resetOTP, [])
      else if resetOTP.OTP ≠ req.OTP then
        let counted : PasswordResetOTP := { resetOTP with Attempts := resetOTP.Attempts + 1 }
        if counted.Attempts ≥ 3 then
          (⟨400, "Too many failed attempts. Please request a new OTP"⟩, s.deleteOTP counted, [])
        else
          (⟨400, "Invalid OTP. " ++ toString (3 - counted.Attempts) ++ " attempts remaining"⟩,
            s.saveOTP counted, [])
      else
        match s.users.find? (fun u => u.Email == req.Email) with
        | none => (⟨400, "User not found"⟩, s, [])
        | some user =>
          match hash req.NewPassword with
          | none => (⟨500, "Failed to process password"⟩, s, [])
          | some hashedPassword =>
            if updateErr then (⟨500, "Failed to update password"⟩, s, [])
            else
              let updated : Store :=
                { s with
                  users := s.users.map fun u =>
                    if u.ID = user.ID then { u with Password := hashedPassword, UpdatedAt := now }
                    else u }
              (⟨200, "Password reset successful"⟩, updated.deleteOTP resetOTP,
                [⟨req.Email, "Password Reset Successful"⟩])

/-- A registered user. -/
def sampleUser : User :=
  { ID := 1, FirstName := "Asha", LastName := "Rao", Email := "asha@example.com",
    Password := "old-hash", Role := "vendor", IsActive := true, CreatedAt := 0, UpdatedAt := 0 }

/-- The stored code record of `sampleUser`: code 004242, no failed attempt, expiry at 900. -/
def sampleOTP : PasswordResetOTP :=
  { ID := 1, Email := "asha@example.com", OTP := "004242", Attempts := 0, ExpiresAt := 900 }

/-- A database with `sampleUser` and her outstanding code. -/
def sampleStore : Store :=
  { users := [sampleUser], otps := [sampleOTP], nextOTPID := 2 }

/-- A reset request for `sampleUser` with the given code. -/
def sampleReset (otp : String) : ResetPasswordRequest :=
  { Email := "asha@example.com", OTP := otp, NewPassword := "correct horse" }

/-- The record `c` is the outstanding code of its email: it is stored, and no other stored row
has its email or its primary key. -/
def Store.Outstanding (s : Store) (c : PasswordResetOTP) : Prop :=
  c ∈ s.otps ∧ ∀ o ∈ s.otps, o.Email = c.Email ∨ o.ID = c.ID → o = c

instance (s : Store) (c : PasswordResetOTP) : Decidable (s.Outstanding c) := by
  unfold Store.Outstanding; infer_instance


/-- One request to the password-reset handlers, with everything the handler reads from outside
the store. -/
inductive Op where
  | forgotPassword (now : Time) (isEmail : String → Bool) (req : ForgotPasswordRequest)
      (b0 b1 b2 : Fin 256) (createErr : Bool) : Op
  | resetPassword (now : Time) (isEmail : String → Bool) (req : ResetPasswordRequest)
      (hash : String → Option String) (updateErr : Bool) : Op

/-- The store after one request. -/
def step (s : Store) : Op → Store
  | .forgotPassword now isEmail req b0 b1 b2 createErr =>
    (ForgotPassword s now isEmail req b0 b1 b2 createErr).2.1
  | .resetPassword now isEmail req hash updateErr =>
    (ResetPassword s now isEmail req hash updateErr).2.1

/-- The store after a sequence of requests served one after the other. -/
def run (s : Store) (ops : List Op) : Store :=
  ops.foldl step s

/-- The stored code records have distinct emails and distinct ids, all below the sequence. -/
def Store.OneCodePerEmail (s : Store) : Prop :=
  (s.otps.map (·.Email)).Nodup ∧ (s.otps.map (·.ID)).Nodup ∧ ∀ o ∈ s.otps, o.ID < s.nextOTPID

/-- The record that `ForgotPassword` stores. -/
def issuedOTP (s : Store) (now : Time) (req : ForgotPasswordRequest) (b0 b1 b2 : Fin 256) :
    PasswordResetOTP :=
  ⟨s.nextOTPID, req.Email, generateOTP b0 b1 b2, 0, now + 15 * Minute⟩

/-- A database with `sampleUser` and no stored code. -/
def registeredStore : Store :=
  { users := [sampleUser], otps := [], nextOTPID := 1 }

/-- The request of `sampleUser` for a code. -/
def sampleForgot : ForgotPasswordRequest :=
  { Email := "asha@example.com" }

/-! ## utils/jwt.go -/

/-- The durations `time.Second` and `time.Hour`. -/
def Second : Int := 1000000000

def Hour : Int := 60 * Minute

/-- The registered claims that `generateToken` sets, with the user id and role; a token is
represented by its claims. -/
structure Claims where
  UserID : Nat
  Role : String
  ExpiresAt : Time
  IssuedAt : Time
  NotBefore : Time
deriving DecidableEq

/-- The constructor `jwt.NewNumericDate`: the instant cut to whole seconds. -/
def NewNumericDate (t : Time) : Time :=
  t - t % Second

/-- Function `generateToken`: the claims of the token signed at instant `now`. -/
def generateToken (now : Time) (userID : Nat) (role : String) (duration : Int) : Claims :=
  { UserID := userID
    Role := role
    ExpiresAt := NewNumericDate (now + duration)
    IssuedAt := NewNumericDate now
    NotBefore := NewNumericDate now }

/-- Function `GenerateTokenPair`: the refresh token and the access token, in this order. -/
def GenerateTokenPair (now : Time) (userID : Nat) (role : String) : Claims × Claims :=
  let accessToken := generateToken now userID role (Minute * 24 * 1)
  let refreshToken := generateToken now userID role (Hour * 24 * 7)
  (refreshToken, accessToken)

/-- Function `RefreshAccessToken`; `validated` is what `ValidateToken` made of the refresh token
(`none` for an invalid one). -/
def RefreshAccessToken (now : Time) (validated : Option Claims) : Option Claims :=
  match validated with
  | none => none
  | some claims => some (generateToken now claims.UserID claims.Role (Minute * 15))

end AuthService

/-!
# Paginated listings

The handlers `GetVendors` and `GetVendorsByCategory` of `auth-service` and
`GetCategories` of `category-service` compute their pagination with the same
statements.  Go `int` and `int64` values are integers reduced to the signed
64-bit range after each operation.
-/

namespace Listing

/-- The value of a Go `int` after an arithmetic result `x`: reduced to the signed 64-bit range. -/
def wrapInt (x : Int) : Int :=
  (x + 2 ^ 63) % 2 ^ 64 - 2 ^ 63

/-- The number written by a list of decimal digits. -/
def digitsValue (cs : List Char) : Nat :=
  cs.foldl (fun acc c => acc * 10 + (c.toNat - 48)) 0

/-- Function `strconv.Atoi`: an optional sign and decimal digits, within the range of `int`;
`none` for an error. -/
def Atoi (s : String) : Option Int :=
  let cs := s.toList
  let signed : Bool × List Char :=
    match cs with
    | '-' :: rest => (true, rest)
    | '+' :: rest => (false, rest)
    | _ => (false, cs)
  if signed.2.isEmpty || !(signed.2.all Char.isDigit) then none
  else
    let v : Int := if signed.1 then -(digitsValue signed.2 : Int) else (digitsValue signed.2 : Int)
    if v < -(2 ^ 63) ∨ v > 2 ^ 63 - 1 then none else some v

/-- The page the handlers use for the query value `page` (the empty string when absent). -/
def effectivePage (pageStr : String) : Int :=
  if pageStr ≠ "" then
    match Atoi pageStr with
    | some p => if p > 0 then p else 1
    | none => 1
  else 1

/-- The limit the handlers use for the query value `limit`. -/
def effectiveLimit (limitStr : String) : Int :=
  if limitStr ≠ "" then
    match Atoi limitStr with
    | some l => if l > 0 ∧ l ≤ 100 then l else 10
    | none => 10
  else 10

/-- The struct `Pagination` of the response. -/
structure Pagination where
  CurrentPage : Int
  PerPage : Int
  Total : Int
  TotalPages : Int
deriving DecidableEq

/-- The statement `offset := (page - 1) * limit`. -/
def pageOffset (page limit : Int) : Int :=
  wrapInt (wrapInt (page - 1) * limit)

/-- The statement `totalPages := int((total + int64(limit) - 1) / int64(limit))`; the division
of Go truncates toward zero. -/
def totalPagesOf (total limit : Int) : Int :=
  wrapInt ((wrapInt (wrapInt (total + limit) - 1)).tdiv limit)

/-- The pagination part of the three handlers: the offset passed to the query and the
`Pagination` of the response, for the two query values and the row count `total`. -/
def paginate (pageStr limitStr : String) (total : Int) : Int × Pagination :=
  let page := effectivePage pageStr
  let limit := effectiveLimit limitStr
  (pageOffset page limit,
    { CurrentPage := page, PerPage := limit, Total := total,
      TotalPages := totalPagesOf total limit })

end Listing

namespace RfpQuoteService

/-! ## Lookups -/

theorem find?_ID_eq_none {l : List RFP} {id : Nat} (h : ∀ r ∈ l, r.ID ≠ id) :
    l.find? (fun r => r.ID == id) = none := by
  rw [List.find?_eq_none]
  intro r hr
  simpa using h r hr

theorem find?_ID_eq_some {l : List RFP} {rfp : RFP} {id : Nat}
    (hkey : (l.map (·.ID)).Nodup) (hmem : rfp ∈ l) (hid : rfp.ID = id) :
    l.find? (fun r => r.ID == id) = some rfp := by
  induction l with
  | nil => cases hmem
  | cons a t ih =>
    rw [List.map_cons, List.nodup_cons] at hkey
    rcases List.mem_cons.mp hmem with rfl | hin
    · simp [List.find?_cons, hid]
    · have hne : a.ID ≠ id := by
        intro h
        exact hkey.1 (List.mem_map.mpr ⟨rfp, hin, by rw [hid, h]⟩)
      simp [List.find?_cons, hne, ih hkey.2 hin]

theorem find?_ID_mem {l : List RFP} {rfp : RFP} {id : Nat}
    (h : l.find? (fun r => r.ID == id) = some rfp) : rfp ∈ l ∧ rfp.ID = id := by
  refine ⟨List.mem_of_find?_eq_some h, ?_⟩
  simpa using List.find?_some h

theorem find?_quote_eq_none {l : List RFPQuote} {id vendor : Nat} :
    l.find? (fun q => q.RFPID == id && q.VendorID == vendor) = none ↔
      ∀ q ∈ l, ¬ (q.RFPID = id ∧ q.VendorID = vendor) := by
  rw [List.find?_eq_none]
  simp

theorem find?_quote_isSome (l : List RFPQuote) (id vendor : Nat)
    (h : ∃ q ∈ l, q.RFPID = id ∧ q.VendorID = vendor) :
    ∃ q, l.find? (fun q => q.RFPID == id && q.VendorID == vendor) = some q := by
  cases hf : l.find? (fun q => q.RFPID == id && q.VendorID == vendor) with
  | some q => exact ⟨q, rfl⟩
  | none =>
    obtain ⟨q, hq, hk⟩ := h
    exact absurd hk (find?_quote_eq_none.mp hf q hq)

/-! ## Amounts as the table keeps them -/

theorem half_floor (n : Int) (d : Nat) (hd : 0 < d) :
    (2 * n + d) / (2 * (d : Int)) = ⌊(n : ℚ) / d + 1 / 2⌋ := by
  have h : (n : ℚ) / d + 1 / 2 = ((2 * n + d : Int) : ℚ) / ((2 * d : Nat) : ℚ) := by
    have hd0 : (d : ℚ) ≠ 0 := by exact_mod_cast hd.ne'
    push_cast
    field_simp
    ring
  rw [h, Rat.floor_intCast_div_natCast]
  push_cast
  rfl

/-- The hundredths kept for an amount `x` are `⌊100 x + 1/2⌋` for `x ≥ 0`, and the mirror image
for `x < 0`. -/
theorem decimalCents_eq (x : ℚ) :
    decimalCents x = if 0 ≤ x then ⌊100 * x + 1 / 2⌋ else -⌊-(100 * x) + 1 / 2⌋ := by
  have hd : 0 < x.den := x.den_pos
  have hx : ((x.num * 100 : Int) : ℚ) / x.den = 100 * x := by
    conv_rhs => rw [← Rat.num_div_den x]
    push_cast
    ring
  have hx2 : ((-(x.num * 100) : Int) : ℚ) / x.den = -(100 * x) := by
    conv_rhs => rw [← Rat.num_div_den x]
    push_cast
    ring
  unfold decimalCents roundHalfAway
  by_cases h0 : 0 ≤ x
  · have hn : 0 ≤ x.num * 100 := mul_nonneg (Rat.num_nonneg.mpr h0) (by norm_num)
    rw [if_pos hn, if_pos h0, half_floor _ _ hd, hx]
  · have hn : ¬ 0 ≤ x.num * 100 := by
      intro h
      apply h0
      have : 0 ≤ x.num := by omega
      exact Rat.num_nonneg.mp this
    rw [if_neg hn, if_neg h0, half_floor _ _ hd, hx2]

theorem decimalCents_mono {x y : ℚ} (h : x ≤ y) : decimalCents x ≤ decimalCents y := by
  rw [decimalCents_eq, decimalCents_eq]
  by_cases hx : 0 ≤ x
  · have hy : 0 ≤ y := le_trans hx h
    rw [if_pos hx, if_pos hy]
    exact Int.floor_mono (by linarith)
  · rw [if_neg hx]
    by_cases hy : 0 ≤ y
    · rw [if_pos hy]
      have h1 : 0 ≤ ⌊-(100 * x) + 1 / 2⌋ := Int.floor_nonneg.mpr (by linarith [not_le.mp hx])
      have h2 : 0 ≤ ⌊100 * y + 1 / 2⌋ := Int.floor_nonneg.mpr (by linarith)
      omega
    · rw [if_neg hy]
      have : ⌊-(100 * y) + 1 / 2⌋ ≤ ⌊-(100 * x) + 1 / 2⌋ := Int.floor_mono (by linarith)
      omega

theorem roundDecimal2_eq_div (x : ℚ) : roundDecimal2 x = (decimalCents x : ℚ) / 100 := by
  unfold roundDecimal2
  rw [Rat.divInt_eq_div]
  norm_num

theorem decimalCents_div_100 (k : Int) : decimalCents ((k : ℚ) / 100) = k := by
  rw [decimalCents_eq]
  have h100 : 100 * ((k : ℚ) / 100) = k := by field_simp
  rw [h100]
  by_cases hk : 0 ≤ (k : ℚ) / 100
  · rw [if_pos hk, Int.floor_int_add]
    norm_num
  · rw [if_neg hk]
    have : (-(k : ℚ) + 1 / 2) = (((-k : Int) : ℚ) + 1 / 2) := by push_cast; ring
    rw [this, Int.floor_int_add]
    norm_num

/-- Rounding to the column type keeps the order of amounts. -/
theorem roundDecimal2_mono {x y : ℚ} (h : x ≤ y) : roundDecimal2 x ≤ roundDecimal2 y := by
  rw [roundDecimal2_eq_div, roundDecimal2_eq_div]
  have h2 : (decimalCents x : ℚ) ≤ decimalCents y := by exact_mod_cast decimalCents_mono h
  linarith

/-- A value of the column is kept as it is. -/
theorem roundDecimal2_idem (x : ℚ) : roundDecimal2 (roundDecimal2 x) = roundDecimal2 x := by
  rw [roundDecimal2_eq_div x, roundDecimal2_eq_div, decimalCents_div_100]

/-- The value kept differs from the amount by at most half a hundredth. -/
theorem roundDecimal2_near (x : ℚ) : |roundDecimal2 x - x| ≤ 1 / 200 := by
  rw [roundDecimal2_eq_div, decimalCents_eq, abs_le]
  by_cases h0 : 0 ≤ x
  · rw [if_pos h0]
    have h1 := Int.floor_le (100 * x + 1 / 2)
    have h2 := Int.lt_floor_add_one (100 * x + 1 / 2)
    constructor <;> linarith
  · rw [if_neg h0]
    have h1 := Int.floor_le (-(100 * x) + 1 / 2)
    have h2 := Int.lt_floor_add_one (-(100 * x) + 1 / 2)
    push_cast
    constructor <;> linarith

/-- The column accepts an amount exactly when the absolute value of the rounded amount is below
10^13. -/
theorem fitsDecimal15_2_iff (x : ℚ) : fitsDecimal15_2 x = true ↔ |roundDecimal2 x| < 10 ^ 13 := by
  unfold fitsDecimal15_2
  rw [decide_eq_true_iff, roundDecimal2_eq_div]
  have h100 : |(decimalCents x : ℚ) / 100| = (((decimalCents x).natAbs : Nat) : ℚ) / 100 := by
    rw [abs_div, Nat.cast_natAbs, Int.cast_abs]
    norm_num
  rw [h100, div_lt_iff₀ (by norm_num)]
  constructor
  · intro h
    have h2 : (((decimalCents x).natAbs : Nat) : ℚ) < ((10 ^ 15 : Nat) : ℚ) := by exact_mod_cast h
    norm_num at h2 ⊢
    exact h2
  · intro h
    have h2 : (((decimalCents x).natAbs : Nat) : ℚ) < ((10 ^ 15 : Nat) : ℚ) := by
      norm_num at h ⊢
      exact h
    exact_mod_cast h2

theorem fitsDecimal15_2_eq_false_iff (x : ℚ) :
    fitsDecimal15_2 x = false ↔ 10 ^ 13 ≤ |roundDecimal2 x| := by
  rw [← not_lt, ← fitsDecimal15_2_iff, Bool.not_eq_true]

/-- The insert of a quote fails exactly for an outside error or an amount whose rounded value
reaches 10^13. -/
theorem quoteCreateFails_iff (req : SubmitQuoteRequest) (createErr : Bool) :
    quoteCreateFails req createErr = true ↔
      createErr = true ∨ 10 ^ 13 ≤ |roundDecimal2 req.VendorPrice| ∨
        10 ^ 13 ≤ |roundDecimal2 req.TotalCost| := by
  unfold quoteCreateFails
  rw [Bool.or_eq_true, Bool.or_eq_true, Bool.not_eq_true', Bool.not_eq_true',
    fitsDecimal15_2_eq_false_iff, fitsDecimal15_2_eq_false_iff, or_assoc]

/-- The insert of an RFP fails exactly for an outside error or a bound whose rounded value
reaches 10^13. -/
theorem rfpCreateFails_iff (req : CreateRFPRequest) (createErr : Bool) :
    rfpCreateFails req createErr = true ↔
      createErr = true ∨ 10 ^ 13 ≤ |roundDecimal2 req.MinAmount| ∨
        10 ^ 13 ≤ |roundDecimal2 req.MaxAmount| := by
  unfold rfpCreateFails
  rw [Bool.or_eq_true, Bool.or_eq_true, Bool.not_eq_true', Bool.not_eq_true',
    fitsDecimal15_2_eq_false_iff, fitsDecimal15_2_eq_false_iff, or_assoc]

/-! ## Openness -/

theorem RFP.IsOpen_eq_true_iff (r : RFP) (now : Time) :
    r.IsOpen now = true ↔ r.Status = RFPStatusOpen ∧ now < r.LastDate := by
  simp [RFP.IsOpen]

/-- C4: `IsOpen` answers true for an RFP with status open and a last date after now whose active
flag is false, where the three conditions of the claim do not all hold.  The openness filter of
`GetAvailableRFPs` does test the flag: on a database holding this RFP, linked to vendor 1, the
listing for vendor 1 is empty, yet `SubmitQuote` by vendor 1 finds the RFP open and stores the
quote. -/
theorem IsOpen_true_on_inactive_rfp :
    inactiveOpenRFP.IsOpen 5 = true ∧
      ¬ (inactiveOpenRFP.Status = RFPStatusOpen ∧ inactiveOpenRFP.IsActive = true ∧
        (5 : Time) < inactiveOpenRFP.LastDate) ∧
      GetAvailableRFPs inactiveStore 5 1 "vendor" false = (⟨200, "Available RFPs"⟩, []) ∧
      (SubmitQuote inactiveStore 5 1 "vendor" (scenarioQuote 3000) false).1 =
        ⟨200, "Quote submitted successfully"⟩ := by
  decide

/-- What `IsOpen` does compute: for every RFP and every instant now it is true if and only if
the status is open and now is strictly before the last date; the active flag is not read, so
changing it does not change the answer. -/
theorem IsOpen_iff_status_open_and_before_last_date (r : RFP) (now : Time) :
    (r.IsOpen now = true ↔ r.Status = RFPStatusOpen ∧ now < r.LastDate) ∧
      ∀ active : Bool, ({ r with IsActive := active } : RFP).IsOpen now = r.IsOpen now := by
  refine ⟨by simp [RFP.IsOpen], fun active => rfl⟩

/-- C5: whatever the stored status and active flag, `IsOpen` is false at every instant `now` with
`now ≥ last_date`, equality included. -/
theorem IsOpen_false_of_deadline_reached (r : RFP) (now : Time) (h : now ≥ r.LastDate) :
    r.IsOpen now = false := by
  have hlt : ¬ now < r.LastDate := not_lt.mpr h
  simp [RFP.IsOpen, hlt]

theorem IsOpen_false_of_deadline_reached_witness :
    (⟨1, "t", "", 1, 10, 0, 1, RFPStatusOpen, true, some 1, 1, 0, 0⟩ : RFP).IsOpen 10 = false :=
  IsOpen_false_of_deadline_reached _ 10 (by decide)

/-! ## The scenario -/

/-- The scenario store is the one reached by creating the scenario RFP on the empty database. -/
theorem run_scenarioOps : run emptyStore scenarioOps = scenarioStore := by
  decide

/-- The scenario store is reachable. -/
theorem Reachable_scenarioStore : Reachable scenarioStore :=
  ⟨scenarioOps, run_scenarioOps⟩

/-! ## SubmitQuote -/

/-- C1, as the claim states it, fails.  The scenario RFP is open at instant 5, vendor 1 has no
quote for it and the total cost 3000 is within its budget; the validated request whose item price
is 10^13 is answered 500 and nothing is stored, because the price does not fit its column; and
the validated request whose item price is 1/8 is accepted, but the quote stored carries the
price 13/100, not the price of the request. -/
theorem SubmitQuote_price_overflows_or_is_rounded :
    validateSubmitQuoteRequest overflowQuote = none ∧
      scenarioRFP.IsOpen 5 = true ∧ scenarioStore.rfp_quotes = [] ∧
      scenarioRFP.MinAmount ≤ overflowQuote.TotalCost ∧
      overflowQuote.TotalCost ≤ scenarioRFP.MaxAmount ∧
      SubmitQuote scenarioStore 5 1 "vendor" overflowQuote false =
        (⟨500, "Failed to submit quote"⟩, scenarioStore) ∧
      validateSubmitQuoteRequest eighthQuote = none ∧
      eighthQuote.VendorPrice = mkRat 1 8 ∧
      (SubmitQuote scenarioStore 5 1 "vendor" eighthQuote false).1 =
        ⟨200, "Quote submitted successfully"⟩ ∧
      (SubmitQuote scenarioStore 5 1 "vendor" eighthQuote false).2.rfp_quotes.map
        (·.VendorPrice) = [mkRat 13 100] := by
  decide

/-- C1, amended: for every store whose RFP ids are distinct and every validated request by a
vendor, `SubmitQuote` answers 404 when no RFP has the requested id; otherwise 400
closed-or-expired when that RFP is not open; otherwise 400 already-submitted when the vendor has
a quote for it; otherwise 400 out-of-budget when the total cost is below the minimum or above the
maximum; each of these rejections leaves the store unchanged.  Otherwise, when the insert fails,
it answers 500 and the three tables are as before; the insert fails exactly for an error outside
the model or when the price or the total cost, rounded to two decimals, reaches 10^13.
Otherwise it answers 200, the store gaining exactly one quote with the rfp id, description and
quantity of the request, its price and total cost rounded to two decimals (each within half a
hundredth of the amount requested), the caller as vendor and status pending. -/
theorem SubmitQuote_decision (s : Store) (now : Time) (vendor : Nat) (req : SubmitQuoteRequest)
    (createErr : Bool) (hkey : (s.rfps.map (·.ID)).Nodup)
    (hvalid : validateSubmitQuoteRequest req = none) :
    ((∀ r ∈ s.rfps, r.ID ≠ req.RFPID) →
        SubmitQuote s now vendor "vendor" req createErr = (⟨404, "RFP not found"⟩, s)) ∧
    (∀ rfp ∈ s.rfps, rfp.ID = req.RFPID →
      (rfp.IsOpen now = false →
        SubmitQuote s now vendor "vendor" req createErr = (⟨400, "RFP is closed or expired"⟩, s)) ∧
      (rfp.IsOpen now = true →
        (∃ q ∈ s.rfp_quotes, q.RFPID = req.RFPID ∧ q.VendorID = vendor) →
        SubmitQuote s now vendor "vendor" req createErr =
          (⟨400, "Quote already submitted for this RFP"⟩, s)) ∧
      (rfp.IsOpen now = true →
        (∀ q ∈ s.rfp_quotes, ¬ (q.RFPID = req.RFPID ∧ q.VendorID = vendor)) →
        (req.TotalCost < rfp.MinAmount ∨ req.TotalCost > rfp.MaxAmount) →
        SubmitQuote s now vendor "vendor" req createErr =
          (⟨400, "Quote amount is outside the specified budget range"⟩, s)) ∧
      (rfp.IsOpen now = true →
        (∀ q ∈ s.rfp_quotes, ¬ (q.RFPID = req.RFPID ∧ q.VendorID = vendor)) →
        rfp.MinAmount ≤ req.TotalCost → req.TotalCost ≤ rfp.MaxAmount →
        (quoteCreateFails req createErr = true →
          (SubmitQuote s now vendor "vendor" req createErr).1 =
            ⟨500, "Failed to submit quote"⟩ ∧
          (SubmitQuote s now vendor "vendor" req createErr).2.rfp_quotes = s.rfp_quotes ∧
          (SubmitQuote s now vendor "vendor" req createErr).2.rfps = s.rfps ∧
          (SubmitQuote s now vendor "vendor" req createErr).2.rfp_vendors = s.rfp_vendors) ∧
        (quoteCreateFails req createErr = false →
          ∃ quote : RFPQuote,
            SubmitQuote s now vendor "vendor" req createErr =
              (⟨200, "Quote submitted successfully"⟩,
                { s with
                  rfp_quotes := s.rfp_quotes ++ [quote], nextQuoteID := s.nextQuoteID + 1 }) ∧
            quote.RFPID = req.RFPID ∧ quote.VendorID = vendor ∧
            quote.VendorPrice = roundDecimal2 req.VendorPrice ∧
            quote.ItemDescription = req.ItemDescription ∧
            quote.Quantity = req.Quantity ∧ quote.TotalCost = roundDecimal2 req.TotalCost ∧
            quote.Status = "pending" ∧ quote.SubmittedAt = now))) ∧
    (quoteCreateFails req createErr = true ↔
      createErr = true ∨ 10 ^ 13 ≤ |roundDecimal2 req.VendorPrice| ∨
        10 ^ 13 ≤ |roundDecimal2 req.TotalCost|) ∧
    |roundDecimal2 req.VendorPrice - req.VendorPrice| ≤ 1 / 200 ∧
    |roundDecimal2 req.TotalCost - req.TotalCost| ≤ 1 / 200 := by
  refine ⟨fun hnone => ?_, fun rfp hmem hid => ⟨fun hopen => ?_, fun hopen hq => ?_,
    fun hopen hq hout => ?_, fun hopen hq hmin hmax => ⟨fun hins => ?_, fun hins => ?_⟩⟩,
    quoteCreateFails_iff req createErr, roundDecimal2_near _, roundDecimal2_near _⟩
  · simp [SubmitQuote, hvalid, find?_ID_eq_none hnone]
  · simp [SubmitQuote, hvalid, find?_ID_eq_some hkey hmem hid, hopen]
  · obtain ⟨q, hfind⟩ := find?_quote_isSome _ _ _ hq
    simp [SubmitQuote, hvalid, find?_ID_eq_some hkey hmem hid, hopen, hfind]
  · have hfind := find?_quote_eq_none.mpr hq
    simp only [gt_iff_lt] at hout
    simp [SubmitQuote, hvalid, find?_ID_eq_some hkey hmem hid, hopen, hfind, hout]
  · have hfind := find?_quote_eq_none.mpr hq
    simp [SubmitQuote, hvalid, find?_ID_eq_some hkey hmem hid, hopen, hfind,
      not_lt.mpr hmin, not_lt.mpr hmax, hins]
  · have hfind := find?_quote_eq_none.mpr hq
    refine ⟨submittedQuote s now vendor req, ?_, rfl, rfl, rfl, rfl, rfl, rfl, rfl, rfl⟩
    simp [SubmitQuote, hvalid, find?_ID_eq_some hkey hmem hid, hopen, hfind,
      not_lt.mpr hmin, not_lt.mpr hmax, hins, submittedQuote]

theorem SubmitQuote_decision_witness :
    SubmitQuote scenarioStore 5 1 "vendor" (scenarioQuote 6000) false =
      (⟨400, "Quote amount is outside the specified budget range"⟩, scenarioStore) :=
  ((SubmitQuote_decision scenarioStore 5 1 (scenarioQuote 6000) false (by decide)
    (by decide)).2.1 scenarioRFP (by decide) (by decide)).2.2.1 (by decide) (by decide)
    (Or.inr (by decide))

/-- Every call of `SubmitQuote` either rejects and leaves the store as it was, or passed all four
checks and appended `submittedQuote`. -/
theorem SubmitQuote_cases (s : Store) (now : Time) (userID : Nat) (userRole : String)
    (req : SubmitQuoteRequest) (createErr : Bool) :
    ((SubmitQuote s now userID userRole req createErr).1.status ≠ 200 ∧
      (SubmitQuote s now userID userRole req createErr).2 = s) ∨
    (∃ rfp : RFP,
      s.rfps.find? (fun r => r.ID == req.RFPID) = some rfp ∧ rfp.IsOpen now = true ∧
      s.rfp_quotes.find? (fun q => q.RFPID == req.RFPID && q.VendorID == userID) = none ∧
      rfp.MinAmount ≤ req.TotalCost ∧ req.TotalCost ≤ rfp.MaxAmount ∧
      SubmitQuote s now userID userRole req createErr =
        (⟨200, "Quote submitted successfully"⟩,
          { s with
            rfp_quotes := s.rfp_quotes ++ [submittedQuote s now userID req]
            nextQuoteID := s.nextQuoteID + 1 })) := by
  unfold SubmitQuote
  by_cases hrole : userRole = "vendor"
  swap
  · left; simp [hrole]
  cases hv : validateSubmitQuoteRequest req with
  | some e => left; simp [hrole]
  | none =>
    cases hf : s.rfps.find? (fun r => r.ID == req.RFPID) with
    | none => left; simp [hrole]
    | some rfp =>
      cases hopen : rfp.IsOpen now with
      | false => left; simp [hrole, hopen]
      | true =>
        cases hq : s.rfp_quotes.find? (fun q => q.RFPID == req.RFPID && q.VendorID == userID) with
        | some q => left; simp [hrole, hopen]
        | none =>
          by_cases hmin : req.TotalCost < rfp.MinAmount
          · left; simp [hrole, hopen, hmin]
          by_cases hmax : rfp.MaxAmount < req.TotalCost
          · left; simp [hrole, hopen, hmax]
          by_cases hins : quoteCreateFails req createErr = true
          · left; simp [hrole, hopen, hmin, hmax, hins]
          · right
            exact ⟨rfp, rfl, hopen, rfl, not_lt.mp hmin, not_lt.mp hmax, by
              simp [hrole, hopen, hmin, hmax, hins, submittedQuote]⟩

/-- A vendor who already has a quote for an RFP is turned away, whatever else holds. -/
theorem SubmitQuote_of_existing_quote (s : Store) (now : Time) (userID : Nat) (userRole : String)
    (req : SubmitQuoteRequest) (createErr : Bool)
    (h : ∃ q ∈ s.rfp_quotes, q.RFPID = req.RFPID ∧ q.VendorID = userID) :
    (SubmitQuote s now userID userRole req createErr).1.status ≠ 200 ∧
      (SubmitQuote s now userID userRole req createErr).2 = s := by
  rcases SubmitQuote_cases s now userID userRole req createErr with hrej | ⟨rfp, _, _, hq, _⟩
  · exact hrej
  · obtain ⟨q, hmem, hk⟩ := h
    exact absurd hk (find?_quote_eq_none.mp hq q hmem)

/-- The store left by `CreateRFP`: untouched on a rejection, the id sequence advanced when the
transaction rolls back, and otherwise one more RFP with one link per listed vendor. -/
theorem CreateRFP_store_cases (s : Store) (now : Time) (userID : Nat) (userRole : String)
    (req : CreateRFPRequest) (createErr : Bool) (get : Nat → Nat → UserLookup)
    (list : Nat → VendorListing) :
    (CreateRFP s now userID userRole req createErr get list).store = s ∨
    (CreateRFP s now userID userRole req createErr get list).store =
      { s with nextRFPID := s.nextRFPID + 1 } ∨
    (req.VendorIDs.Nodup ∧
      (CreateRFP s now userID userRole req createErr get list).store =
        { s with
          rfps := s.rfps ++ [createdRFP s now userID req]
          rfp_vendors := s.rfp_vendors ++
            req.VendorIDs.map fun vendorID => ⟨s.nextRFPID, vendorID, now⟩
          nextRFPID := s.nextRFPID + 1 }) := by
  unfold CreateRFP
  by_cases hrole : userRole = "admin"
  swap
  · left; simp [hrole]
  cases hv : validateCreateRFPRequest req with
  | some e => left; simp [hrole]
  | none =>
    by_cases hamt : req.MaxAmount < req.MinAmount
    · left; simp [hrole, hamt]
    by_cases hdate : req.LastDate < now
    · left; simp [hrole, hamt, hdate]
    by_cases hlen : req.VendorIDs.length ≤ 0
    · left; simp [hrole, hamt, hdate, hlen]
    by_cases hins : rfpCreateFails req createErr = true
    · left; simp [hrole, hamt, hdate, hlen, hins]
    · by_cases hnd : req.VendorIDs.Nodup
      · right; right
        refine ⟨hnd, ?_⟩
        simp [hrole, hamt, hdate, hlen, hins, hnd, createdRFP]
      · right; left
        simp [hrole, hamt, hdate, hlen, hins, hnd]

/-- The store left by `UpdateRFPStatus`: untouched, or the rows with the found id replaced by the
found row carrying the new status, the matching active flag and the update instant. -/
theorem UpdateRFPStatus_store_cases (s : Store) (now : Time) (userID : Nat) (userRole : String)
    (rfpID : Nat) (status : String) (saveErr : Bool) :
    ((UpdateRFPStatus s now userID userRole rfpID status saveErr).1.status ≠ 200 ∧
      (UpdateRFPStatus s now userID userRole rfpID status saveErr).2 = s) ∨
    (∃ rfp : RFP, ∃ newStatus : RFPStatus, ∃ active : Bool,
      s.rfps.find? (fun r => r.ID == rfpID && r.UserID == userID) = some rfp ∧
      ((status = "open" ∧ newStatus = RFPStatusOpen ∧ active = true) ∨
        (status = "closed" ∧ newStatus = RFPStatusClosed ∧ active = false)) ∧
      UpdateRFPStatus s now userID userRole rfpID status saveErr =
        (⟨200, "RFP status updated successfully"⟩,
          { s with
            rfps := s.rfps.map fun r =>
              if r.ID = rfp.ID then
                { rfp with Status := newStatus, IsActive := active, UpdatedAt := now }
              else r })) := by
  unfold UpdateRFPStatus
  by_cases hrole : userRole = "admin"
  swap
  · left; simp [hrole]
  by_cases hid : (4294967296 : Nat) ≤ rfpID
  · left
    by_cases ho : status = "open"
    · simp [hrole, ho, hid]
    · by_cases hc : status = "closed"
      · simp [hrole, hc, hid]
      · simp [hrole, ho, hc]
  cases hf : s.rfps.find? (fun r => r.ID == rfpID && r.UserID == userID) with
  | none =>
    left
    by_cases ho : status = "open"
    · simp [hrole, ho, hid, hf]
    · by_cases hc : status = "closed"
      · simp [hrole, hc, hid, hf]
      · simp [hrole, ho, hc]
  | some rfp =>
    cases saveErr with
    | true =>
      left
      by_cases ho : status = "open"
      · simp [hrole, ho, hid, hf]
      · by_cases hc : status = "closed"
        · simp [hrole, hc, hid, hf]
        · simp [hrole, ho, hc]
    | false =>
      by_cases ho : status = "open"
      · right
        exact ⟨rfp, RFPStatusOpen, true, rfl, Or.inl ⟨ho, rfl, rfl⟩, by simp [hrole, ho, hid, hf]⟩
      · by_cases hc : status = "closed"
        · right
          exact ⟨rfp, RFPStatusClosed, false, rfl, Or.inr ⟨hc, rfl, rfl⟩, by
            simp [hrole, hc, hid, hf]⟩
        · left; simp [hrole, ho, hc]

/-- The store left by `DeleteRFP`: untouched, or without the rows that carry the found id. -/
theorem DeleteRFP_store_cases (s : Store) (userID : Nat) (userRole : String) (rfpID : Nat)
    (deleteErr : Bool) :
    ((DeleteRFP s userID userRole rfpID deleteErr).1.status ≠ 200 ∧
      (DeleteRFP s userID userRole rfpID deleteErr).2 = s) ∨
    (∃ rfp : RFP,
      s.rfps.find? (fun r => r.ID == rfpID && r.UserID == userID) = some rfp ∧
      DeleteRFP s userID userRole rfpID deleteErr =
        (⟨200, "Rfp request successfully deleted"⟩,
          { s with rfps := s.rfps.filter fun r => r.ID != rfp.ID })) := by
  unfold DeleteRFP
  by_cases hrole : userRole = "admin"
  swap
  · left; simp [hrole]
  by_cases hid : (4294967296 : Nat) ≤ rfpID
  · left; simp [hrole, hid]
  cases hf : s.rfps.find? (fun r => r.ID == rfpID && r.UserID == userID) with
  | none => left; simp [hrole, hid]
  | some rfp =>
    cases deleteErr with
    | true => left; simp [hrole, hid]
    | false => right; exact ⟨rfp, rfl, by simp [hrole, hid]⟩

/-- The third check of `SubmitQuote`: an open RFP for which the caller has a quote. -/
theorem SubmitQuote_duplicate (s : Store) (now : Time) (userID : Nat) (req : SubmitQuoteRequest)
    (createErr : Bool) (rfp : RFP) (q : RFPQuote)
    (hvalid : validateSubmitQuoteRequest req = none)
    (hf : s.rfps.find? (fun r => r.ID == req.RFPID) = some rfp) (hopen : rfp.IsOpen now = true)
    (hq : s.rfp_quotes.find? (fun q => q.RFPID == req.RFPID && q.VendorID == userID) = some q) :
    SubmitQuote s now userID "vendor" req createErr =
      (⟨400, "Quote already submitted for this RFP"⟩, s) := by
  simp [SubmitQuote, hvalid, hf, hopen, hq]

/-- The link table and the RFP id sequence are carried through `SubmitQuote` unread. -/
theorem SubmitQuote_with_links (s : Store) (links : List RFPVendor) (next : Nat) (now : Time)
    (userID : Nat) (userRole : String) (req : SubmitQuoteRequest) (createErr : Bool) :
    SubmitQuote { s with rfp_vendors := links, nextRFPID := next } now userID userRole req
        createErr =
      ((SubmitQuote s now userID userRole req createErr).1,
        { (SubmitQuote s now userID userRole req createErr).2 with
          rfp_vendors := links, nextRFPID := next }) := by
  unfold SubmitQuote
  by_cases hrole : userRole = "vendor"
  swap
  · simp [hrole]
  cases hv : validateSubmitQuoteRequest req with
  | some e => simp [hrole]
  | none =>
    cases hf : s.rfps.find? (fun r => r.ID == req.RFPID) with
    | none => simp [hrole, hf]
    | some rfp =>
      cases hopen : rfp.IsOpen now with
      | false => simp [hrole, hf, hopen]
      | true =>
        cases hq : s.rfp_quotes.find? (fun q => q.RFPID == req.RFPID && q.VendorID == userID) with
        | some q => simp [hrole, hf, hopen, hq]
        | none =>
          by_cases hmin : req.TotalCost < rfp.MinAmount
          · simp [hrole, hf, hopen, hq, hmin]
          by_cases hmax : rfp.MaxAmount < req.TotalCost
          · simp [hrole, hf, hopen, hq, hmax]
          by_cases hins : quoteCreateFails req createErr = true
          · simp [hrole, hf, hopen, hq, hmin, hmax, hins]
          · simp [hrole, hf, hopen, hq, hmin, hmax, hins]

/-- No route removes a quote. -/
theorem step_rfp_quotes_mono (s : Store) (op : Op) (q : RFPQuote) (h : q ∈ s.rfp_quotes) :
    q ∈ (step s op).rfp_quotes := by
  cases op with
  | createRFP now userID userRole req createErr get list =>
    rcases CreateRFP_store_cases s now userID userRole req createErr get list with
      heq | heq | ⟨_, heq⟩ <;> simp only [step, heq] <;> exact h
  | updateRFPStatus now userID userRole rfpID status saveErr =>
    rcases UpdateRFPStatus_store_cases s now userID userRole rfpID status saveErr with
      hrej | ⟨_, _, _, _, _, heq⟩
    · simp only [step, hrej.2]; exact h
    · simp only [step, heq]; exact h
  | deleteRFP userID userRole rfpID deleteErr =>
    rcases DeleteRFP_store_cases s userID userRole rfpID deleteErr with hrej | ⟨_, _, heq⟩
    · simp only [step, hrej.2]; exact h
    · simp only [step, heq]; exact h
  | submitQuote now userID userRole req createErr =>
    rcases SubmitQuote_cases s now userID userRole req createErr with
      hrej | ⟨_, _, _, _, _, _, heq⟩
    · simp only [step, hrej.2]; exact h
    · simp only [step, heq]; exact List.mem_append_left _ h
  | getRFPs _ _ => exact h
  | getRFPQuotes _ _ _ => exact h
  | getVendorRFPs _ _ _ _ => exact h
  | getAvailableRFPs _ _ _ => exact h

/-- One request leaves the quote table as it was or appends the row of a successful
`SubmitQuote`, and then the caller had no quote for that RFP before. -/
theorem step_rfp_quotes (s : Store) (op : Op) :
    (step s op).rfp_quotes = s.rfp_quotes ∨
    (∃ (now : Time) (userID : Nat) (req : SubmitQuoteRequest),
      (∀ q ∈ s.rfp_quotes, ¬ (q.RFPID = req.RFPID ∧ q.VendorID = userID)) ∧
      (step s op).rfp_quotes = s.rfp_quotes ++ [submittedQuote s now userID req]) := by
  cases op with
  | createRFP now userID userRole req createErr get list =>
    left
    rcases CreateRFP_store_cases s now userID userRole req createErr get list with
      heq | heq | ⟨_, heq⟩ <;> simp only [step, heq]
  | updateRFPStatus now userID userRole rfpID status saveErr =>
    left
    rcases UpdateRFPStatus_store_cases s now userID userRole rfpID status saveErr with
      hrej | ⟨_, _, _, _, _, heq⟩
    · simp only [step, hrej.2]
    · simp only [step, heq]
  | deleteRFP userID userRole rfpID deleteErr =>
    left
    rcases DeleteRFP_store_cases s userID userRole rfpID deleteErr with hrej | ⟨_, _, heq⟩
    · simp only [step, hrej.2]
    · simp only [step, heq]
  | submitQuote now userID userRole req createErr =>
    rcases SubmitQuote_cases s now userID userRole req createErr with
      hrej | ⟨_, _, _, hq, _, _, heq⟩
    · left; simp only [step, hrej.2]
    · right
      exact ⟨now, userID, req, find?_quote_eq_none.mp hq, by simp only [step, heq]⟩
  | getRFPs _ _ => exact Or.inl rfl
  | getRFPQuotes _ _ _ => exact Or.inl rfl
  | getVendorRFPs _ _ _ _ => exact Or.inl rfl
  | getAvailableRFPs _ _ _ => exact Or.inl rfl

theorem QuoteUnique_step (s : Store) (op : Op) (h : QuoteUnique s) : QuoteUnique (step s op) := by
  intro rfpID vendor
  rcases step_rfp_quotes s op with heq | ⟨now, userID, req, hnone, heq⟩
  · rw [heq]; exact h rfpID vendor
  · rw [heq, List.filter_append, List.length_append]
    by_cases hk : req.RFPID = rfpID ∧ userID = vendor
    · obtain ⟨rfl, rfl⟩ := hk
      have hempty : (s.rfp_quotes.filter fun q =>
          q.RFPID == req.RFPID && q.VendorID == userID) = [] := by
        rw [List.filter_eq_nil_iff]
        intro q hq
        simpa using hnone q hq
      rw [hempty]
      simp [submittedQuote]
    · have hempty : ([submittedQuote s now userID req].filter fun q =>
          q.RFPID == rfpID && q.VendorID == vendor) = [] := by
        rw [List.filter_eq_nil_iff]
        intro q hq
        rw [List.mem_singleton] at hq
        subst hq
        simpa [submittedQuote] using hk
      rw [hempty]
      simpa using h rfpID vendor

theorem QuoteUnique_run (ops : List Op) (s : Store) (h : QuoteUnique s) :
    QuoteUnique (run s ops) := by
  induction ops generalizing s with
  | nil => exact h
  | cons op rest ih => exact ih (step s op) (QuoteUnique_step s op h)

theorem run_rfp_quotes_mono (ops : List Op) (s : Store) (q : RFPQuote) (h : q ∈ s.rfp_quotes) :
    q ∈ (run s ops).rfp_quotes := by
  induction ops generalizing s with
  | nil => exact h
  | cons op rest ih => exact ih (step s op) (step_rfp_quotes_mono s op q h)

/-- C2: in every store reached from the empty one by requests served one after the other there
is at most one quote for each pair of RFP id and vendor id; and once a vendor's `SubmitQuote`
for an RFP has succeeded, every later `SubmitQuote` by that vendor for that RFP, whatever
happens in between, is rejected and leaves the store as it was; made right after the first one,
while the RFP is still before its last date, it is answered with the already-submitted
message. -/
theorem at_most_one_quote_per_rfp_and_vendor (ops : List Op) :
    (∀ rfpID vendor : Nat,
      ((run emptyStore ops).rfp_quotes.filter
        fun q => q.RFPID == rfpID && q.VendorID == vendor).length ≤ 1) ∧
    (∀ (now : Time) (vendor : Nat) (userRole : String) (req : SubmitQuoteRequest)
        (createErr : Bool),
      (SubmitQuote (run emptyStore ops) now vendor userRole req createErr).1.status = 200 →
      (∀ (later : List Op) (now2 : Time) (userRole2 : String) (req2 : SubmitQuoteRequest)
          (createErr2 : Bool),
        req2.RFPID = req.RFPID →
        (SubmitQuote
            (run (SubmitQuote (run emptyStore ops) now vendor userRole req createErr).2 later)
            now2 vendor userRole2 req2 createErr2).1.status ≠ 200 ∧
        (SubmitQuote
            (run (SubmitQuote (run emptyStore ops) now vendor userRole req createErr).2 later)
            now2 vendor userRole2 req2 createErr2).2 =
          run (SubmitQuote (run emptyStore ops) now vendor userRole req createErr).2 later) ∧
      (∀ (now2 : Time) (req2 : SubmitQuoteRequest) (createErr2 : Bool),
        req2.RFPID = req.RFPID → validateSubmitQuoteRequest req2 = none →
        (∀ rfp ∈ (run emptyStore ops).rfps, rfp.ID = req.RFPID → now2 < rfp.LastDate) →
        SubmitQuote (SubmitQuote (run emptyStore ops) now vendor userRole req createErr).2
            now2 vendor "vendor" req2 createErr2 =
          (⟨400, "Quote already submitted for this RFP"⟩,
            (SubmitQuote (run emptyStore ops) now vendor userRole req createErr).2))) := by
  refine ⟨QuoteUnique_run ops emptyStore (fun _ _ => by simp [emptyStore]), ?_⟩
  intro now vendor userRole req createErr hok
  rcases SubmitQuote_cases (run emptyStore ops) now vendor userRole req createErr with
    hrej | ⟨rfp, hf, hopen, _, _, _, heq⟩
  · exact absurd hok hrej.1
  have hmem : submittedQuote (run emptyStore ops) now vendor req ∈
      (SubmitQuote (run emptyStore ops) now vendor userRole req createErr).2.rfp_quotes := by
    rw [heq]; simp
  refine ⟨fun later now2 userRole2 req2 createErr2 hid => ?_,
    fun now2 req2 createErr2 hid hvalid hdate => ?_⟩
  · exact SubmitQuote_of_existing_quote _ now2 vendor userRole2 req2 createErr2
      ⟨_, run_rfp_quotes_mono later _ _ hmem, by simp [submittedQuote, hid]⟩
  · obtain ⟨q, hfind⟩ := find?_quote_isSome
      (SubmitQuote (run emptyStore ops) now vendor userRole req createErr).2.rfp_quotes
      req2.RFPID vendor ⟨_, hmem, by simp [submittedQuote, hid]⟩
    have hopen2 : rfp.IsOpen now2 = true := by
      rw [RFP.IsOpen_eq_true_iff] at hopen ⊢
      exact ⟨hopen.1, hdate rfp (find?_ID_mem hf).1 (find?_ID_mem hf).2⟩
    have hf2 : (SubmitQuote (run emptyStore ops) now vendor userRole req createErr).2.rfps.find?
        (fun r => r.ID == req2.RFPID) = some rfp := by
      rw [heq, hid]; exact hf
    exact SubmitQuote_duplicate _ now2 vendor req2 createErr2 rfp q hvalid hf2 hopen2 hfind

theorem at_most_one_quote_per_rfp_and_vendor_witness :
    (SubmitQuote (run emptyStore scenarioOps) 5 1 "vendor" (scenarioQuote 3000) false).1.status
        = 200 ∧
      SubmitQuote (SubmitQuote (run emptyStore scenarioOps) 5 1 "vendor" (scenarioQuote 3000)
          false).2 6 1 "vendor" (scenarioQuote 4000) false =
        (⟨400, "Quote already submitted for this RFP"⟩,
          (SubmitQuote (run emptyStore scenarioOps) 5 1 "vendor" (scenarioQuote 3000) false).2) :=
  ⟨by decide,
    ((at_most_one_quote_per_rfp_and_vendor scenarioOps).2 5 1 "vendor" (scenarioQuote 3000) false
      (by decide)).2 6 (scenarioQuote 4000) false rfl (by decide) (by decide)⟩

/-- One request keeps the stored amounts values of their column. -/
theorem ColumnValues_step (s : Store) (op : Op) (h : s.ColumnValues) :
    (step s op).ColumnValues := by
  cases op with
  | createRFP now userID userRole req createErr get list =>
    rcases CreateRFP_store_cases s now userID userRole req createErr get list with
      heq | heq | ⟨_, heq⟩
    · simp only [step, heq]; exact h
    · simp only [step, heq]; exact h
    · simp only [step, heq]
      intro r hmem
      rcases List.mem_append.mp hmem with hr | hr
      · exact h r hr
      · rw [List.mem_singleton] at hr
        subst hr
        exact ⟨roundDecimal2_idem _, roundDecimal2_idem _⟩
  | updateRFPStatus now userID userRole rfpID status saveErr =>
    rcases UpdateRFPStatus_store_cases s now userID userRole rfpID status saveErr with
      hrej | ⟨rfp, newStatus, active, hf, _, heq⟩
    · simp only [step, hrej.2]; exact h
    · simp only [step, heq]
      intro r hmem
      obtain ⟨r0, hr0, rfl⟩ := List.mem_map.mp hmem
      by_cases h0 : r0.ID = rfp.ID
      · rw [if_pos h0]
        exact h rfp (List.mem_of_find?_eq_some hf)
      · rw [if_neg h0]
        exact h r0 hr0
  | deleteRFP userID userRole rfpID deleteErr =>
    rcases DeleteRFP_store_cases s userID userRole rfpID deleteErr with hrej | ⟨rfp, _, heq⟩
    · simp only [step, hrej.2]; exact h
    · simp only [step, heq]
      exact fun r hmem => h r (List.mem_of_mem_filter hmem)
  | submitQuote now userID userRole req createErr =>
    rcases SubmitQuote_cases s now userID userRole req createErr with
      hrej | ⟨_, _, _, _, _, _, heq⟩
    · simp only [step, hrej.2]; exact h
    · simp only [step, heq]; exact h
  | getRFPs _ _ => exact h
  | getRFPQuotes _ _ _ => exact h
  | getVendorRFPs _ _ _ _ => exact h
  | getAvailableRFPs _ _ _ => exact h

/-- In every store reached from the empty one the stored amounts are values of their column. -/
theorem ColumnValues_run (ops : List Op) (s : Store) (h : s.ColumnValues) :
    (run s ops).ColumnValues := by
  induction ops generalizing s with
  | nil => exact h
  | cons op rest ih => exact ih (step s op) (ColumnValues_step s op h)

/-- C3: a call of `SubmitQuote` leaves the quote table as it was or appends one quote; the
appended quote carries the total cost of the request as its column keeps it, the total cost of
the request lies between the minimum and the maximum of the RFP that the handler read for it, and
so does the stored total cost, towards each bound that is a value of its column; in every store
reached from the empty one the bounds are such values, so there the stored total cost lies
between the minimum and the maximum.  And a request by a vendor whose total cost is outside that
range, on an open RFP the vendor has not quoted, is answered out-of-budget and stores nothing,
whatever the link table holds. -/
theorem SubmitQuote_within_budget (s : Store) (now : Time) (userID : Nat) (userRole : String)
    (req : SubmitQuoteRequest) (createErr : Bool) :
    ((SubmitQuote s now userID userRole req createErr).2.rfp_quotes = s.rfp_quotes ∨
      ∃ (rfp : RFP) (quote : RFPQuote),
        (SubmitQuote s now userID userRole req createErr).2.rfp_quotes =
          s.rfp_quotes ++ [quote] ∧
        s.rfps.find? (fun r => r.ID == quote.RFPID) = some rfp ∧
        quote.TotalCost = roundDecimal2 req.TotalCost ∧
        rfp.MinAmount ≤ req.TotalCost ∧ req.TotalCost ≤ rfp.MaxAmount ∧
        (roundDecimal2 rfp.MinAmount = rfp.MinAmount → rfp.MinAmount ≤ quote.TotalCost) ∧
        (roundDecimal2 rfp.MaxAmount = rfp.MaxAmount → quote.TotalCost ≤ rfp.MaxAmount)) ∧
    (∀ ops : List Op, s = run emptyStore ops →
      ((SubmitQuote s now userID userRole req createErr).2.rfp_quotes = s.rfp_quotes ∨
        ∃ (rfp : RFP) (quote : RFPQuote),
          (SubmitQuote s now userID userRole req createErr).2.rfp_quotes =
            s.rfp_quotes ++ [quote] ∧
          s.rfps.find? (fun r => r.ID == quote.RFPID) = some rfp ∧
          rfp.MinAmount ≤ quote.TotalCost ∧ quote.TotalCost ≤ rfp.MaxAmount)) ∧
    (∀ (rfp : RFP) (links : List RFPVendor),
      s.rfps.find? (fun r => r.ID == req.RFPID) = some rfp → rfp.IsOpen now = true →
      (∀ q ∈ s.rfp_quotes, ¬ (q.RFPID = req.RFPID ∧ q.VendorID = userID)) →
      validateSubmitQuoteRequest req = none →
      (req.TotalCost < rfp.MinAmount ∨ req.TotalCost > rfp.MaxAmount) →
      SubmitQuote { s with rfp_vendors := links } now userID "vendor" req createErr =
        (⟨400, "Quote amount is outside the specified budget range"⟩,
          { s with rfp_vendors := links })) := by
  have hlow : ∀ rfp : RFP, rfp.MinAmount ≤ req.TotalCost →
      roundDecimal2 rfp.MinAmount = rfp.MinAmount →
      rfp.MinAmount ≤ (submittedQuote s now userID req).TotalCost := by
    intro rfp hmin hcol
    have := roundDecimal2_mono hmin
    rw [hcol] at this
    exact this
  have hhigh : ∀ rfp : RFP, req.TotalCost ≤ rfp.MaxAmount →
      roundDecimal2 rfp.MaxAmount = rfp.MaxAmount →
      (submittedQuote s now userID req).TotalCost ≤ rfp.MaxAmount := by
    intro rfp hmax hcol
    have := roundDecimal2_mono hmax
    rw [hcol] at this
    exact this
  refine ⟨?_, ?_, ?_⟩
  · rcases SubmitQuote_cases s now userID userRole req createErr with
      hrej | ⟨rfp, hf, _, _, hmin, hmax, heq⟩
    · left; rw [hrej.2]
    · right
      exact ⟨rfp, submittedQuote s now userID req, by rw [heq], hf, rfl, hmin, hmax,
        hlow rfp hmin, hhigh rfp hmax⟩
  · intro ops hs
    have hcol : s.ColumnValues := by
      rw [hs]
      exact ColumnValues_run ops emptyStore (fun r hr => by simp [emptyStore] at hr)
    rcases SubmitQuote_cases s now userID userRole req createErr with
      hrej | ⟨rfp, hf, _, _, hmin, hmax, heq⟩
    · left; rw [hrej.2]
    · right
      have hr := hcol rfp (List.mem_of_find?_eq_some hf)
      exact ⟨rfp, submittedQuote s now userID req, by rw [heq], hf, hlow rfp hmin hr.1,
        hhigh rfp hmax hr.2⟩
  · intro rfp links hf hopen hq hvalid hout
    have hfind := find?_quote_eq_none.mpr hq
    simp only [gt_iff_lt] at hout
    simp [SubmitQuote, hvalid, hf, hopen, hfind, hout]

theorem SubmitQuote_within_budget_witness :
    SubmitQuote { scenarioStore with rfp_vendors := [] } 5 3 "vendor" (scenarioQuote 6000) false =
      (⟨400, "Quote amount is outside the specified budget range"⟩,
        { scenarioStore with rfp_vendors := [] }) :=
  (SubmitQuote_within_budget scenarioStore 5 3 "vendor" (scenarioQuote 6000) false).2.2
    scenarioRFP [] (by decide) (by decide) (by decide) (by decide) (Or.inr (by decide))

/-- C6: when `UpdateRFPStatus` with status closed succeeds for an RFP id, the store holds that
RFP with status closed and the active flag false, and the next `SubmitQuote` for it, by any
vendor with any validated request at any instant, is answered closed-or-expired and stores
nothing, whatever the last date of the RFP. -/
theorem SubmitQuote_after_close (s : Store) (now : Time) (admin : Nat) (userRole : String)
    (rfpID : Nat) (saveErr : Bool)
    (hok : (UpdateRFPStatus s now admin userRole rfpID "closed" saveErr).1.status = 200) :
    (∃ r ∈ (UpdateRFPStatus s now admin userRole rfpID "closed" saveErr).2.rfps, r.ID = rfpID) ∧
    (∀ r ∈ (UpdateRFPStatus s now admin userRole rfpID "closed" saveErr).2.rfps, r.ID = rfpID →
      r.Status = RFPStatusClosed ∧ r.IsActive = false) ∧
    (∀ (now2 : Time) (vendor : Nat) (req : SubmitQuoteRequest) (createErr : Bool),
      req.RFPID = rfpID → validateSubmitQuoteRequest req = none →
      SubmitQuote (UpdateRFPStatus s now admin userRole rfpID "closed" saveErr).2 now2 vendor
          "vendor" req createErr =
        (⟨400, "RFP is closed or expired"⟩,
          (UpdateRFPStatus s now admin userRole rfpID "closed" saveErr).2)) := by
  rcases UpdateRFPStatus_store_cases s now admin userRole rfpID "closed" saveErr with
    hrej | ⟨rfp, newStatus, active, hf, hchoice, heq⟩
  · exact absurd hok hrej.1
  have hst : newStatus = RFPStatusClosed ∧ active = false := by
    rcases hchoice with ⟨ho, _, _⟩ | ⟨_, h1, h2⟩
    · exact absurd ho (by decide)
    · exact ⟨h1, h2⟩
  obtain ⟨rfl, rfl⟩ := hst
  have hrfp : rfp ∈ s.rfps := List.mem_of_find?_eq_some hf
  have hrid : rfp.ID = rfpID := by
    have := List.find?_some hf
    simp only [Bool.and_eq_true, beq_iff_eq] at this
    exact this.1
  have hall : ∀ r ∈ (UpdateRFPStatus s now admin userRole rfpID "closed" saveErr).2.rfps,
      r.ID = rfpID → r.Status = RFPStatusClosed ∧ r.IsActive = false := by
    rw [heq]
    intro r hr hid
    obtain ⟨r0, _, hr0⟩ := List.mem_map.mp hr
    by_cases h0 : r0.ID = rfp.ID
    · rw [if_pos h0] at hr0
      subst hr0
      exact ⟨rfl, rfl⟩
    · rw [if_neg h0] at hr0
      subst hr0
      exact absurd (hid.trans hrid.symm) h0
  have hex : ∃ r ∈ (UpdateRFPStatus s now admin userRole rfpID "closed" saveErr).2.rfps,
      r.ID = rfpID := by
    rw [heq]
    refine ⟨{ rfp with Status := RFPStatusClosed, IsActive := false, UpdatedAt := now },
      List.mem_map.mpr ⟨rfp, hrfp, by simp⟩, hrid⟩
  refine ⟨hex, hall, fun now2 vendor req createErr hid hvalid => ?_⟩
  cases hfind : (UpdateRFPStatus s now admin userRole rfpID "closed" saveErr).2.rfps.find?
      (fun r => r.ID == req.RFPID) with
  | none =>
    obtain ⟨r, hr, hrid2⟩ := hex
    have := List.find?_eq_none.mp hfind r hr
    simp [hid, hrid2] at this
  | some r =>
    have hr := find?_ID_mem hfind
    have hclosed := hall r hr.1 (hr.2.trans hid)
    have hnot : r.IsOpen now2 = false := by
      simp [RFP.IsOpen, hclosed.1, RFPStatusClosed, RFPStatusOpen]
    simp [SubmitQuote, hvalid, hfind, hnot]

theorem SubmitQuote_after_close_witness :
    SubmitQuote (UpdateRFPStatus scenarioStore 1 9 "admin" 1 "closed" false).2 2 1 "vendor"
        (scenarioQuote 3000) false =
      (⟨400, "RFP is closed or expired"⟩,
        (UpdateRFPStatus scenarioStore 1 9 "admin" 1 "closed" false).2) :=
  (SubmitQuote_after_close scenarioStore 1 9 "admin" 1 false (by decide)).2.2 2 1
    (scenarioQuote 3000) false rfl (by decide)

/-- C8: two stores that hold the same RFPs, the same quotes and the same quote id sequence, and
differ at most in their link tables, give the same response to any `SubmitQuote` call and the
same resulting RFP and quote tables, and the call leaves each link table as it was; so a vendor
without a link to an open RFP who has not quoted it yet gets an in-budget, validated quote
accepted and stored, the only other outcome being the 500 answer for an amount that does not fit
its column. -/
theorem SubmitQuote_ignores_links (s1 s2 : Store) (now : Time) (userID : Nat) (userRole : String)
    (req : SubmitQuoteRequest) (createErr : Bool)
    (hrfps : s1.rfps = s2.rfps) (hquotes : s1.rfp_quotes = s2.rfp_quotes)
    (hseq : s1.nextQuoteID = s2.nextQuoteID) :
    (SubmitQuote s1 now userID userRole req createErr).1 =
        (SubmitQuote s2 now userID userRole req createErr).1 ∧
    (SubmitQuote s1 now userID userRole req createErr).2.rfp_quotes =
        (SubmitQuote s2 now userID userRole req createErr).2.rfp_quotes ∧
    (SubmitQuote s1 now userID userRole req createErr).2.rfps =
        (SubmitQuote s2 now userID userRole req createErr).2.rfps ∧
    (SubmitQuote s1 now userID userRole req createErr).2.rfp_vendors = s1.rfp_vendors ∧
    (SubmitQuote s2 now userID userRole req createErr).2.rfp_vendors = s2.rfp_vendors ∧
    (∀ rfp : RFP,
      (∀ l ∈ s1.rfp_vendors, ¬ (l.RFPID = req.RFPID ∧ l.VendorID = userID)) →
      s1.rfps.find? (fun r => r.ID == req.RFPID) = some rfp → rfp.IsOpen now = true →
      (∀ q ∈ s1.rfp_quotes, ¬ (q.RFPID = req.RFPID ∧ q.VendorID = userID)) →
      validateSubmitQuoteRequest req = none →
      rfp.MinAmount ≤ req.TotalCost → req.TotalCost ≤ rfp.MaxAmount →
      SubmitQuote s1 now userID "vendor" req false =
        if fitsDecimal15_2 req.VendorPrice = true ∧ fitsDecimal15_2 req.TotalCost = true then
          (⟨200, "Quote submitted successfully"⟩,
            { s1 with
              rfp_quotes := s1.rfp_quotes ++ [submittedQuote s1 now userID req]
              nextQuoteID := s1.nextQuoteID + 1 })
        else (⟨500, "Failed to submit quote"⟩, s1)) := by
  have hsame : ∀ t1 t2 : Store, t1.rfps = t2.rfps → t1.rfp_quotes = t2.rfp_quotes →
      t1.nextQuoteID = t2.nextQuoteID →
      (SubmitQuote t1 now userID userRole req createErr).1 =
          (SubmitQuote t2 now userID userRole req createErr).1 ∧
      (SubmitQuote t1 now userID userRole req createErr).2.rfp_quotes =
          (SubmitQuote t2 now userID userRole req createErr).2.rfp_quotes ∧
      (SubmitQuote t1 now userID userRole req createErr).2.rfps =
          (SubmitQuote t2 now userID userRole req createErr).2.rfps ∧
      (SubmitQuote t1 now userID userRole req createErr).2.rfp_vendors = t1.rfp_vendors := by
    intro t1 t2 h1 h2 h3
    have ht : t1 = { t2 with rfp_vendors := t1.rfp_vendors, nextRFPID := t1.nextRFPID } := by
      cases t1; cases t2; simp_all
    rw [ht, SubmitQuote_with_links]
    exact ⟨rfl, rfl, rfl, rfl⟩
  obtain ⟨a, b, c, d⟩ := hsame s1 s2 hrfps hquotes hseq
  obtain ⟨_, _, _, e⟩ := hsame s2 s1 hrfps.symm hquotes.symm hseq.symm
  refine ⟨a, b, c, d, e, fun rfp _ hf hopen hq hvalid hmin hmax => ?_⟩
  have hfind := find?_quote_eq_none.mpr hq
  by_cases hp : fitsDecimal15_2 req.VendorPrice = true <;>
    by_cases ht : fitsDecimal15_2 req.TotalCost = true <;>
    simp [SubmitQuote, hvalid, hf, hopen, hfind, not_lt.mpr hmin, not_lt.mpr hmax,
      submittedQuote, quoteCreateFails, hp, ht]

theorem SubmitQuote_ignores_links_witness :
    (SubmitQuote scenarioStore 5 3 "vendor" (scenarioQuote 3000) false).1 =
      ⟨200, "Quote submitted successfully"⟩ :=
  (congrArg Prod.fst
    ((SubmitQuote_ignores_links scenarioStore { scenarioStore with rfp_vendors := [] } 5 3
      "vendor" (scenarioQuote 3000) false rfl rfl rfl).2.2.2.2.2 scenarioRFP (by decide)
      (by decide) (by decide) (by decide) (by decide) (by decide) (by decide))).trans
    (by decide)

/-! ## GetAvailableRFPs -/

/-- A duplicate-free list all of whose elements are the same has at most one element. -/
theorem length_le_one_of_nodup_of_forall_eq {α : Type} {l : List α} (a : α) (hnd : l.Nodup)
    (hall : ∀ b ∈ l, b = a) : l.length ≤ 1 := by
  rw [List.eq_replicate_of_mem hall] at hnd
  exact List.nodup_replicate.mp hnd

/-- C9: on a store that respects the primary keys of `rfps` and `rfp_vendors`,
`GetAvailableRFPs` for vendor X at instant now answers 200 with exactly the RFPs that have a link
to X, status open, the active flag set and a last date after now, and for which X has no quote;
and no RFP occurs twice in the answer. -/
theorem GetAvailableRFPs_exact (s : Store) (now : Time) (userID : Nat)
    (hkeys : s.PrimaryKeys) :
    (GetAvailableRFPs s now userID "vendor" false).1 = ⟨200, "Available RFPs"⟩ ∧
    (∀ r : RFP, r ∈ (GetAvailableRFPs s now userID "vendor" false).2 ↔
      r ∈ s.rfps ∧ (∃ l ∈ s.rfp_vendors, l.RFPID = r.ID ∧ l.VendorID = userID) ∧
        r.Status = RFPStatusOpen ∧ r.IsActive = true ∧ now < r.LastDate ∧
        ∀ q ∈ s.rfp_quotes, ¬ (q.RFPID = r.ID ∧ q.VendorID = userID)) ∧
    (GetAvailableRFPs s now userID "vendor" false).2.Nodup := by
  refine ⟨by simp [GetAvailableRFPs], fun r => ?_, ?_⟩
  · simp only [GetAvailableRFPs, ne_eq, not_true_eq_false, if_false, Bool.false_eq_true,
      List.mem_flatMap, List.mem_map, List.mem_filter, Bool.and_eq_true, beq_iff_eq,
      decide_eq_true_eq, Bool.not_eq_true', gt_iff_lt]
    constructor
    · rintro ⟨r0, hr0, l, ⟨hl, ⟨⟨hid, hv⟩, ⟨hst, hdate⟩, hact⟩, hnq⟩, rfl⟩
      refine ⟨hr0, ⟨l, hl, hid.symm, hv⟩, hst, hact, hdate, fun q hq hk => ?_⟩
      have hin : r0.ID ∈ (s.rfp_quotes.filter fun q => q.VendorID == userID).map (·.RFPID) :=
        List.mem_map.mpr ⟨q, List.mem_filter.mpr ⟨hq, by simp [hk.2]⟩, hk.1⟩
      rw [← List.elem_iff] at hin
      simp only [List.contains] at hnq
      rw [hin] at hnq
      exact Bool.noConfusion hnq
    · rintro ⟨hr, ⟨l, hl, hid, hv⟩, hst, hact, hdate, hnq⟩
      refine ⟨r, hr, l, ⟨hl, ⟨⟨hid.symm, hv⟩, ⟨hst, hdate⟩, hact⟩, ?_⟩, rfl⟩
      cases hc : ((s.rfp_quotes.filter fun q => q.VendorID == userID).map (·.RFPID)).contains
          r.ID with
      | false => rfl
      | true =>
        simp only [List.contains] at hc
        rw [List.elem_iff] at hc
        obtain ⟨q, hq, hqid⟩ := List.mem_map.mp hc
        rw [List.mem_filter] at hq
        exact absurd ⟨hqid, by simpa using hq.2⟩ (hnq q hq.1)
  · simp only [GetAvailableRFPs, ne_eq, not_true_eq_false, if_false, Bool.false_eq_true]
    rw [List.nodup_flatMap]
    constructor
    · intro r _
      rw [List.map_const', List.nodup_replicate]
      have hsub : ((s.rfp_vendors.filter fun l =>
          r.ID == l.RFPID && l.VendorID == userID
            && (r.Status == RFPStatusOpen && decide (r.LastDate > now) && r.IsActive == true)
            && !((s.rfp_quotes.filter fun q => q.VendorID == userID).map (·.RFPID)).contains
                r.ID).map fun l => (l.RFPID, l.VendorID)).Nodup :=
        List.Nodup.sublist (List.Sublist.map _ (List.filter_sublist _)) hkeys.2
      have hlen := length_le_one_of_nodup_of_forall_eq (r.ID, userID) hsub (by
        intro k hk
        obtain ⟨l, hl, rfl⟩ := List.mem_map.mp hk
        rw [List.mem_filter] at hl
        have h := hl.2
        simp only [Bool.and_eq_true, beq_iff_eq] at h
        rw [h.1.1.1, h.1.1.2])
      simpa using hlen
    · have hnd : s.rfps.Nodup := List.Nodup.of_map _ hkeys.1
      refine List.Pairwise.imp ?_ hnd
      intro a b hab x hxa hxb
      obtain ⟨_, _, rfl⟩ := List.mem_map.mp hxa
      obtain ⟨_, _, h⟩ := List.mem_map.mp hxb
      exact hab h.symm

theorem GetAvailableRFPs_exact_witness :
    (GetAvailableRFPs scenarioStore 5 2 "vendor" false).2.Nodup :=
  (GetAvailableRFPs_exact scenarioStore 5 2 ⟨by decide, by decide⟩).2.2

/-! ## Reachable stores -/

theorem WellFormed_emptyStore : emptyStore.WellFormed := by
  simp [Store.WellFormed, Store.PrimaryKeys, emptyStore]

theorem WellFormed_step (s : Store) (op : Op) (h : s.WellFormed) : (step s op).WellFormed := by
  obtain ⟨hr, hl, hk1, hk2⟩ := h
  cases op with
  | createRFP now userID userRole req createErr get list =>
    rcases CreateRFP_store_cases s now userID userRole req createErr get list with
      heq | heq | ⟨hnd, heq⟩
    · simp only [step, heq]; exact ⟨hr, hl, hk1, hk2⟩
    · simp only [step, heq]
      exact ⟨fun r h => Nat.lt_succ_of_lt (hr r h), fun l h => Nat.lt_succ_of_lt (hl l h),
        hk1, hk2⟩
    · simp only [step, heq]
      refine ⟨?_, ?_, ?_, ?_⟩
      · intro r hmem
        rcases List.mem_append.mp hmem with h | h
        · exact Nat.lt_succ_of_lt (hr r h)
        · rw [List.mem_singleton] at h; subst h; exact Nat.lt_succ_self _
      · intro l hmem
        rcases List.mem_append.mp hmem with h | h
        · exact Nat.lt_succ_of_lt (hl l h)
        · obtain ⟨v, _, rfl⟩ := List.mem_map.mp h; exact Nat.lt_succ_self _
      · show ((s.rfps ++ [createdRFP s now userID req]).map (·.ID)).Nodup
        rw [List.map_append, List.nodup_append]
        refine ⟨hk1, List.nodup_singleton _, ?_⟩
        intro i hi hi2
        obtain ⟨r, hrm, rfl⟩ := List.mem_map.mp hi
        simp only [List.map_cons, List.map_nil, List.mem_singleton] at hi2
        have := hr r hrm
        rw [hi2] at this
        exact absurd this (lt_irrefl _)
      · show ((s.rfp_vendors ++ req.VendorIDs.map fun vendorID =>
          (⟨s.nextRFPID, vendorID, now⟩ : RFPVendor)).map fun l => (l.RFPID, l.VendorID)).Nodup
        rw [List.map_append, List.nodup_append]
        refine ⟨hk2, ?_, ?_⟩
        · rw [List.map_map]
          exact List.Nodup.map (fun a b hab => (Prod.mk.inj hab).2) hnd
        · intro k hk hk2'
          obtain ⟨l, hlm, rfl⟩ := List.mem_map.mp hk
          rw [List.map_map] at hk2'
          obtain ⟨v, _, hv⟩ := List.mem_map.mp hk2'
          have hlt := hl l hlm
          have : s.nextRFPID = l.RFPID := (Prod.mk.inj hv).1
          rw [← this] at hlt
          exact absurd hlt (lt_irrefl _)
  | updateRFPStatus now userID userRole rfpID status saveErr =>
    rcases UpdateRFPStatus_store_cases s now userID userRole rfpID status saveErr with
      hrej | ⟨rfp, newStatus, active, _, _, heq⟩
    · simp only [step, hrej.2]; exact ⟨hr, hl, hk1, hk2⟩
    · simp only [step, heq]
      have hid : ∀ r : RFP,
          (if r.ID = rfp.ID then
            { rfp with Status := newStatus, IsActive := active, UpdatedAt := now }
          else r).ID = r.ID := by
        intro r
        by_cases h0 : r.ID = rfp.ID
        · rw [if_pos h0]; exact h0.symm
        · rw [if_neg h0]
      refine ⟨?_, hl, ?_, hk2⟩
      · intro r hmem
        obtain ⟨r0, hr0, rfl⟩ := List.mem_map.mp hmem
        rw [hid r0]; exact hr r0 hr0
      · show ((s.rfps.map fun r =>
          if r.ID = rfp.ID then
            { rfp with Status := newStatus, IsActive := active, UpdatedAt := now }
          else r).map (·.ID)).Nodup
        rw [List.map_map]
        have : ((fun r : RFP => r.ID) ∘ fun r =>
            if r.ID = rfp.ID then
              { rfp with Status := newStatus, IsActive := active, UpdatedAt := now }
            else r) = fun r : RFP => r.ID := funext hid
        rw [this]; exact hk1
  | deleteRFP userID userRole rfpID deleteErr =>
    rcases DeleteRFP_store_cases s userID userRole rfpID deleteErr with hrej | ⟨rfp, _, heq⟩
    · simp only [step, hrej.2]; exact ⟨hr, hl, hk1, hk2⟩
    · simp only [step, heq]
      exact ⟨fun r h => hr r (List.mem_of_mem_filter h), hl,
        List.Nodup.sublist (List.Sublist.map _ (List.filter_sublist _)) hk1, hk2⟩
  | submitQuote now userID userRole req createErr =>
    rcases SubmitQuote_cases s now userID userRole req createErr with
      hrej | ⟨_, _, _, _, _, _, heq⟩
    · simp only [step, hrej.2]; exact ⟨hr, hl, hk1, hk2⟩
    · simp only [step, heq]; exact ⟨hr, hl, hk1, hk2⟩
  | getRFPs _ _ => exact ⟨hr, hl, hk1, hk2⟩
  | getRFPQuotes _ _ _ => exact ⟨hr, hl, hk1, hk2⟩
  | getVendorRFPs _ _ _ _ => exact ⟨hr, hl, hk1, hk2⟩
  | getAvailableRFPs _ _ _ => exact ⟨hr, hl, hk1, hk2⟩

theorem WellFormed_run (ops : List Op) (s : Store) (h : s.WellFormed) :
    (run s ops).WellFormed := by
  induction ops generalizing s with
  | nil => exact h
  | cons op rest ih => exact ih (step s op) (WellFormed_step s op h)

/-- Every reachable store respects the primary keys. -/
theorem Reachable.primaryKeys {s : Store} (h : Reachable s) : s.PrimaryKeys := by
  obtain ⟨ops, rfl⟩ := h
  exact (WellFormed_run ops emptyStore WellFormed_emptyStore).2.2

/-! ## Closing and reopening -/

theorem ClosedIn_step (s : Store) (op : Op) (rfpID owner : Nat) (hlt : rfpID < s.nextRFPID)
    (hclosed : ClosedIn s rfpID) (hown : OwnedBy s rfpID owner)
    (hop : op.reopens rfpID owner = false) :
    ClosedIn (step s op) rfpID ∧ OwnedBy (step s op) rfpID owner ∧
      rfpID < (step s op).nextRFPID := by
  cases op with
  | createRFP now userID userRole req createErr get list =>
    rcases CreateRFP_store_cases s now userID userRole req createErr get list with
      heq | heq | ⟨_, heq⟩
    · simp only [step, heq]; exact ⟨hclosed, hown, hlt⟩
    · simp only [step, heq]; exact ⟨hclosed, hown, Nat.lt_succ_of_lt hlt⟩
    · simp only [step, heq]
      have hfresh : ∀ r ∈ s.rfps ++ [createdRFP s now userID req], r.ID = rfpID → r ∈ s.rfps := by
        intro r hmem hid
        rcases List.mem_append.mp hmem with h | h
        · exact h
        · rw [List.mem_singleton] at h
          subst h
          have : s.nextRFPID = rfpID := hid
          exact absurd (this ▸ hlt) (lt_irrefl _)
      exact ⟨fun r hmem hid => hclosed r (hfresh r hmem hid) hid,
        fun r hmem hid => hown r (hfresh r hmem hid) hid, Nat.lt_succ_of_lt hlt⟩
  | updateRFPStatus now userID userRole id status saveErr =>
    rcases UpdateRFPStatus_store_cases s now userID userRole id status saveErr with
      hrej | ⟨rfp, newStatus, active, hf, hchoice, heq⟩
    · simp only [step, hrej.2]; exact ⟨hclosed, hown, hlt⟩
    · simp only [step, heq]
      have hfound := List.find?_some hf
      simp only [Bool.and_eq_true, beq_iff_eq] at hfound
      have hrfp : rfp ∈ s.rfps := List.mem_of_find?_eq_some hf
      have hkey : ∀ r ∈ s.rfps.map (fun r =>
          if r.ID = rfp.ID then
            { rfp with Status := newStatus, IsActive := active, UpdatedAt := now }
          else r), r.ID = rfpID →
          (r.Status = RFPStatusClosed ∧ r.IsActive = false) ∧ r.UserID = owner := by
        intro r hmem hid
        obtain ⟨r0, hr0, hr0eq⟩ := List.mem_map.mp hmem
        by_cases h0 : r0.ID = rfp.ID
        · rw [if_pos h0] at hr0eq
          subst hr0eq
          have hidEq : id = rfpID := hfound.1.symm.trans hid
          have howner : userID = owner := hfound.2.symm.trans (hown rfp hrfp hid)
          rcases hchoice with ⟨ho, _, _⟩ | ⟨_, h1, h2⟩
          · simp [Op.reopens, hidEq, howner, ho] at hop
          · exact ⟨⟨h1, h2⟩, hown rfp hrfp hid⟩
        · rw [if_neg h0] at hr0eq
          subst hr0eq
          exact ⟨hclosed r0 hr0 hid, hown r0 hr0 hid⟩
      exact ⟨fun r hmem hid => (hkey r hmem hid).1, fun r hmem hid => (hkey r hmem hid).2, hlt⟩
  | deleteRFP userID userRole id deleteErr =>
    rcases DeleteRFP_store_cases s userID userRole id deleteErr with hrej | ⟨rfp, _, heq⟩
    · simp only [step, hrej.2]; exact ⟨hclosed, hown, hlt⟩
    · simp only [step, heq]
      exact ⟨fun r hmem hid => hclosed r (List.mem_of_mem_filter hmem) hid,
        fun r hmem hid => hown r (List.mem_of_mem_filter hmem) hid, hlt⟩
  | submitQuote now userID userRole req createErr =>
    rcases SubmitQuote_cases s now userID userRole req createErr with
      hrej | ⟨_, _, _, _, _, _, heq⟩
    · simp only [step, hrej.2]; exact ⟨hclosed, hown, hlt⟩
    · simp only [step, heq]; exact ⟨hclosed, hown, hlt⟩
  | getRFPs _ _ => exact ⟨hclosed, hown, hlt⟩
  | getRFPQuotes _ _ _ => exact ⟨hclosed, hown, hlt⟩
  | getVendorRFPs _ _ _ _ => exact ⟨hclosed, hown, hlt⟩
  | getAvailableRFPs _ _ _ => exact ⟨hclosed, hown, hlt⟩

theorem ClosedIn_run (later : List Op) (s : Store) (rfpID owner : Nat)
    (hlt : rfpID < s.nextRFPID) (hclosed : ClosedIn s rfpID) (hown : OwnedBy s rfpID owner)
    (hno : ∀ op ∈ later, op.reopens rfpID owner = false) :
    ClosedIn (run s later) rfpID := by
  induction later generalizing s with
  | nil => exact hclosed
  | cons op rest ih =>
    have hstep := ClosedIn_step s op rfpID owner hlt hclosed hown (hno op (List.mem_cons_self _ _))
    exact ih (step s op) hstep.2.2 hstep.1 hstep.2.1 fun o ho => hno o (List.mem_cons_of_mem _ ho)

/-- C7, as the claim states it, fails: after the owner has closed the scenario RFP, the route
`PUT /rfp/1` with status open, called by the owner, leaves it with status open and the active
flag true. -/
theorem closed_rfp_reopened_by_UpdateRFPStatus :
    (∃ r ∈ (run emptyStore closeOps).rfps, r.ID = 1) ∧
      ClosedIn (run emptyStore closeOps) 1 ∧
      ∃ r ∈ (step (run emptyStore closeOps)
          (Op.updateRFPStatus 2 9 "admin" 1 "open" false)).rfps,
        r.ID = 1 ∧ r.Status = RFPStatusOpen ∧ r.IsActive = true := by
  decide

/-- C7, amended: in a reachable store that holds an RFP whose status is closed and whose active
flag is false, every sequence of requests to the routes that contains no `UpdateRFPStatus` with
status open by the owner for that RFP id leaves each stored RFP of that id closed and
inactive. -/
theorem closed_stays_closed_unless_reopened (ops later : List Op) (rfpID owner : Nat)
    (hpresent : ∃ r ∈ (run emptyStore ops).rfps, r.ID = rfpID)
    (hown : OwnedBy (run emptyStore ops) rfpID owner)
    (hclosed : ClosedIn (run emptyStore ops) rfpID)
    (hno : ∀ op ∈ later, op.reopens rfpID owner = false) :
    ClosedIn (run (run emptyStore ops) later) rfpID := by
  obtain ⟨r, hr, hid⟩ := hpresent
  have hwf := WellFormed_run ops emptyStore WellFormed_emptyStore
  exact ClosedIn_run later _ rfpID owner (hid ▸ hwf.1 r hr) hclosed hown hno

theorem closed_stays_closed_unless_reopened_witness :
    ClosedIn (run (run emptyStore closeOps)
      [Op.submitQuote 2 1 "vendor" (scenarioQuote 3000) false,
        Op.updateRFPStatus 3 8 "admin" 1 "open" false,
        Op.createRFP 4 9 "admin" scenarioCreate false (fun _ _ => .transportError)
          (fun _ => .transportError)]) 1 :=
  closed_stays_closed_unless_reopened closeOps _ 1 9 (by decide) (by decide) (by decide)
    (by decide)

/-! ## CreateRFP -/

/-- C10, as the claim states it, fails: the validated request of an admin with minimum and
maximum both 10^13, a deadline not before now and two vendors passes the three checks, yet it is
not accepted: the bounds do not fit their column, the insert fails, and the answer is 500 with
nothing stored and no send-email request. -/
theorem CreateRFP_bounds_overflow_rejected :
    validateCreateRFPRequest overflowCreate = none ∧
      ¬ overflowCreate.MaxAmount < overflowCreate.MinAmount ∧
      ¬ overflowCreate.LastDate < (0 : Time) ∧ overflowCreate.VendorIDs = [1, 2] ∧
      (CreateRFP emptyStore 0 9 "admin" overflowCreate false scenarioLookup
        (fun _ => .transportError)).response = ⟨500, "Failed to create RFP"⟩ ∧
      (CreateRFP emptyStore 0 9 "admin" overflowCreate false scenarioLookup
        (fun _ => .transportError)).store = emptyStore ∧
      (CreateRFP emptyStore 0 9 "admin" overflowCreate false scenarioLookup
        (fun _ => .transportError)).emails = [] := by
  decide

/-- C10, amended: for a validated request by an admin, `CreateRFP` answers 400 with the
max-amount message when the maximum is below the minimum; otherwise 400 with the last-date
message when the deadline is before now; otherwise 400 with the select-a-vendor message when the
vendor list is empty; each rejection leaves the store as it was and issues no send-email
request.  Otherwise, when the insert of the RFP fails, it answers 500, the three tables are as
before and no send-email request is issued; the insert fails exactly for an error outside the
model or when the minimum or the maximum, rounded to two decimals, reaches 10^13.  In every
other case, equal minimum and maximum included, it answers 200, and when the listed vendor ids
are distinct the new RFP is stored. -/
theorem CreateRFP_checks (s : Store) (now : Time) (userID : Nat) (req : CreateRFPRequest)
    (createErr : Bool) (get : Nat → Nat → UserLookup) (list : Nat → VendorListing)
    (hvalid : validateCreateRFPRequest req = none) :
    (req.MaxAmount < req.MinAmount →
      (CreateRFP s now userID "admin" req createErr get list).response =
          ⟨400, "Max amount must be greater than min amount"⟩ ∧
        (CreateRFP s now userID "admin" req createErr get list).store = s ∧
        (CreateRFP s now userID "admin" req createErr get list).emails = []) ∧
    (req.MinAmount ≤ req.MaxAmount → req.LastDate < now →
      (CreateRFP s now userID "admin" req createErr get list).response =
          ⟨400, "Last date must be in the future"⟩ ∧
        (CreateRFP s now userID "admin" req createErr get list).store = s ∧
        (CreateRFP s now userID "admin" req createErr get list).emails = []) ∧
    (req.MinAmount ≤ req.MaxAmount → now ≤ req.LastDate → req.VendorIDs = [] →
      (CreateRFP s now userID "admin" req createErr get list).response =
          ⟨400, "Select at least one vendor"⟩ ∧
        (CreateRFP s now userID "admin" req createErr get list).store = s ∧
        (CreateRFP s now userID "admin" req createErr get list).emails = []) ∧
    (req.MinAmount ≤ req.MaxAmount → now ≤ req.LastDate → req.VendorIDs ≠ [] →
      (rfpCreateFails req createErr = true →
        (CreateRFP s now userID "admin" req createErr get list).response =
            ⟨500, "Failed to create RFP"⟩ ∧
          (CreateRFP s now userID "admin" req createErr get list).store.rfps = s.rfps ∧
          (CreateRFP s now userID "admin" req createErr get list).store.rfp_vendors =
            s.rfp_vendors ∧
          (CreateRFP s now userID "admin" req createErr get list).store.rfp_quotes =
            s.rfp_quotes ∧
          (CreateRFP s now userID "admin" req createErr get list).emails = []) ∧
      (rfpCreateFails req createErr = false →
        (CreateRFP s now userID "admin" req createErr get list).response =
            ⟨200, "New RFP Request is created"⟩ ∧
          (req.VendorIDs.Nodup →
            (CreateRFP s now userID "admin" req createErr get list).store.rfps =
              s.rfps ++ [createdRFP s now userID req]))) ∧
    (rfpCreateFails req createErr = true ↔
      createErr = true ∨ 10 ^ 13 ≤ |roundDecimal2 req.MinAmount| ∨
        10 ^ 13 ≤ |roundDecimal2 req.MaxAmount|) := by
  refine ⟨fun hamt => ?_, fun hamt hdate => ?_, fun hamt hdate hnil => ?_,
    fun hamt hdate hne => ⟨fun hins => ?_, fun hins => ?_⟩, rfpCreateFails_iff req createErr⟩
  · simp [CreateRFP, hvalid, hamt]
  · simp [CreateRFP, hvalid, not_lt.mpr hamt, hdate]
  · simp [CreateRFP, hvalid, not_lt.mpr hamt, not_lt.mpr hdate, hnil]
  · have hlen : ¬ req.VendorIDs.length ≤ 0 := by
      intro h
      exact hne (List.length_eq_zero.mp (Nat.le_zero.mp h))
    simp only [CreateRFP, hvalid, not_lt.mpr hamt, not_lt.mpr hdate, hlen, hins]
    simp
  · have hlen : ¬ req.VendorIDs.length ≤ 0 := by
      intro h
      exact hne (List.length_eq_zero.mp (Nat.le_zero.mp h))
    refine ⟨?_, fun hnd => ?_⟩
    · simp only [CreateRFP, hvalid, not_lt.mpr hamt, not_lt.mpr hdate, hlen, hins]
      simp
    · simp only [CreateRFP, hvalid, not_lt.mpr hamt, not_lt.mpr hdate, hlen, hins, hnd]
      simp [createdRFP]

theorem CreateRFP_checks_witness :
    (CreateRFP emptyStore 700 9 "admin" { scenarioCreate with MaxAmount := 1000 } false
        (fun _ _ => .transportError) (fun _ => .transportError)).response =
      ⟨200, "New RFP Request is created"⟩ :=
  ((((CreateRFP_checks emptyStore 700 9 { scenarioCreate with MaxAmount := 1000 } false
    (fun _ _ => .transportError) (fun _ => .transportError) (by decide)).2.2.2.1 (by decide)
    (by decide) (by decide)).2) (by decide)).1

/-- Every call of `CreateRFP` either rejects, leaving the store as it was and issuing no send-email
request, or passed every check: then it answers 200, the caller is an admin, the maximum is not
below the minimum, the vendor list is not empty, one request goes out per email resolved from
the vendor list, and the store is the committed or the rolled-back one. -/
theorem CreateRFP_cases (s : Store) (now : Time) (userID : Nat) (userRole : String)
    (req : CreateRFPRequest) (createErr : Bool) (get : Nat → Nat → UserLookup)
    (list : Nat → VendorListing) :
    ((CreateRFP s now userID userRole req createErr get list).response.status ≠ 200 ∧
      (CreateRFP s now userID userRole req createErr get list).store = s ∧
      (CreateRFP s now userID userRole req createErr get list).emails = []) ∨
    ((CreateRFP s now userID userRole req createErr get list).response =
        ⟨200, "New RFP Request is created"⟩ ∧
      userRole = "admin" ∧ req.MinAmount ≤ req.MaxAmount ∧ req.VendorIDs ≠ [] ∧
      (CreateRFP s now userID userRole req createErr get list).emails =
        (GetVendorEmailsByIDs get req.VendorIDs).map (fun email =>
          { EmailTo := email, Subject := "New RFP Request: " ++ req.Title, SendNow := true }) ∧
      (CreateRFP s now userID userRole req createErr get list).store =
        if req.VendorIDs.Nodup then
          { s with
            rfps := s.rfps ++ [createdRFP s now userID req]
            rfp_vendors := s.rfp_vendors ++
              req.VendorIDs.map fun vendorID => ⟨s.nextRFPID, vendorID, now⟩
            nextRFPID := s.nextRFPID + 1 }
        else { s with nextRFPID := s.nextRFPID + 1 }) := by
  unfold CreateRFP
  by_cases hrole : userRole = "admin"
  swap
  · left; simp [hrole]
  cases hv : validateCreateRFPRequest req with
  | some e => left; simp [hrole]
  | none =>
    by_cases hamt : req.MaxAmount < req.MinAmount
    · left; simp [hrole, hamt]
    by_cases hdate : req.LastDate < now
    · left; simp [hrole, hamt, hdate]
    by_cases hlen : req.VendorIDs.length ≤ 0
    · left; simp [hrole, hamt, hdate, hlen]
    by_cases hins : rfpCreateFails req createErr = true
    · left; simp [hrole, hamt, hdate, hlen, hins]
    · right
      have hne : req.VendorIDs ≠ [] := by
        intro h
        exact hlen (by simp [h])
      have hpos : 0 < req.VendorIDs.length := Nat.lt_of_not_le hlen
      refine ⟨?_, hrole, not_lt.mp hamt, hne, ?_, ?_⟩
      · simp [hrole, hamt, hdate, hlen, hins]
      · simp [hrole, hamt, hdate, hlen, hins, hpos]
      · by_cases hnd : req.VendorIDs.Nodup
        · simp [hrole, hamt, hdate, hlen, hins, hnd, createdRFP]
        · simp [hrole, hamt, hdate, hlen, hins, hnd]

/-- C11: a call of `CreateRFP` leaves the table `rfps` as it was or appends one row, and the
appended row has status open, the active flag set, the caller (an admin) as owner, the title,
description, quantity, deadline and category of the request, the minimum and the maximum of the
request as their column keeps them (rounded to two decimals), and a minimum not above its
maximum; and an accepted request whose vendor ids are distinct does append such a row. -/
theorem CreateRFP_stored_rfp (s : Store) (now : Time) (userID : Nat) (userRole : String)
    (req : CreateRFPRequest) (createErr : Bool) (get : Nat → Nat → UserLookup)
    (list : Nat → VendorListing) :
    ((CreateRFP s now userID userRole req createErr get list).store.rfps = s.rfps ∨
      ∃ rfp : RFP,
        (CreateRFP s now userID userRole req createErr get list).store.rfps = s.rfps ++ [rfp] ∧
        (CreateRFP s now userID userRole req createErr get list).response.status = 200 ∧
        userRole = "admin" ∧
        rfp.Status = RFPStatusOpen ∧ rfp.IsActive = true ∧ rfp.UserID = userID ∧
        rfp.Title = req.Title ∧ rfp.Description = req.Description ∧
        rfp.Quantity = req.Quantity ∧ rfp.LastDate = req.LastDate ∧
        rfp.CategoryID = some req.CategoryID ∧ rfp.MinAmount = roundDecimal2 req.MinAmount ∧
        rfp.MaxAmount = roundDecimal2 req.MaxAmount ∧ rfp.MinAmount ≤ rfp.MaxAmount) ∧
    ((CreateRFP s now userID userRole req createErr get list).response.status = 200 →
      req.VendorIDs.Nodup →
      (CreateRFP s now userID userRole req createErr get list).store.rfps =
        s.rfps ++ [createdRFP s now userID req]) := by
  rcases CreateRFP_cases s now userID userRole req createErr get list with
    ⟨hst, hstore, _⟩ | ⟨hresp, hrole, hamt, _, _, hstore⟩
  · exact ⟨Or.inl (by rw [hstore]), fun h => absurd h hst⟩
  · by_cases hnd : req.VendorIDs.Nodup
    · rw [if_pos hnd] at hstore
      refine ⟨Or.inr ⟨createdRFP s now userID req, by rw [hstore], by rw [hresp], hrole, rfl,
        rfl, rfl, rfl, rfl, rfl, rfl, rfl, rfl, rfl, roundDecimal2_mono hamt⟩,
        fun _ _ => by rw [hstore]⟩
    · rw [if_neg hnd] at hstore
      exact ⟨Or.inl (by rw [hstore]), fun _ h => absurd h hnd⟩

theorem CreateRFP_stored_rfp_witness :
    (CreateRFP emptyStore 0 9 "admin" scenarioCreate false scenarioLookup
        (fun _ => .transportError)).store.rfps = [scenarioRFP] :=
  (CreateRFP_stored_rfp emptyStore 0 9 "admin" scenarioCreate false scenarioLookup
    (fun _ => .transportError)).2 (by decide) (by decide)

/-- An accepted `CreateRFP` whose vendor ids are distinct links exactly the listed vendors to the
new RFP and leaves the links of every other RFP as they were. -/
theorem CreateRFP_links_of_nodup (s : Store) (now : Time) (userID : Nat) (userRole : String)
    (req : CreateRFPRequest) (createErr : Bool) (get : Nat → Nat → UserLookup)
    (list : Nat → VendorListing) (hwf : s.WellFormed)
    (hok : (CreateRFP s now userID userRole req createErr get list).response.status = 200)
    (hnd : req.VendorIDs.Nodup) :
    (∀ vendor : Nat,
      (∃ l ∈ (CreateRFP s now userID userRole req createErr get list).store.rfp_vendors,
          l.RFPID = s.nextRFPID ∧ l.VendorID = vendor) ↔ vendor ∈ req.VendorIDs) ∧
    (∀ l : RFPVendor, l.RFPID ≠ s.nextRFPID →
      (l ∈ (CreateRFP s now userID userRole req createErr get list).store.rfp_vendors ↔
        l ∈ s.rfp_vendors)) := by
  rcases CreateRFP_cases s now userID userRole req createErr get list with
    ⟨hst, _, _⟩ | ⟨_, _, _, _, _, hstore⟩
  · exact absurd hok hst
  rw [if_pos hnd] at hstore
  rw [hstore]
  constructor
  · intro vendor
    constructor
    · rintro ⟨l, hl, hid, hv⟩
      rcases List.mem_append.mp hl with h | h
      · exact absurd (hid ▸ hwf.2.1 l h) (lt_irrefl _)
      · obtain ⟨v, hvmem, rfl⟩ := List.mem_map.mp h
        exact hv ▸ hvmem
    · intro hmem
      exact ⟨⟨s.nextRFPID, vendor, now⟩,
        List.mem_append_right _ (List.mem_map.mpr ⟨vendor, hmem, rfl⟩), rfl, rfl⟩
  · intro l hne
    constructor
    · intro hl
      rcases List.mem_append.mp hl with h | h
      · exact h
      · obtain ⟨v, _, rfl⟩ := List.mem_map.mp h
        exact absurd rfl hne
    · exact fun h => List.mem_append_left _ h

/-- C12: for the vendor list `[1, 1]` the handler answers 200, yet the store holds neither the
new RFP nor any link: the second link insert repeats the key `(rfp_id, vendor_id)` and the
transaction is rolled back, so vendor 1 has no link although it is listed. -/
theorem CreateRFP_repeated_vendor_stores_nothing :
    (CreateRFP emptyStore 0 9 "admin" repeatedVendorCreate false scenarioLookup
        (fun _ => .transportError)).response = ⟨200, "New RFP Request is created"⟩ ∧
      (CreateRFP emptyStore 0 9 "admin" repeatedVendorCreate false scenarioLookup
        (fun _ => .transportError)).store.rfps = [] ∧
      (CreateRFP emptyStore 0 9 "admin" repeatedVendorCreate false scenarioLookup
        (fun _ => .transportError)).store.rfp_vendors = [] ∧
      1 ∈ repeatedVendorCreate.VendorIDs := by
  decide

/-! ## Vendor lookup and notification fan-out -/

theorem vendorEmailOf_eq (r : UserLookup) :
    vendorEmailOf r = (resolvedVendorEmail r).toList := by
  cases r with
  | transportError => rfl
  | response statusCode body =>
    cases body with
    | none => by_cases h : statusCode = 200 <;> simp [vendorEmailOf, resolvedVendorEmail, h]
    | some d =>
      by_cases h : statusCode = 200 <;> by_cases hr : d.Role = "vendor" <;>
        simp [vendorEmailOf, resolvedVendorEmail, h, hr]

theorem getVendorEmailsFrom_eq (get : Nat → Nat → UserLookup) (i : Nat) (vendorIDs : List Nat) :
    getVendorEmailsFrom get i vendorIDs =
      (vendorIDs.enumFrom i).filterMap fun p => resolvedVendorEmail (get p.1 p.2) := by
  induction vendorIDs generalizing i with
  | nil => rfl
  | cons id rest ih =>
    rw [getVendorEmailsFrom, List.enumFrom_cons, List.filterMap_cons, ih (i + 1),
      vendorEmailOf_eq]
    cases resolvedVendorEmail (get i id) <;> rfl

/-- C13, as the claim states it, fails: for the vendor list `[1, 1]`, both lookups resolving to
the same account, the accepted `CreateRFP` issues two send-email requests to the same address. -/
theorem CreateRFP_repeated_vendor_emailed_twice :
    (CreateRFP emptyStore 0 9 "admin" repeatedVendorCreate false scenarioLookup
        (fun _ => .transportError)).response.status = 200 ∧
      (CreateRFP emptyStore 0 9 "admin" repeatedVendorCreate false scenarioLookup
        (fun _ => .transportError)).emails =
        [⟨"v1@example.com", "New RFP Request: Laptops", true⟩,
          ⟨"v1@example.com", "New RFP Request: Laptops", true⟩] := by
  decide

/-- C13, amended: an accepted `CreateRFP` issues, in list order, one send-email request for each
position of the vendor list whose lookup resolves to a vendor account, addressed to the resolved
email and carrying the RFP title in its subject, and no other request; so the addresses are
pairwise distinct whenever the resolved emails are. -/
theorem CreateRFP_fan_out (s : Store) (now : Time) (userID : Nat) (userRole : String)
    (req : CreateRFPRequest) (createErr : Bool) (get : Nat → Nat → UserLookup)
    (list : Nat → VendorListing)
    (hok : (CreateRFP s now userID userRole req createErr get list).response.status = 200) :
    (CreateRFP s now userID userRole req createErr get list).emails.map (·.EmailTo) =
        (req.VendorIDs.enum.filterMap fun p => resolvedVendorEmail (get p.1 p.2)) ∧
    (∀ e ∈ (CreateRFP s now userID userRole req createErr get list).emails,
      e.Subject = "New RFP Request: " ++ req.Title ∧ e.SendNow = true) ∧
    ((req.VendorIDs.enum.filterMap fun p => resolvedVendorEmail (get p.1 p.2)).Nodup →
      ((CreateRFP s now userID userRole req createErr get list).emails.map (·.EmailTo)).Nodup) := by
  rcases CreateRFP_cases s now userID userRole req createErr get list with
    ⟨hst, _, _⟩ | ⟨_, _, _, _, hemails, _⟩
  · exact absurd hok hst
  have hto : (CreateRFP s now userID userRole req createErr get list).emails.map (·.EmailTo) =
      (req.VendorIDs.enum.filterMap fun p => resolvedVendorEmail (get p.1 p.2)) := by
    rw [hemails, List.map_map, GetVendorEmailsByIDs, getVendorEmailsFrom_eq]
    exact List.map_id _
  refine ⟨hto, ?_, fun hnd => hto ▸ hnd⟩
  rw [hemails]
  intro e he
  obtain ⟨_, _, rfl⟩ := List.mem_map.mp he
  exact ⟨rfl, rfl⟩

theorem CreateRFP_fan_out_witness :
    (CreateRFP emptyStore 0 9 "admin" scenarioCreate false scenarioLookup
        (fun _ => .transportError)).emails.map (·.EmailTo) =
      ([1, 2].enum.filterMap fun p => resolvedVendorEmail (scenarioLookup p.1 p.2)) :=
  (CreateRFP_fan_out emptyStore 0 9 "admin" scenarioCreate false scenarioLookup
    (fun _ => .transportError) (by decide)).1

/-- C14: `GetVendorEmailsByIDs` is a total function of the id list and of the outcomes of the
lookups, and its result is, in request order, the email of each position whose lookup returned
HTTP 200 with a decodable body whose role is vendor; every other position (transport error,
another status, undecodable body, another role) contributes nothing, so the result is never
longer than the id list. -/
theorem GetVendorEmailsByIDs_exact (get : Nat → Nat → UserLookup) (vendorIDs : List Nat) :
    GetVendorEmailsByIDs get vendorIDs =
        (vendorIDs.enum.filterMap fun p => resolvedVendorEmail (get p.1 p.2)) ∧
    (GetVendorEmailsByIDs get vendorIDs).length ≤ vendorIDs.length ∧
    (∀ (i id : Nat), (i, id) ∈ vendorIDs.enum →
      (get i id = .transportError ∨
        (∃ statusCode body, get i id = .response statusCode body ∧ statusCode ≠ 200) ∨
        (∃ statusCode, get i id = .response statusCode none) ∨
        (∃ statusCode d, get i id = .response statusCode (some d) ∧ d.Role ≠ "vendor")) →
      resolvedVendorEmail (get i id) = none) := by
  have heq := getVendorEmailsFrom_eq get 0 vendorIDs
  refine ⟨heq, ?_, ?_⟩
  · rw [GetVendorEmailsByIDs, heq]
    calc ((vendorIDs.enumFrom 0).filterMap fun p => resolvedVendorEmail (get p.1 p.2)).length
        ≤ (vendorIDs.enumFrom 0).length := List.length_filterMap_le _ _
      _ = vendorIDs.length := List.enumFrom_length
  · intro i id _ h
    rcases h with h | ⟨c, b, h, hc⟩ | ⟨c, h⟩ | ⟨c, d, h, hr⟩
    · rw [h]; rfl
    · rw [h]; cases b <;> simp [resolvedVendorEmail, hc]
    · rw [h]; rfl
    · rw [h]; simp [resolvedVendorEmail, hr]

theorem GetVendorEmailsByIDs_exact_witness :
    resolvedVendorEmail (scenarioLookup 2 7) = none :=
  (GetVendorEmailsByIDs_exact scenarioLookup [1, 2, 7]).2.2 2 7 (by decide) (Or.inl (by decide))

end RfpQuoteService

namespace NotificationService

/-! ## Delivery of one work item -/

theorem wrapInt_succ (x : Int) (hlo : -(2 ^ 63) ≤ x + 1) (hhi : x + 1 < 2 ^ 63) :
    wrapInt (x + 1) = x + 1 := by
  unfold wrapInt
  rw [Int.emod_eq_of_lt (by linarith) (by linarith)]
  ring

/-- What `Save` leaves of the struct: recipient, subject, content, retry count, error text and
send instant always; the status unless it is empty; `max_retries` unless it is zero. -/
theorem Save_struct (s : Store) (now : Time) (n : Notification) :
    (s.Save now n).1.To = n.To ∧ (s.Save now n).1.Subject = n.Subject ∧
    (s.Save now n).1.Content = n.Content ∧ (s.Save now n).1.RetryCount = n.RetryCount ∧
    (s.Save now n).1.ErrorMsg = n.ErrorMsg ∧ (s.Save now n).1.SentAt = n.SentAt ∧
    (n.Status ≠ "" → (s.Save now n).1.Status = n.Status) ∧
    (n.MaxRetries ≠ 0 → (s.Save now n).1.MaxRetries = n.MaxRetries) := by
  unfold Store.Save
  by_cases h0 : n.ID = 0
  · simp only [h0, if_true]
    split_ifs <;>
      exact ⟨rfl, rfl, rfl, rfl, rfl, rfl, fun h => by simp [Notification.withDefaults, h],
        fun h => by simp [Notification.withDefaults, h]⟩
  · simp only [h0, if_false]
    split_ifs
    · exact ⟨rfl, rfl, rfl, rfl, rfl, rfl, fun _ => rfl, fun _ => rfl⟩
    · exact ⟨rfl, rfl, rfl, rfl, rfl, rfl, fun _ => rfl, fun _ => rfl⟩
    · exact ⟨rfl, rfl, rfl, rfl, rfl, rfl, fun h => by simp [Notification.withDefaults, h],
        fun h => by simp [Notification.withDefaults, h]⟩
    · exact ⟨rfl, rfl, rfl, rfl, rfl, rfl, fun h => by simp [Notification.withDefaults, h],
        fun h => by simp [Notification.withDefaults, h]⟩

/-- The statement `Save` for a struct whose id is that of a row and which the table accepts:
every row with the id becomes the struct, with `updated_at` the current instant, and nothing
else changes. -/
theorem Save_stored (s : Store) (now : Time) (n : Notification) (h0 : n.ID ≠ 0)
    (hrow : ∃ m ∈ s.notifications, m.ID = n.ID)
    (hadm : ({ n with UpdatedAt := now } : Notification).Admissible = true) :
    s.Save now n =
      ({ n with UpdatedAt := now },
        { s with
          notifications := s.notifications.map fun m =>
            if m.ID = n.ID then { n with UpdatedAt := now } else m }) := by
  have hany : s.notifications.any (fun m => m.ID == n.ID) = true := by
    obtain ⟨m, hm, hid⟩ := hrow
    exact List.any_eq_true.mpr ⟨m, hm, by simp [hid]⟩
  unfold Store.Save
  simp only [h0, if_false, hany, if_true, hadm]

/-- The statement `Save` leaves the rows with other ids in the table. -/
theorem Save_preserves (s : Store) (now : Time) (n m : Notification) (hm : m ∈ s.notifications)
    (hid : m.ID ≠ n.ID) : m ∈ (s.Save now n).2.notifications := by
  unfold Store.Save
  by_cases h0 : n.ID = 0
  · simp only [h0, if_true]
    split_ifs
    · exact List.mem_append_left _ hm
    · exact hm
  · simp only [h0, if_false]
    split_ifs
    · exact List.mem_map.mpr ⟨m, hm, by simp [hid]⟩
    · exact hm
    · exact List.mem_append_left _ hm
    · exact hm

theorem IncrementRetry_ID (n : Notification) : n.IncrementRetry.ID = n.ID := by
  unfold Notification.IncrementRetry
  simp only
  split_ifs <;> rfl

/-- The struct that `processEmailNotification` hands to `Save`, after a failed send. -/
theorem IncrementRetry_fields (n : Notification) (hlo : -(2 ^ 63) ≤ n.RetryCount)
    (hhi : n.RetryCount < 2 ^ 63 - 1) :
    n.IncrementRetry.RetryCount = n.RetryCount + 1 ∧
    (n.RetryCount + 1 ≥ n.MaxRetries → n.IncrementRetry.Status = StatusFailed) ∧
    (n.RetryCount + 1 < n.MaxRetries → n.IncrementRetry.Status = StatusRetry) ∧
    n.IncrementRetry.Status ≠ "" ∧
    n.IncrementRetry.MaxRetries = n.MaxRetries ∧ n.IncrementRetry.To = n.To ∧
    n.IncrementRetry.Subject = n.Subject ∧ n.IncrementRetry.Content = n.Content ∧
    n.IncrementRetry.ErrorMsg = n.ErrorMsg ∧ n.IncrementRetry.Type' = n.Type' := by
  have hw : wrapInt (n.RetryCount + 1) = n.RetryCount + 1 :=
    wrapInt_succ _ (by linarith) (by linarith)
  unfold Notification.IncrementRetry
  simp only [hw]
  by_cases h : n.RetryCount + 1 ≥ n.MaxRetries
  · rw [if_pos h]
    exact ⟨rfl, fun _ => rfl, fun h2 => absurd h (not_le.mpr h2), (by decide : StatusFailed ≠ ""), rfl, rfl, rfl, rfl,
      rfl, rfl⟩
  · rw [if_neg h]
    exact ⟨rfl, fun h2 => absurd h2 h, fun _ => rfl, (by decide : StatusRetry ≠ ""), rfl, rfl, rfl, rfl, rfl, rfl⟩


/-- The struct after `Save` when a row has its id: only `updated_at` has changed. -/
theorem Save_struct_of_row (s : Store) (now : Time) (n : Notification) (h0 : n.ID ≠ 0)
    (hrow : ∃ m ∈ s.notifications, m.ID = n.ID) :
    (s.Save now n).1 = { n with UpdatedAt := now } := by
  have hany : s.notifications.any (fun m => m.ID == n.ID) = true := by
    obtain ⟨m, hm, hid⟩ := hrow
    exact List.any_eq_true.mpr ⟨m, hm, by simp [hid]⟩
  unfold Store.Save
  simp only [h0, if_false, hany, if_true]
  split_ifs <;> rfl

/-- A processed item is a row the table accepts when its type, recipient and subject are. -/
theorem Admissible_of_processed (n : Notification) (now : Time) (hty : n.Type' = TypeEmail)
    (hto : n.To.length ≤ 255) (hsub : n.Subject.length ≤ 255)
    (hst : n.Status = StatusSent ∨ n.Status = StatusFailed ∨ n.Status = StatusRetry) :
    ({ n with UpdatedAt := now } : Notification).Admissible = true := by
  rcases hst with h | h | h <;>
    simp [Notification.Admissible, hty, hto, hsub, h, StatusSent, StatusFailed, StatusRetry,
      StatusPending]

/-- C15: when the send fails, `processEmailNotification` returns false and leaves the item with
the retry count one higher (the count not being the largest 64-bit integer), the error text
recorded, and status failed when the new count has reached the `max_retries` of the item, status
retry otherwise; recipient, subject and content are as before, and so is `max_retries`, unless
the item has no row and its `max_retries` is 0, where the insert gives it the column default.
When a row has the id of the item and the table accepts its type, recipient and subject, the
save rewrites that row: the table afterwards is the table before with every row of that id
replaced by the item as left, so no stale copy remains and no row is added. -/
theorem processEmailNotification_failure (s : Store) (now : Time) (text : String)
    (n : Notification) (hlo : -(2 ^ 63) ≤ n.RetryCount) (hhi : n.RetryCount < 2 ^ 63 - 1) :
    (processEmailNotification s now (some text) n).1 = false ∧
    (processEmailNotification s now (some text) n).2.1.RetryCount = n.RetryCount + 1 ∧
    (processEmailNotification s now (some text) n).2.1.ErrorMsg = text ∧
    (n.RetryCount + 1 ≥ n.MaxRetries →
      (processEmailNotification s now (some text) n).2.1.Status = StatusFailed) ∧
    (n.RetryCount + 1 < n.MaxRetries →
      (processEmailNotification s now (some text) n).2.1.Status = StatusRetry) ∧
    (processEmailNotification s now (some text) n).2.1.To = n.To ∧
    (processEmailNotification s now (some text) n).2.1.Subject = n.Subject ∧
    (processEmailNotification s now (some text) n).2.1.Content = n.Content ∧
    ((n.MaxRetries ≠ 0 ∨ (n.ID ≠ 0 ∧ ∃ m ∈ s.notifications, m.ID = n.ID)) →
      (processEmailNotification s now (some text) n).2.1.MaxRetries = n.MaxRetries) ∧
    (n.ID ≠ 0 → (∃ m ∈ s.notifications, m.ID = n.ID) → n.Type' = TypeEmail →
      n.To.length ≤ 255 → n.Subject.length ≤ 255 →
      (processEmailNotification s now (some text) n).2.2.notifications =
          (s.notifications.map fun m =>
            if m.ID = n.ID then (processEmailNotification s now (some text) n).2.1 else m) ∧
        (processEmailNotification s now (some text) n).2.2.nextID = s.nextID ∧
        (processEmailNotification s now (some text) n).2.1.ID = n.ID) := by
  obtain ⟨i1, i2, i3, i4, i5, i6, i7, i8, i9, i10⟩ :=
    IncrementRetry_fields { n with Status := StatusFailed, ErrorMsg := text } hlo hhi
  obtain ⟨s1, s2, s3, s4, s5, _, s7, s8⟩ := Save_struct s now
    ({ n with Status := StatusFailed, ErrorMsg := text } : Notification).IncrementRetry
  have hid := IncrementRetry_ID { n with Status := StatusFailed, ErrorMsg := text }
  refine ⟨rfl, ?_, ?_, fun h => ?_, fun h => ?_, ?_, ?_, ?_, fun h => ?_,
    fun h0 hrow hty hto hsub => ?_⟩
  · exact s4.trans i1
  · exact s5.trans i9
  · exact (s7 i4).trans (i2 h)
  · exact (s7 i4).trans (i3 h)
  · exact s1.trans i6
  · exact s2.trans i7
  · exact s3.trans i8
  · rcases h with h | ⟨h0, hrow⟩
    · exact (s8 (by rw [i5]; exact h)).trans i5
    · have := Save_struct_of_row s now
        ({ n with Status := StatusFailed, ErrorMsg := text } : Notification).IncrementRetry
        (by rw [hid]; exact h0) (by rw [hid]; exact hrow)
      show (s.Save now _).1.MaxRetries = n.MaxRetries
      rw [this]
      exact i5
  · have hst : ({ n with Status := StatusFailed, ErrorMsg := text } :
        Notification).IncrementRetry.Status = StatusFailed ∨
        ({ n with Status := StatusFailed, ErrorMsg := text } :
        Notification).IncrementRetry.Status = StatusRetry := by
      by_cases h : n.RetryCount + 1 ≥ n.MaxRetries
      · exact Or.inl (i2 h)
      · exact Or.inr (i3 (not_le.mp h))
    have hadm := Admissible_of_processed
      ({ n with Status := StatusFailed, ErrorMsg := text } : Notification).IncrementRetry now
      (i10.trans hty) (by rw [i6]; exact hto) (by rw [i7]; exact hsub)
      (hst.elim (fun h => Or.inr (Or.inl h)) (fun h => Or.inr (Or.inr h)))
    have hsave := Save_stored s now
      ({ n with Status := StatusFailed, ErrorMsg := text } : Notification).IncrementRetry
      (by rw [hid]; exact h0) (by rw [hid]; exact hrow) hadm
    have hp : processEmailNotification s now (some text) n =
        (false, (s.Save now ({ n with Status := StatusFailed, ErrorMsg := text } :
          Notification).IncrementRetry).1,
          (s.Save now ({ n with Status := StatusFailed, ErrorMsg := text } :
          Notification).IncrementRetry).2) := rfl
    rw [hp, hsave]
    refine ⟨?_, rfl, hid⟩
    simp only [hid]

theorem processEmailNotification_failure_witness :
    (processEmailNotification ⟨[sampleItem], 2⟩ 1 (some "failed to send email: timeout")
        sampleItem).2.2.notifications =
      [{ sampleItem with
          Status := StatusRetry, RetryCount := 1, ErrorMsg := "failed to send email: timeout",
          UpdatedAt := 1 }] :=
  ((processEmailNotification_failure ⟨[sampleItem], 2⟩ 1 "failed to send email: timeout"
    sampleItem (by decide) (by decide)).2.2.2.2.2.2.2.2.2 (by decide) (by decide) (by decide)
    (by decide) (by decide)).1.trans (by decide)

/-- C16: when the send succeeds, `processEmailNotification` returns true and leaves the item
with status sent, `sent_at` the current instant and an empty error message; retry count,
recipient, subject and content are as before, and so is `max_retries`, unless the item has no
row and its `max_retries` is 0, where the insert gives it the column default.  When a row has
the id of the item and the table accepts its type, recipient and subject, the save rewrites that
row: the table afterwards is the table before with every row of that id replaced by the item as
left, so no stale copy remains and no row is added. -/
theorem processEmailNotification_success (s : Store) (now : Time) (n : Notification) :
    (processEmailNotification s now none n).1 = true ∧
    (processEmailNotification s now none n).2.1.Status = StatusSent ∧
    (processEmailNotification s now none n).2.1.SentAt = some now ∧
    (processEmailNotification s now none n).2.1.ErrorMsg = "" ∧
    (processEmailNotification s now none n).2.1.RetryCount = n.RetryCount ∧
    (processEmailNotification s now none n).2.1.To = n.To ∧
    (processEmailNotification s now none n).2.1.Subject = n.Subject ∧
    (processEmailNotification s now none n).2.1.Content = n.Content ∧
    ((n.MaxRetries ≠ 0 ∨ (n.ID ≠ 0 ∧ ∃ m ∈ s.notifications, m.ID = n.ID)) →
      (processEmailNotification s now none n).2.1.MaxRetries = n.MaxRetries) ∧
    (n.ID ≠ 0 → (∃ m ∈ s.notifications, m.ID = n.ID) → n.Type' = TypeEmail →
      n.To.length ≤ 255 → n.Subject.length ≤ 255 →
      (processEmailNotification s now none n).2.2.notifications =
          (s.notifications.map fun m =>
            if m.ID = n.ID then (processEmailNotification s now none n).2.1 else m) ∧
        (processEmailNotification s now none n).2.2.nextID = s.nextID ∧
        (processEmailNotification s now none n).2.1.ID = n.ID) := by
  obtain ⟨s1, s2, s3, s4, s5, s6, s7, s8⟩ := Save_struct s now
    ({ n with Status := StatusSent, SentAt := some now, ErrorMsg := "" } : Notification)
  refine ⟨rfl, s7 (by decide : StatusSent ≠ ""), s6, s5, s4, s1, s2, s3, fun h => ?_,
    fun h0 hrow hty hto hsub => ?_⟩
  · rcases h with h | ⟨h0, hrow⟩
    · exact s8 h
    · have := Save_struct_of_row s now
        ({ n with Status := StatusSent, SentAt := some now, ErrorMsg := "" } : Notification)
        h0 hrow
      show (s.Save now _).1.MaxRetries = n.MaxRetries
      rw [this]
  · have hadm := Admissible_of_processed
      ({ n with Status := StatusSent, SentAt := some now, ErrorMsg := "" } : Notification) now
      hty hto hsub (Or.inl rfl)
    have hsave := Save_stored s now
      ({ n with Status := StatusSent, SentAt := some now, ErrorMsg := "" } : Notification)
      h0 hrow hadm
    have hp : processEmailNotification s now none n =
        (true, (s.Save now ({ n with Status := StatusSent, SentAt := some now, ErrorMsg := "" } :
          Notification)).1,
          (s.Save now ({ n with Status := StatusSent, SentAt := some now, ErrorMsg := "" } :
          Notification)).2) := rfl
    rw [hp, hsave]
    exact ⟨rfl, rfl, rfl⟩

theorem processEmailNotification_success_witness :
    (processEmailNotification ⟨[sampleItem], 2⟩ 1 none sampleItem).2.2.notifications =
      [{ sampleItem with Status := StatusSent, SentAt := some 1, UpdatedAt := 1 }] :=
  ((processEmailNotification_success ⟨[sampleItem], 2⟩ 1 sampleItem).2.2.2.2.2.2.2.2.2
    (by decide) (by decide) (by decide) (by decide) (by decide)).1.trans (by decide)

/-- An item that has no row and whose `max_retries` is 0 comes back from a successful delivery
with `max_retries` 3, the default of the column, and is inserted so. -/
theorem processEmailNotification_unstored_item :
    (processEmailNotification emptyStore 1 none unstoredItem).2.1.MaxRetries = 3 ∧
      (processEmailNotification emptyStore 1 none unstoredItem).2.2.notifications =
        [{ unstoredItem with
            Status := StatusSent, SentAt := some 1, MaxRetries := 3, CreatedAt := 1,
            UpdatedAt := 1 }] ∧
      (processEmailNotification emptyStore 1 none { unstoredItem with ID := 0 }).2.1.ID = 1 := by
  decide

/-! ## Batch processing -/

/-- The loop of `ProcessPendingNotifications` over email items: every item is handed to the
transport once, in order, and the counters advance accordingly. -/
theorem foldl_processOne (now : Time) (send : Notification → Option String)
    (l : List Notification) (acc : BatchResult) (hemail : ∀ n ∈ l, n.Type' = TypeEmail) :
    (l.foldl (processOne now send) acc).attempted = acc.attempted ++ l ∧
    (l.foldl (processOne now send) acc).processed = acc.processed + l.length ∧
    (l.foldl (processOne now send) acc).successful =
      acc.successful + (l.filter fun n => (send n).isNone).length ∧
    (l.foldl (processOne now send) acc).failed =
      acc.failed + (l.filter fun n => (send n).isSome).length ∧
    (l.foldl (processOne now send) acc).response = acc.response := by
  induction l generalizing acc with
  | nil => simp
  | cons n rest ih =>
    have hn : n.Type' = TypeEmail := hemail n (List.mem_cons_self _ _)
    obtain ⟨h1, h2, h3, h4, h5⟩ :=
      ih (processOne now send acc n) fun m hm => hemail m (List.mem_cons_of_mem _ hm)
    rw [List.foldl_cons]
    refine ⟨?_, ?_, ?_, ?_, ?_⟩
    · rw [h1]; simp [processOne, hn]
    · rw [h2]; simp [processOne, hn]; omega
    · rw [h3]
      cases hs : send n with
      | none => simp [processOne, hn, processEmailNotification, hs, List.filter_cons]; omega
      | some text => simp [processOne, hn, processEmailNotification, hs, List.filter_cons]
    · rw [h4]
      cases hs : send n with
      | none => simp [processOne, hn, processEmailNotification, hs, List.filter_cons]
      | some text => simp [processOne, hn, processEmailNotification, hs, List.filter_cons]; omega
    · rw [h5]; simp [processOne, hn]

/-- A row whose id is not among the fetched items is still in the table after the loop. -/
theorem foldl_processOne_preserves (now : Time) (send : Notification → Option String)
    (l : List Notification) (acc : BatchResult) (m : Notification)
    (hm : m ∈ acc.store.notifications) (hid : ∀ n ∈ l, m.ID ≠ n.ID) :
    m ∈ (l.foldl (processOne now send) acc).store.notifications := by
  induction l generalizing acc with
  | nil => exact hm
  | cons n rest ih =>
    rw [List.foldl_cons]
    refine ih _ ?_ fun k hk => hid k (List.mem_cons_of_mem _ hk)
    have hne : m.ID ≠ n.ID := hid n (List.mem_cons_self _ _)
    unfold processOne
    by_cases hn : n.Type' = TypeEmail
    · simp only [hn, if_true]
      cases hs : send n with
      | none => exact Save_preserves _ now _ m hm hne
      | some text =>
        refine Save_preserves _ now _ m hm ?_
        rw [IncrementRetry_ID]
        exact hne
    · simp only [hn, if_false]
      exact hm

theorem filter_isSome_length (send : Notification → Option String) (l : List Notification) :
    (l.filter fun n => (send n).isSome).length =
      l.length - (l.filter fun n => (send n).isNone).length := by
  induction l with
  | nil => rfl
  | cons n rest ih =>
    have hle : (rest.filter fun n => (send n).isNone).length ≤ rest.length :=
      List.length_filter_le _ _
    cases hs : send n with
    | none => simp [List.filter_cons, hs, ih]
    | some text => simp [List.filter_cons, hs, ih]; omega

/-- The items a pass of `ProcessPendingNotifications` hands to the transport are the rows whose
status is pending or retry, in table order. -/
theorem ProcessPendingNotifications_attempted (s : Store) (now : Time)
    (send : Notification → Option String) (hemail : s.AllEmail) :
    (ProcessPendingNotifications s now send false).attempted =
      (s.notifications.filter fun n => n.Status == StatusPending || n.Status == StatusRetry) := by
  have h := (foldl_processOne now send
    (s.notifications.filter fun n => n.Status == StatusPending || n.Status == StatusRetry)
    ⟨⟨200, "Batch processing completed"⟩, 0, 0, 0, s, []⟩
    fun n hn => hemail n (List.mem_of_mem_filter hn)).1
  simp only [ProcessPendingNotifications, Bool.false_eq_true, if_false]
  simpa using h

/-- C18: on a store whose rows are all email items (the check constraint of column `type`),
`ProcessPendingNotifications` hands to the transport, once each and in table order, exactly the
items whose status is pending or retry, and reports as processed their number, as successful
the number of them whose send succeeded, and as failed the difference of the two. -/
theorem ProcessPendingNotifications_counts (s : Store) (now : Time)
    (send : Notification → Option String) (hemail : s.AllEmail) :
    (ProcessPendingNotifications s now send false).response =
        ⟨200, "Batch processing completed"⟩ ∧
    (ProcessPendingNotifications s now send false).attempted =
        (s.notifications.filter fun n => n.Status == StatusPending || n.Status == StatusRetry) ∧
    (ProcessPendingNotifications s now send false).processed =
        (s.notifications.filter fun n =>
          n.Status == StatusPending || n.Status == StatusRetry).length ∧
    (ProcessPendingNotifications s now send false).successful =
        ((s.notifications.filter fun n =>
          n.Status == StatusPending || n.Status == StatusRetry).filter fun n =>
            (send n).isNone).length ∧
    (ProcessPendingNotifications s now send false).failed =
        (ProcessPendingNotifications s now send false).processed -
          (ProcessPendingNotifications s now send false).successful := by
  have hsel : ∀ n ∈ (s.notifications.filter fun n =>
      n.Status == StatusPending || n.Status == StatusRetry), n.Type' = TypeEmail :=
    fun n hn => hemail n (List.mem_of_mem_filter hn)
  obtain ⟨h1, h2, h3, h4, h5⟩ := foldl_processOne now send _
    ⟨⟨200, "Batch processing completed"⟩, 0, 0, 0, s, []⟩ hsel
  simp only [ProcessPendingNotifications, Bool.false_eq_true, if_false]
  refine ⟨h5, by simpa using h1, by simpa using h2, by simpa using h3, ?_⟩
  rw [h4, h2, h3, filter_isSome_length]
  simp

theorem ProcessPendingNotifications_counts_witness :
    (ProcessPendingNotifications ⟨[sampleItem], 2⟩ 1 alwaysFails false).processed = 1 :=
  (ProcessPendingNotifications_counts ⟨[sampleItem], 2⟩ 1 alwaysFails (by decide)).2.2.1

/-- A pass of `ProcessPendingNotifications` over a table with distinct ids does not hand to the
transport any row whose status is neither pending nor retry, and leaves each such row in the
table as it was. -/
theorem ProcessPendingNotifications_skips (s : Store) (now : Time)
    (send : Notification → Option String) (m : Notification) (hemail : s.AllEmail)
    (hkey : (s.notifications.map (·.ID)).Nodup) (hm : m ∈ s.notifications)
    (hp : m.Status ≠ StatusPending) (hr : m.Status ≠ StatusRetry) :
    m ∉ (ProcessPendingNotifications s now send false).attempted ∧
      m ∈ (ProcessPendingNotifications s now send false).store.notifications := by
  constructor
  · rw [ProcessPendingNotifications_attempted s now send hemail]
    intro h
    have := (List.mem_filter.mp h).2
    simp [hp, hr] at this
  · simp only [ProcessPendingNotifications, Bool.false_eq_true, if_false]
    refine foldl_processOne_preserves now send _ _ m hm fun n hn hid => ?_
    obtain ⟨hnmem, hnsel⟩ := List.mem_filter.mp hn
    have heq : m = n := by
      by_contra hne
      exact (List.inj_on_of_nodup_map hkey hm hnmem hid |> hne)
    subst heq
    simp [hp, hr] at hnsel

/-! ## Bounded retry -/

/-- The counters of an item with a nonzero `max_retries` after a failed send. -/
theorem processEmailNotification_failed_send (s : Store) (now : Time) (text : String)
    (n : Notification) (hlo : -(2 ^ 63) ≤ n.RetryCount) (hhi : n.RetryCount < 2 ^ 63 - 1)
    (hmax : n.MaxRetries ≠ 0) :
    (processEmailNotification s now (some text) n).2.1.RetryCount = n.RetryCount + 1 ∧
    (processEmailNotification s now (some text) n).2.1.MaxRetries = n.MaxRetries ∧
    (n.RetryCount + 1 ≥ n.MaxRetries →
      (processEmailNotification s now (some text) n).2.1.Status = StatusFailed) ∧
    (n.RetryCount + 1 < n.MaxRetries →
      (processEmailNotification s now (some text) n).2.1.Status = StatusRetry) := by
  obtain ⟨i1, i2, i3, i4, i5, _⟩ :=
    IncrementRetry_fields { n with Status := StatusFailed, ErrorMsg := text } hlo hhi
  obtain ⟨_, _, _, s4, _, _, s7, s8⟩ := Save_struct s now
    ({ n with Status := StatusFailed, ErrorMsg := text } : Notification).IncrementRetry
  exact ⟨s4.trans i1, (s8 (by rw [i5]; exact hmax)).trans i5, fun h => (s7 i4).trans (i2 h),
    fun h => (s7 i4).trans (i3 h)⟩

/-- An attempt on an item whose retry count is below `max_retries` leaves the count at most
`max_retries`. -/
theorem processEmailNotification_bounded (s : Store) (now : Time) (sendErr : Option String)
    (n : Notification) (hlo : -(2 ^ 63) ≤ n.RetryCount) (hhi : n.MaxRetries < 2 ^ 63)
    (hmax : n.MaxRetries ≠ 0) (hlt : n.RetryCount < n.MaxRetries) :
    (processEmailNotification s now sendErr n).2.1.RetryCount ≤
      (processEmailNotification s now sendErr n).2.1.MaxRetries := by
  cases sendErr with
  | none =>
    obtain ⟨_, _, _, s4, _, _, _, s8⟩ := Save_struct s now
      ({ n with Status := StatusSent, SentAt := some now, ErrorMsg := "" } : Notification)
    have h4 : (processEmailNotification s now none n).2.1.RetryCount = n.RetryCount := s4
    have h8 : (processEmailNotification s now none n).2.1.MaxRetries = n.MaxRetries := s8 hmax
    rw [h4, h8]
    exact le_of_lt hlt
  | some text =>
    obtain ⟨hc, hm, _, _⟩ :=
      processEmailNotification_failed_send s now text n hlo (by linarith) hmax
    rw [hc, hm]
    linarith

/-- Three failed sends in a row take an item with retry count 0 and `max_retries` 3 through
retry with count 1 and retry with count 2 to failed with count 3. -/
theorem three_failures_then_failed (s1 s2 s3 : Store) (t1 t2 t3 : Time) (e1 e2 e3 : String)
    (n : Notification) (h0 : n.RetryCount = 0) (h3 : n.MaxRetries = 3) :
    ((processEmailNotification s1 t1 (some e1) n).2.1.Status = StatusRetry ∧
      (processEmailNotification s1 t1 (some e1) n).2.1.RetryCount = 1) ∧
    ((processEmailNotification s2 t2 (some e2)
        (processEmailNotification s1 t1 (some e1) n).2.1).2.1.Status = StatusRetry ∧
      (processEmailNotification s2 t2 (some e2)
        (processEmailNotification s1 t1 (some e1) n).2.1).2.1.RetryCount = 2) ∧
    ((processEmailNotification s3 t3 (some e3)
        (processEmailNotification s2 t2 (some e2)
          (processEmailNotification s1 t1 (some e1) n).2.1).2.1).2.1.Status = StatusFailed ∧
      (processEmailNotification s3 t3 (some e3)
        (processEmailNotification s2 t2 (some e2)
          (processEmailNotification s1 t1 (some e1) n).2.1).2.1).2.1.RetryCount = 3) := by
  obtain ⟨c1, m1, _, r1⟩ :=
    processEmailNotification_failed_send s1 t1 e1 n (by rw [h0]; norm_num) (by rw [h0]; norm_num)
      (by rw [h3]; norm_num)
  rw [h0] at c1
  rw [h0, h3] at r1
  rw [h3] at m1
  obtain ⟨c2, m2, _, r2⟩ :=
    processEmailNotification_failed_send s2 t2 e2 (processEmailNotification s1 t1 (some e1) n).2.1
      (by rw [c1]; norm_num) (by rw [c1]; norm_num) (by rw [m1]; norm_num)
  rw [c1] at c2
  rw [c1, m1] at r2
  rw [m1] at m2
  obtain ⟨c3, _, f3, _⟩ :=
    processEmailNotification_failed_send s3 t3 e3
      (processEmailNotification s2 t2 (some e2)
        (processEmailNotification s1 t1 (some e1) n).2.1).2.1
      (by rw [c2]; norm_num) (by rw [c2]; norm_num) (by rw [m2]; norm_num)
  rw [c2] at c3
  rw [c2, m2] at f3
  exact ⟨⟨r1 (by norm_num), by rw [c1]; norm_num⟩, ⟨r2 (by norm_num), by rw [c2]; norm_num⟩,
    ⟨f3 (by norm_num), by rw [c3]; norm_num⟩⟩

/-- C17: the retry count can pass `max_retries`.  `SendEmail` queues an item and starts its
goroutine; three batch passes whose sends fail leave the item failed with count 3; the goroutine,
which does not look at the status, then runs, its send fails, and the item is saved with retry
count 4 and `max_retries` 3. -/
theorem retry_count_exceeds_max_retries_when_goroutine_runs_last :
    (run emptyService (lateGoroutineOps.take 4)).store.notifications =
        [{ sampleItem with
            Status := StatusFailed, RetryCount := 3,
            ErrorMsg := "failed to send email: timeout", UpdatedAt := 3 }] ∧
      (run emptyService (lateGoroutineOps.take 4)).detached = [1] ∧
      (run emptyService lateGoroutineOps).store.notifications =
        [{ sampleItem with
            Status := StatusFailed, RetryCount := 4,
            ErrorMsg := "failed to send email: timeout", UpdatedAt := 4 }] := by
  decide

end NotificationService

namespace AuthService

/-! ## generateOTP -/

/-- C19: for the bytes 255, 255, 255 `generateOTP` returns the eight characters `16777215`, and
for the bytes 16, 0, 0 the seven characters `1048576`: the remainder modulo 1000000 is applied to
the last byte only, so the number printed is the whole 24-bit value.  For the bytes 0, 16, 146 it
returns the six characters `004242`. -/
theorem generateOTP_longer_than_six :
    generateOTP 255 255 255 = "16777215" ∧ (generateOTP 255 255 255).length = 8 ∧
      generateOTP 16 0 0 = "1048576" ∧ (generateOTP 16 0 0).length = 7 ∧
      generateOTP 0 16 146 = "004242" := by
  decide

/-! ## ResetPassword -/

theorem find?_Email_eq_some (l : List PasswordResetOTP) (c : PasswordResetOTP)
    (hmem : c ∈ l) (huniq : ∀ o ∈ l, o.Email = c.Email → o = c) :
    l.find? (fun o => o.Email == c.Email) = some c := by
  induction l with
  | nil => cases hmem
  | cons a t ih =>
    by_cases ha : a.Email = c.Email
    · have : a = c := huniq a (List.mem_cons_self _ _) ha
      subst this
      simp [List.find?_cons]
    · rcases List.mem_cons.mp hmem with rfl | hin
      · exact absurd rfl ha
      · rw [List.find?_cons_of_neg _ (by simpa using ha)]
        exact ih hin fun o ho => huniq o (List.mem_cons_of_mem _ ho)

/-- A validated request with a wrong code, made before expiry against the outstanding record of
the email: while fewer than two attempts have failed the attempt is counted and the answer names
the attempts left; the third failure deletes the record.  The users are not touched. -/
theorem ResetPassword_wrong_code (s : Store) (now : Time) (isEmail : String → Bool)
    (req : ResetPasswordRequest) (hash : String → Option String) (updateErr : Bool)
    (c : PasswordResetOTP) (hc : s.Outstanding c)
    (hvalid : validateResetPasswordRequest isEmail req = none) (hemail : req.Email = c.Email)
    (hwrong : req.OTP ≠ c.OTP) (htime : now ≤ c.ExpiresAt) (hlt : c.Attempts < 3) :
    (c.Attempts + 1 < 3 →
      ResetPassword s now isEmail req hash updateErr =
          (⟨400, "Invalid OTP. " ++ toString (3 - (c.Attempts + 1)) ++ " attempts remaining"⟩,
            s.saveOTP { c with Attempts := c.Attempts + 1 }, []) ∧
        (s.saveOTP { c with Attempts := c.Attempts + 1 }).Outstanding
          { c with Attempts := c.Attempts + 1 }) ∧
    (3 ≤ c.Attempts + 1 →
      ResetPassword s now isEmail req hash updateErr =
          (⟨400, "Too many failed attempts. Please request a new OTP"⟩, s.deleteOTP c, []) ∧
        ∀ o ∈ (s.deleteOTP c).otps, o.Email ≠ c.Email) := by
  have hfind : s.otps.find? (fun o => o.Email == req.Email) = some c := by
    rw [hemail]
    exact find?_Email_eq_some _ c hc.1 fun o ho he => hc.2 o ho (Or.inl he)
  have hexp : ¬ now > c.ExpiresAt := not_lt.mpr htime
  have hatt : ¬ c.Attempts ≥ 3 := not_le.mpr hlt
  have hne : c.OTP ≠ req.OTP := fun h => hwrong h.symm
  constructor
  · intro hsmall
    have hnot : ¬ c.Attempts + 1 ≥ 3 := not_le.mpr hsmall
    refine ⟨by simp [ResetPassword, hvalid, hfind, hexp, hatt, hne, hnot], ?_, ?_⟩
    · exact List.mem_map.mpr ⟨c, hc.1, by simp⟩
    · intro o ho hor
      obtain ⟨o0, ho0, rfl⟩ := List.mem_map.mp ho
      by_cases h0 : o0.ID = c.ID
      · rw [if_pos h0]
      · rw [if_neg h0] at hor ⊢
        exact absurd (congrArg PasswordResetOTP.ID (hc.2 o0 ho0 hor)) h0
  · intro hbig
    refine ⟨by simp [ResetPassword, hvalid, hfind, hexp, hatt, hne, hbig, Store.deleteOTP], ?_⟩
    intro o ho he
    have hmem := List.mem_filter.mp ho
    have := hc.2 o hmem.1 (Or.inl he)
    subst this
    simp at hmem

/-- A validated request for an email that has no stored record is answered invalid-or-expired
and changes nothing. -/
theorem ResetPassword_no_record (s : Store) (now : Time) (isEmail : String → Bool)
    (req : ResetPasswordRequest) (hash : String → Option String) (updateErr : Bool)
    (hvalid : validateResetPasswordRequest isEmail req = none)
    (hnone : ∀ o ∈ s.otps, o.Email ≠ req.Email) :
    ResetPassword s now isEmail req hash updateErr = (⟨400, "Invalid or expired OTP"⟩, s, []) := by
  have hfind : s.otps.find? (fun o => o.Email == req.Email) = none := by
    rw [List.find?_eq_none]
    intro o ho
    simpa using hnone o ho
  simp [ResetPassword, hvalid, hfind]

/-- C20: let an email have an outstanding code record with no failed attempt.  Three validated
`ResetPassword` calls for it with a wrong code, none after the expiry, are answered with 2
attempts remaining, with 1 attempts remaining, and with too-many-failed-attempts; after the
third no record of the email is stored and the users are as at the start; and from then on every
validated `ResetPassword` for the email, whatever code it carries, the stored one included, is
answered invalid-or-expired and changes nothing. -/
theorem ResetPassword_three_wrong_codes (s : Store) (isEmail : String → Bool)
    (hash : String → Option String) (u1 u2 u3 : Bool) (c : PasswordResetOTP)
    (req1 req2 req3 : ResetPasswordRequest) (t1 t2 t3 : Time)
    (hc : s.Outstanding c) (h0 : c.Attempts = 0)
    (hv1 : validateResetPasswordRequest isEmail req1 = none) (he1 : req1.Email = c.Email)
    (hw1 : req1.OTP ≠ c.OTP) (ht1 : t1 ≤ c.ExpiresAt)
    (hv2 : validateResetPasswordRequest isEmail req2 = none) (he2 : req2.Email = c.Email)
    (hw2 : req2.OTP ≠ c.OTP) (ht2 : t2 ≤ c.ExpiresAt)
    (hv3 : validateResetPasswordRequest isEmail req3 = none) (he3 : req3.Email = c.Email)
    (hw3 : req3.OTP ≠ c.OTP) (ht3 : t3 ≤ c.ExpiresAt) :
    (ResetPassword s t1 isEmail req1 hash u1).1 = ⟨400, "Invalid OTP. 2 attempts remaining"⟩ ∧
    (ResetPassword (ResetPassword s t1 isEmail req1 hash u1).2.1 t2 isEmail req2 hash u2).1 =
      ⟨400, "Invalid OTP. 1 attempts remaining"⟩ ∧
    (ResetPassword
        (ResetPassword (ResetPassword s t1 isEmail req1 hash u1).2.1 t2 isEmail req2 hash u2).2.1
        t3 isEmail req3 hash u3).1 =
      ⟨400, "Too many failed attempts. Please request a new OTP"⟩ ∧
    (∀ o ∈ (ResetPassword
        (ResetPassword (ResetPassword s t1 isEmail req1 hash u1).2.1 t2 isEmail req2 hash u2).2.1
        t3 isEmail req3 hash u3).2.1.otps, o.Email ≠ c.Email) ∧
    (ResetPassword
        (ResetPassword (ResetPassword s t1 isEmail req1 hash u1).2.1 t2 isEmail req2 hash u2).2.1
        t3 isEmail req3 hash u3).2.1.users = s.users ∧
    (∀ (t4 : Time) (req4 : ResetPasswordRequest) (hash4 : String → Option String) (u4 : Bool),
      req4.Email = c.Email → validateResetPasswordRequest isEmail req4 = none →
      ResetPassword
          (ResetPassword
            (ResetPassword (ResetPassword s t1 isEmail req1 hash u1).2.1 t2 isEmail req2 hash
              u2).2.1 t3 isEmail req3 hash u3).2.1 t4 isEmail req4 hash4 u4 =
        (⟨400, "Invalid or expired OTP"⟩,
          (ResetPassword
            (ResetPassword (ResetPassword s t1 isEmail req1 hash u1).2.1 t2 isEmail req2 hash
              u2).2.1 t3 isEmail req3 hash u3).2.1, [])) := by
  obtain ⟨e1, o1⟩ := (ResetPassword_wrong_code s t1 isEmail req1 hash u1 c hc hv1 he1 hw1 ht1
    (by rw [h0]; norm_num)).1 (by rw [h0]; norm_num)
  obtain ⟨e2, o2⟩ := (ResetPassword_wrong_code _ t2 isEmail req2 hash u2
    { c with Attempts := c.Attempts + 1 } o1 hv2 he2 hw2 ht2
    (by show c.Attempts + 1 < 3; rw [h0]; norm_num)).1
    (by show c.Attempts + 1 + 1 < 3; rw [h0]; norm_num)
  obtain ⟨e3, o3⟩ := (ResetPassword_wrong_code _ t3 isEmail req3 hash u3
    { c with Attempts := c.Attempts + 1 + 1 } o2 hv3 he3 hw3 ht3
    (by show c.Attempts + 1 + 1 < 3; rw [h0]; norm_num)).2
    (by show 3 ≤ c.Attempts + 1 + 1 + 1; rw [h0]; norm_num)
  rw [e1]
  simp only
  rw [e2]
  simp only
  rw [e3]
  simp only
  refine ⟨?_, ?_, trivial, o3, rfl, fun t4 req4 hash4 u4 he4 hv4 => ?_⟩
  · rw [h0]; rfl
  · rw [h0]; rfl
  · exact ResetPassword_no_record _ t4 isEmail req4 hash4 u4 hv4 fun o ho => he4 ▸ o3 o ho

theorem ResetPassword_three_wrong_codes_witness :
    ResetPassword
        (ResetPassword
          (ResetPassword (ResetPassword sampleStore 10 (fun _ => true) (sampleReset "111111")
            (fun p => some p) false).2.1 20 (fun _ => true) (sampleReset "222222")
            (fun p => some p) false).2.1 30 (fun _ => true) (sampleReset "333333")
          (fun p => some p) false).2.1 40 (fun _ => true) (sampleReset "004242")
        (fun p => some p) false =
      (⟨400, "Invalid or expired OTP"⟩,
        (ResetPassword
          (ResetPassword (ResetPassword sampleStore 10 (fun _ => true) (sampleReset "111111")
            (fun p => some p) false).2.1 20 (fun _ => true) (sampleReset "222222")
            (fun p => some p) false).2.1 30 (fun _ => true) (sampleReset "333333")
          (fun p => some p) false).2.1, []) :=
  (ResetPassword_three_wrong_codes sampleStore (fun _ => true) (fun p => some p) false false
    false sampleOTP (sampleReset "111111") (sampleReset "222222") (sampleReset "333333") 10 20 30
    (by decide) (by decide) (by decide) (by decide) (by decide) (by decide)
    (by decide) (by decide) (by decide) (by decide)
    (by decide) (by decide) (by decide) (by decide)).2.2.2.2.2 40 (sampleReset "004242")
    (fun p => some p) false (by decide) (by decide)

end AuthService

namespace RfpQuoteService

/-! ## DeleteRFP, ownership and the quote listing -/

/-- The store with the quote is the one reached by creating the scenario RFP and submitting the
quote of vendor 1. -/
theorem run_quotedStore :
    run emptyStore (scenarioOps ++ [Op.submitQuote 5 1 "vendor" (scenarioQuote 3000) false]) =
      quotedStore := by
  decide

/-- C23: the owner deletes the scenario RFP, for which vendor 1 has submitted a quote.  The
handler answers 200 and the RFP row is gone, but the quote and the two links of RFP 1 are still
stored: the delete statement removes the `rfps` row only, the foreign key that would cascade is
not created by the migration, and `rfp_vendors` declares no relation. -/
theorem DeleteRFP_leaves_quotes_and_links :
    (DeleteRFP quotedStore 9 "admin" 1 false).1 = ⟨200, "Rfp request successfully deleted"⟩ ∧
      (DeleteRFP quotedStore 9 "admin" 1 false).2.rfps = [] ∧
      (∃ q ∈ (DeleteRFP quotedStore 9 "admin" 1 false).2.rfp_quotes, q.RFPID = 1) ∧
      (∃ l ∈ (DeleteRFP quotedStore 9 "admin" 1 false).2.rfp_vendors, l.RFPID = 1) ∧
      (DeleteRFP quotedStore 9 "admin" 1 false).2.rfp_quotes = quotedStore.rfp_quotes ∧
      (DeleteRFP quotedStore 9 "admin" 1 false).2.rfp_vendors = quotedStore.rfp_vendors := by
  decide

theorem find?_owned_eq_none (s : Store) (admin rfpID : Nat)
    (hother : ∀ r ∈ s.rfps, r.ID = rfpID → r.UserID ≠ admin) :
    s.rfps.find? (fun r => r.ID == rfpID && r.UserID == admin) = none := by
  rw [List.find?_eq_none]
  intro r hr
  simp only [Bool.and_eq_true, beq_iff_eq, not_and]
  exact hother r hr

/-- C24: let no stored RFP with id `r` belong to admin A.  Then `DeleteRFP` and
`UpdateRFPStatus` called by A for `r` leave the whole store (RFPs, quotes, links) as it was,
whatever the status asked for; called with the admin role and an id below 2^32 they answer 402
with their not-found message, `UpdateRFPStatus` doing so for the statuses open and closed.  So
either handler changes the store only when a stored RFP with that id belongs to the caller. -/
theorem foreign_admin_changes_nothing (s : Store) (now : Time) (admin : Nat) (userRole : String)
    (rfpID : Nat) (status : String) (saveErr deleteErr : Bool)
    (hother : ∀ r ∈ s.rfps, r.ID = rfpID → r.UserID ≠ admin) :
    (DeleteRFP s admin userRole rfpID deleteErr).2 = s ∧
    (UpdateRFPStatus s now admin userRole rfpID status saveErr).2 = s ∧
    (userRole = "admin" → rfpID < 2 ^ 32 →
      (DeleteRFP s admin userRole rfpID deleteErr).1 = ⟨402, "Rfp request Not found"⟩ ∧
      ((status = "open" ∨ status = "closed") →
        (UpdateRFPStatus s now admin userRole rfpID status saveErr).1 =
          ⟨402, "RFP request not found"⟩)) := by
  have hfind := find?_owned_eq_none s admin rfpID hother
  refine ⟨?_, ?_, fun hrole hid => ⟨?_, fun hst => ?_⟩⟩
  · rcases DeleteRFP_store_cases s admin userRole rfpID deleteErr with hrej | ⟨rfp, hf, _⟩
    · exact hrej.2
    · rw [hfind] at hf; cases hf
  · rcases UpdateRFPStatus_store_cases s now admin userRole rfpID status saveErr with
      hrej | ⟨rfp, _, _, hf, _, _⟩
    · exact hrej.2
    · rw [hfind] at hf; cases hf
  · have hid2 : ¬ (4294967296 ≤ rfpID) := by
      have : (2 : Nat) ^ 32 = 4294967296 := by norm_num
      omega
    simp [DeleteRFP, hrole, hid2, hfind]
  · have hid2 : ¬ (4294967296 ≤ rfpID) := by
      have : (2 : Nat) ^ 32 = 4294967296 := by norm_num
      omega
    rcases hst with ho | hc
    · simp [UpdateRFPStatus, hrole, ho, hid2, hfind]
    · simp [UpdateRFPStatus, hrole, hc, hid2, hfind]

theorem foreign_admin_changes_nothing_witness :
    (UpdateRFPStatus quotedStore 6 8 "admin" 1 "closed" false).1 =
      ⟨402, "RFP request not found"⟩ :=
  ((foreign_admin_changes_nothing quotedStore 6 8 "admin" 1 "closed" false false
    (by decide)).2.2 rfl (by decide)).2 (Or.inr rfl)

/-- C25: admin 8 asks for the quotes of RFP 1, which belongs to admin 9.  The handler answers 200
with the quote that vendor 1 submitted for it: the query filters on `rfp_id` alone and the
caller's id is discarded. -/
theorem GetRFPQuotes_returns_quotes_of_foreign_rfp :
    (∀ r ∈ quotedStore.rfps, r.ID = 1 → r.UserID = 9) ∧
      (GetRFPQuotes quotedStore 8 "admin" 1 false).1 = ⟨200, "success"⟩ ∧
      (GetRFPQuotes quotedStore 8 "admin" 1 false).2 =
        [submittedQuote scenarioStore 5 1 (scenarioQuote 3000)] ∧
      (GetRFPQuotes quotedStore 8 "admin" 1 false).2 =
        (GetRFPQuotes quotedStore 9 "admin" 1 false).2 := by
  decide

/-! ## DateOnly.UnmarshalJSON -/

/-- C27: on the one-byte input `5` (a JSON number) and on the empty input the slice expression
`s[1 : len(s)-1]` is out of bounds and `UnmarshalJSON` panics, whatever the date parser would
do. -/
theorem UnmarshalJSON_panics_on_short_input (parse : List (Fin 256) → Option Time) :
    DateOnly.UnmarshalJSON parse [53] = .panic ∧ DateOnly.UnmarshalJSON parse [] = .panic ∧
      goSlice [53] 1 (((([53] : List (Fin 256)).length : Int)) - 1) = none := by
  refine ⟨?_, ?_, ?_⟩
  · have h : goSlice [53] 1 (((([53] : List (Fin 256)).length : Int)) - 1) = none := by decide
    simp only [DateOnly.UnmarshalJSON, h]
  · have h : goSlice [] 1 (((([] : List (Fin 256)).length : Int)) - 1) = none := by decide
    simp only [DateOnly.UnmarshalJSON, h]
  · decide

/-- On an input of at least two bytes the slice is within bounds and `UnmarshalJSON` returns a
parse error or a date. -/
theorem UnmarshalJSON_total_on_two_bytes (parse : List (Fin 256) → Option Time)
    (b : List (Fin 256)) (hlen : 2 ≤ b.length) :
    DateOnly.UnmarshalJSON parse b ≠ .panic := by
  have hb : (2 : Int) ≤ (b.length : Int) := by exact_mod_cast hlen
  have hs : goSlice b 1 ((b.length : Int) - 1) =
      some ((b.drop (1 : Int).toNat).take (((b.length : Int) - 1) - 1).toNat) := by
    unfold goSlice
    rw [if_pos ⟨by norm_num, by linarith, by linarith⟩]
  simp only [DateOnly.UnmarshalJSON, hs]
  cases parse ((b.drop (1 : Int).toNat).take (((b.length : Int) - 1) - 1).toNat) <;> simp

/-! ## Status and active flag on reachable stores -/

theorem StatusConsistent_step (s : Store) (op : Op) (h : StatusConsistent s) :
    StatusConsistent (step s op) := by
  cases op with
  | createRFP now userID userRole req createErr get list =>
    rcases CreateRFP_store_cases s now userID userRole req createErr get list with
      heq | heq | ⟨_, heq⟩
    · simp only [step, heq]; exact h
    · simp only [step, heq]; exact h
    · simp only [step, heq]
      intro r hmem
      rcases List.mem_append.mp hmem with hr | hr
      · exact h r hr
      · rw [List.mem_singleton] at hr
        subst hr
        exact Or.inl ⟨rfl, rfl⟩
  | updateRFPStatus now userID userRole rfpID status saveErr =>
    rcases UpdateRFPStatus_store_cases s now userID userRole rfpID status saveErr with
      hrej | ⟨rfp, newStatus, active, _, hchoice, heq⟩
    · simp only [step, hrej.2]; exact h
    · simp only [step, heq]
      intro r hmem
      obtain ⟨r0, hr0, rfl⟩ := List.mem_map.mp hmem
      by_cases h0 : r0.ID = rfp.ID
      · rw [if_pos h0]
        rcases hchoice with ⟨_, h1, h2⟩ | ⟨_, h1, h2⟩
        · exact Or.inl ⟨h1, h2⟩
        · exact Or.inr ⟨h1, h2⟩
      · rw [if_neg h0]
        exact h r0 hr0
  | deleteRFP userID userRole rfpID deleteErr =>
    rcases DeleteRFP_store_cases s userID userRole rfpID deleteErr with hrej | ⟨rfp, _, heq⟩
    · simp only [step, hrej.2]; exact h
    · simp only [step, heq]
      exact fun r hmem => h r (List.mem_of_mem_filter hmem)
  | submitQuote now userID userRole req createErr =>
    rcases SubmitQuote_cases s now userID userRole req createErr with
      hrej | ⟨_, _, _, _, _, _, heq⟩
    · simp only [step, hrej.2]; exact h
    · simp only [step, heq]; exact h
  | getRFPs _ _ => exact h
  | getRFPQuotes _ _ _ => exact h
  | getVendorRFPs _ _ _ _ => exact h
  | getAvailableRFPs _ _ _ => exact h

theorem StatusConsistent_run (ops : List Op) (s : Store) (h : StatusConsistent s) :
    StatusConsistent (run s ops) := by
  induction ops generalizing s with
  | nil => exact h
  | cons op rest ih => exact ih (step s op) (StatusConsistent_step s op h)

/-- C29: in every store reached from the empty one by requests to the routes, every RFP has
status open or closed, never draft, and its active flag is set exactly when its status is open;
so for every stored RFP and every instant `IsOpen` equals the openness test of
`GetAvailableRFPs` (status open, last date after now, active flag set). -/
theorem reachable_status_and_active_flag (ops : List Op) :
    (∀ r ∈ (run emptyStore ops).rfps,
      (r.Status = RFPStatusOpen ∨ r.Status = RFPStatusClosed) ∧ r.Status ≠ RFPStatusDraft ∧
        (r.IsActive = true ↔ r.Status = RFPStatusOpen)) ∧
    (∀ r ∈ (run emptyStore ops).rfps, ∀ now : Time,
      r.IsOpen now =
        (r.Status == RFPStatusOpen && decide (r.LastDate > now) && r.IsActive == true)) := by
  have hcons : StatusConsistent (run emptyStore ops) :=
    StatusConsistent_run ops emptyStore (fun r hr => by simp [emptyStore] at hr)
  constructor
  · intro r hr
    rcases hcons r hr with ⟨hs, ha⟩ | ⟨hs, ha⟩
    · exact ⟨Or.inl hs, by rw [hs]; decide, by simp [hs, ha]⟩
    · refine ⟨Or.inr hs, by rw [hs]; decide, ?_⟩
      rw [hs, ha]
      simp [RFPStatusOpen, RFPStatusClosed]
  · intro r hr now
    rcases hcons r hr with ⟨hs, ha⟩ | ⟨hs, ha⟩
    · simp [RFP.IsOpen, hs, ha]
    · simp [RFP.IsOpen, hs, ha, RFPStatusOpen, RFPStatusClosed]

theorem reachable_status_and_active_flag_witness :
    scenarioRFP.IsOpen 5 =
      (scenarioRFP.Status == RFPStatusOpen && decide (scenarioRFP.LastDate > 5) &&
        scenarioRFP.IsActive == true) :=
  (reachable_status_and_active_flag scenarioOps).2 scenarioRFP (by decide) 5

end RfpQuoteService

namespace AuthService

/-! ## ForgotPassword -/

/-- A validated `ForgotPassword` for a registered email whose insert succeeds answers 200,
removes the stored records of the email and appends the record issued at this instant. -/
theorem ForgotPassword_issues (s : Store) (now : Time) (isEmail : String → Bool)
    (req : ForgotPasswordRequest) (b0 b1 b2 : Fin 256)
    (hvalid : validateForgotPasswordRequest isEmail req = none)
    (hreg : ∃ u ∈ s.users, u.Email = req.Email) :
    ForgotPassword s now isEmail req b0 b1 b2 false =
      (⟨200, "If the email exists, an OTP has been sent"⟩,
        { s with
          otps := (s.otps.filter fun o => !(o.Email == req.Email)) ++
            [issuedOTP s now req b0 b1 b2]
          nextOTPID := s.nextOTPID + 1 },
        [⟨req.Email, "Password Reset OTP"⟩]) := by
  cases hf : s.users.find? (fun u => u.Email == req.Email) with
  | none =>
    obtain ⟨u, hu, he⟩ := hreg
    have := List.find?_eq_none.mp hf u hu
    simp [he] at this
  | some u => simp [ForgotPassword, hvalid, hf, issuedOTP]

/-- The record issued by `ForgotPassword` is the outstanding one of its email. -/
theorem ForgotPassword_outstanding (s : Store) (now : Time) (isEmail : String → Bool)
    (req : ForgotPasswordRequest) (b0 b1 b2 : Fin 256)
    (hvalid : validateForgotPasswordRequest isEmail req = none)
    (hreg : ∃ u ∈ s.users, u.Email = req.Email) (hids : ∀ o ∈ s.otps, o.ID < s.nextOTPID) :
    (ForgotPassword s now isEmail req b0 b1 b2 false).2.1.Outstanding
      (issuedOTP s now req b0 b1 b2) := by
  rw [ForgotPassword_issues s now isEmail req b0 b1 b2 hvalid hreg]
  refine ⟨List.mem_append_right _ (List.mem_singleton.mpr rfl), ?_⟩
  intro o ho hor
  rcases List.mem_append.mp ho with hold | hnew
  · obtain ⟨hmem, hne⟩ := List.mem_filter.mp hold
    have hne2 : o.Email ≠ req.Email := by simpa using hne
    rcases hor with he | hid
    · exact absurd he hne2
    · have hlt := hids o hmem
      have hid2 : o.ID = s.nextOTPID := hid
      omega
  · exact List.mem_singleton.mp hnew

/-! ## Expiry -/

/-- A validated request for the email of an outstanding record, made after its expiry, is
answered expired and deletes the record, whatever code it carries. -/
theorem ResetPassword_expired (s : Store) (now : Time) (isEmail : String → Bool)
    (req : ResetPasswordRequest) (hash : String → Option String) (updateErr : Bool)
    (c : PasswordResetOTP) (hc : s.Outstanding c)
    (hvalid : validateResetPasswordRequest isEmail req = none) (hemail : req.Email = c.Email)
    (hlate : now > c.ExpiresAt) :
    ResetPassword s now isEmail req hash updateErr =
        (⟨400, "OTP has expired"⟩, s.deleteOTP c, []) ∧
      (∀ o ∈ (s.deleteOTP c).otps, o.Email ≠ c.Email) ∧ (s.deleteOTP c).users = s.users := by
  have hfind : s.otps.find? (fun o => o.Email == req.Email) = some c := by
    rw [hemail]
    exact find?_Email_eq_some _ c hc.1 fun o ho he => hc.2 o ho (Or.inl he)
  refine ⟨by simp [ResetPassword, hvalid, hfind, hlate], ?_, rfl⟩
  intro o ho he
  have hmem := List.mem_filter.mp ho
  have := hc.2 o hmem.1 (Or.inl he)
  subst this
  simp at hmem

/-- C21: let the stored record ids lie below the id sequence.  A validated `ForgotPassword` at
instant t for a registered email stores a record whose expiry is t plus 15 minutes, and every
validated `ResetPassword` for that email made strictly after that expiry, whatever code it
carries (the stored one included), is answered with the expired message, deletes the record and
leaves the users, hence the password, as they were. -/
theorem otp_expires_after_fifteen_minutes (s : Store) (t : Time) (isEmail : String → Bool)
    (freq : ForgotPasswordRequest) (b0 b1 b2 : Fin 256)
    (hvalid : validateForgotPasswordRequest isEmail freq = none)
    (hreg : ∃ u ∈ s.users, u.Email = freq.Email) (hids : ∀ o ∈ s.otps, o.ID < s.nextOTPID) :
    issuedOTP s t freq b0 b1 b2 ∈ (ForgotPassword s t isEmail freq b0 b1 b2 false).2.1.otps ∧
    (issuedOTP s t freq b0 b1 b2).ExpiresAt = t + 15 * Minute ∧
    (∀ (now : Time) (req : ResetPasswordRequest) (hash : String → Option String)
        (updateErr : Bool),
      validateResetPasswordRequest isEmail req = none → req.Email = freq.Email →
      now > t + 15 * Minute →
      (ResetPassword (ForgotPassword s t isEmail freq b0 b1 b2 false).2.1 now isEmail req hash
          updateErr).1 = ⟨400, "OTP has expired"⟩ ∧
      (∀ o ∈ (ResetPassword (ForgotPassword s t isEmail freq b0 b1 b2 false).2.1 now isEmail req
          hash updateErr).2.1.otps, o.Email ≠ freq.Email) ∧
      (ResetPassword (ForgotPassword s t isEmail freq b0 b1 b2 false).2.1 now isEmail req hash
          updateErr).2.1.users = s.users) := by
  have hout := ForgotPassword_outstanding s t isEmail freq b0 b1 b2 hvalid hreg hids
  refine ⟨hout.1, rfl, fun now req hash updateErr hv he hlate => ?_⟩
  obtain ⟨heq, hnone, husers⟩ := ResetPassword_expired _ now isEmail req hash updateErr
    (issuedOTP s t freq b0 b1 b2) hout hv he hlate
  rw [heq]
  refine ⟨rfl, hnone, ?_⟩
  show (Store.deleteOTP _ _).users = s.users
  rw [husers, ForgotPassword_issues s t isEmail freq b0 b1 b2 hvalid hreg]

theorem otp_expires_after_fifteen_minutes_witness :
    (ResetPassword (ForgotPassword registeredStore 0 (fun _ => true) sampleForgot 0 16 146
        false).2.1 (15 * Minute + 1) (fun _ => true) (sampleReset "004242") (fun p => some p)
        false).1 = ⟨400, "OTP has expired"⟩ :=
  ((otp_expires_after_fifteen_minutes registeredStore 0 (fun _ => true) sampleForgot 0 16 146
    (by decide) (by decide) (by decide)).2.2 (15 * Minute + 1) (sampleReset "004242")
    (fun p => some p) false (by decide) (by decide) (by decide)).1

/-! ## One stored code per email -/

/-- The stored records after `ForgotPassword`: as before, or those of the other emails, or those
of the other emails followed by the issued record. -/
theorem ForgotPassword_otps_cases (s : Store) (now : Time) (isEmail : String → Bool)
    (req : ForgotPasswordRequest) (b0 b1 b2 : Fin 256) (createErr : Bool) :
    (ForgotPassword s now isEmail req b0 b1 b2 createErr).2.1 = s ∨
    ((ForgotPassword s now isEmail req b0 b1 b2 createErr).2.1.otps =
        (s.otps.filter fun o => !(o.Email == req.Email)) ∧
      (ForgotPassword s now isEmail req b0 b1 b2 createErr).2.1.nextOTPID = s.nextOTPID) ∨
    ((ForgotPassword s now isEmail req b0 b1 b2 createErr).2.1.otps =
        (s.otps.filter fun o => !(o.Email == req.Email)) ++ [issuedOTP s now req b0 b1 b2] ∧
      (ForgotPassword s now isEmail req b0 b1 b2 createErr).2.1.nextOTPID =
        s.nextOTPID + 1) := by
  unfold ForgotPassword
  cases hv : validateForgotPasswordRequest isEmail req with
  | some e => left; rfl
  | none =>
    cases hf : s.users.find? (fun u => u.Email == req.Email) with
    | none => left; rfl
    | some u =>
      cases createErr with
      | true => right; left; simp
      | false => right; right; simp [issuedOTP]

/-- The stored records after `ResetPassword`: as before, or without the rows of one stored id, or
with the attempts of one stored row counted up. -/
theorem ResetPassword_otps_cases (s : Store) (now : Time) (isEmail : String → Bool)
    (req : ResetPasswordRequest) (hash : String → Option String) (updateErr : Bool) :
    (ResetPassword s now isEmail req hash updateErr).2.1.nextOTPID = s.nextOTPID ∧
    ((ResetPassword s now isEmail req hash updateErr).2.1.otps = s.otps ∨
      (∃ x ∈ s.otps, (ResetPassword s now isEmail req hash updateErr).2.1.otps =
        s.otps.filter fun o => !(o.ID == x.ID)) ∨
      (∃ x ∈ s.otps, (ResetPassword s now isEmail req hash updateErr).2.1.otps =
        s.otps.map fun o => if o.ID = x.ID then { x with Attempts := x.Attempts + 1 } else o)) := by
  unfold ResetPassword
  cases hv : validateResetPasswordRequest isEmail req with
  | some e => exact ⟨rfl, Or.inl rfl⟩
  | none =>
    cases hf : s.otps.find? (fun o => o.Email == req.Email) with
    | none => exact ⟨rfl, Or.inl rfl⟩
    | some c =>
      have hc : c ∈ s.otps := List.mem_of_find?_eq_some hf
      by_cases hexp : now > c.ExpiresAt
      · simp only [hexp, if_true]
        exact ⟨rfl, Or.inr (Or.inl ⟨c, hc, rfl⟩)⟩
      by_cases hatt : c.Attempts ≥ 3
      · simp only [hexp, if_false, hatt, if_true]
        exact ⟨rfl, Or.inr (Or.inl ⟨c, hc, rfl⟩)⟩
      by_cases hw : c.OTP ≠ req.OTP
      · by_cases hbig : c.Attempts + 1 ≥ 3
        · simp only [hexp, if_false, hatt, hw, ne_eq, not_false_eq_true, if_true, hbig]
          exact ⟨rfl, Or.inr (Or.inl ⟨c, hc, rfl⟩)⟩
        · simp only [hexp, if_false, hatt, hw, ne_eq, not_false_eq_true, if_true, hbig]
          exact ⟨rfl, Or.inr (Or.inr ⟨c, hc, rfl⟩)⟩
      · simp only [hexp, if_false, hatt, hw]
        cases hu : s.users.find? (fun u => u.Email == req.Email) with
        | none => exact ⟨rfl, Or.inl rfl⟩
        | some user =>
          cases hh : hash req.NewPassword with
          | none => exact ⟨rfl, Or.inl rfl⟩
          | some hashed =>
            cases updateErr with
            | true => exact ⟨rfl, Or.inl rfl⟩
            | false => exact ⟨rfl, Or.inr (Or.inl ⟨c, hc, rfl⟩)⟩

theorem OneCodePerEmail_filter (s : Store) (p : PasswordResetOTP → Bool) (n : Nat)
    (h : s.OneCodePerEmail) (hn : s.nextOTPID ≤ n) :
    ({ s with otps := s.otps.filter p, nextOTPID := n } : Store).OneCodePerEmail :=
  ⟨List.Nodup.sublist (List.Sublist.map _ (List.filter_sublist _)) h.1,
    List.Nodup.sublist (List.Sublist.map _ (List.filter_sublist _)) h.2.1,
    fun o ho => lt_of_lt_of_le (h.2.2 o (List.mem_of_mem_filter ho)) hn⟩

theorem OneCodePerEmail_step (s : Store) (op : Op) (h : s.OneCodePerEmail) :
    (step s op).OneCodePerEmail := by
  cases op with
  | forgotPassword now isEmail req b0 b1 b2 createErr =>
    have hfil := OneCodePerEmail_filter s (fun o => !(o.Email == req.Email)) s.nextOTPID h
      (le_refl _)
    rcases ForgotPassword_otps_cases s now isEmail req b0 b1 b2 createErr with
      heq | ⟨ho, hn⟩ | ⟨ho, hn⟩
    · simp only [step, heq]; exact h
    · simp only [step, Store.OneCodePerEmail, ho, hn]
      exact hfil
    · simp only [step, Store.OneCodePerEmail, ho, hn]
      obtain ⟨h1, h2, h3⟩ := hfil
      refine ⟨?_, ?_, ?_⟩
      · rw [List.map_append, List.nodup_append]
        refine ⟨h1, List.nodup_singleton _, ?_⟩
        intro e he he2
        obtain ⟨o, hom, rfl⟩ := List.mem_map.mp he
        simp only [issuedOTP, List.map_cons, List.map_nil, List.mem_singleton] at he2
        have := (List.mem_filter.mp hom).2
        simp [he2] at this
      · rw [List.map_append, List.nodup_append]
        refine ⟨h2, List.nodup_singleton _, ?_⟩
        intro i hi hi2
        obtain ⟨o, hom, rfl⟩ := List.mem_map.mp hi
        simp only [issuedOTP, List.map_cons, List.map_nil, List.mem_singleton] at hi2
        have := h.2.2 o (List.mem_of_mem_filter hom)
        omega
      · intro o hom
        rcases List.mem_append.mp hom with hold | hnew
        · exact Nat.lt_succ_of_lt (h3 o hold)
        · rw [List.mem_singleton.mp hnew]
          exact Nat.lt_succ_self _
  | resetPassword now isEmail req hash updateErr =>
    obtain ⟨hn, hcases⟩ := ResetPassword_otps_cases s now isEmail req hash updateErr
    rcases hcases with ho | ⟨x, _, ho⟩ | ⟨x, hx, ho⟩
    · simp only [step, Store.OneCodePerEmail, ho, hn]; exact h
    · simp only [step, Store.OneCodePerEmail, ho, hn]
      exact OneCodePerEmail_filter s (fun o => !(o.ID == x.ID)) s.nextOTPID h (le_refl _)
    · simp only [step, Store.OneCodePerEmail, ho, hn]
      have hsame : ∀ o ∈ s.otps,
          (if o.ID = x.ID then ({ x with Attempts := x.Attempts + 1 } : PasswordResetOTP)
            else o).Email = o.Email ∧
          (if o.ID = x.ID then ({ x with Attempts := x.Attempts + 1 } : PasswordResetOTP)
            else o).ID = o.ID := by
        intro o hom
        by_cases h0 : o.ID = x.ID
        · have : o = x := List.inj_on_of_nodup_map h.2.1 hom hx h0
          subst this
          simp
        · simp [h0]
      refine ⟨?_, ?_, ?_⟩
      · rw [List.map_map]
        have : s.otps.map ((fun o : PasswordResetOTP => o.Email) ∘ fun o =>
            if o.ID = x.ID then { x with Attempts := x.Attempts + 1 } else o) =
            s.otps.map (·.Email) :=
          List.map_congr_left fun o hom => (hsame o hom).1
        rw [this]; exact h.1
      · rw [List.map_map]
        have : s.otps.map ((fun o : PasswordResetOTP => o.ID) ∘ fun o =>
            if o.ID = x.ID then { x with Attempts := x.Attempts + 1 } else o) =
            s.otps.map (·.ID) :=
          List.map_congr_left fun o hom => (hsame o hom).2
        rw [this]; exact h.2.1
      · intro o hom
        obtain ⟨o0, ho0, rfl⟩ := List.mem_map.mp hom
        rw [(hsame o0 ho0).2]
        exact h.2.2 o0 ho0

theorem OneCodePerEmail_run (ops : List Op) (s : Store) (h : s.OneCodePerEmail) :
    (run s ops).OneCodePerEmail := by
  induction ops generalizing s with
  | nil => exact h
  | cons op rest ih => exact ih (step s op) (OneCodePerEmail_step s op h)

/-- A request whose code differs from the outstanding code of its email is not verified: the
answer is not 200 and the users are as before. -/
theorem ResetPassword_other_code (s : Store) (now : Time) (isEmail : String → Bool)
    (req : ResetPasswordRequest) (hash : String → Option String) (updateErr : Bool)
    (c : PasswordResetOTP) (hc : s.Outstanding c) (hemail : req.Email = c.Email)
    (hwrong : req.OTP ≠ c.OTP) :
    (ResetPassword s now isEmail req hash updateErr).1.status ≠ 200 ∧
      (ResetPassword s now isEmail req hash updateErr).2.1.users = s.users := by
  have hfind : s.otps.find? (fun o => o.Email == req.Email) = some c := by
    rw [hemail]
    exact find?_Email_eq_some _ c hc.1 fun o ho he => hc.2 o ho (Or.inl he)
  have hne : c.OTP ≠ req.OTP := fun h => hwrong h.symm
  unfold ResetPassword
  cases hv : validateResetPasswordRequest isEmail req with
  | some e => exact ⟨by simp, rfl⟩
  | none =>
    simp only [hfind]
    by_cases hexp : now > c.ExpiresAt
    · simp only [hexp, if_true]; exact ⟨by simp, rfl⟩
    by_cases hatt : c.Attempts ≥ 3
    · simp only [hexp, if_false, hatt, if_true]; exact ⟨by simp, rfl⟩
    by_cases hbig : c.Attempts + 1 ≥ 3
    · simp only [hexp, if_false, hatt, hne, ne_eq, not_false_eq_true, if_true, hbig]
      exact ⟨by simp, rfl⟩
    · simp only [hexp, if_false, hatt, hne, ne_eq, not_false_eq_true, if_true, hbig]
      exact ⟨by simp, rfl⟩

/-- C22: in every store reached from one without stored codes by `ForgotPassword` and
`ResetPassword` calls each email has at most one stored record; after a validated
`ForgotPassword` for a registered email (the insert succeeding) the only record of that email is
the newly issued one, with 0 attempts, and a `ResetPassword` for the email carrying any other
code, a previously issued one included, is not verified: it is not answered 200 and the users are
left as they were. -/
theorem one_outstanding_code_per_email (users : List User) (next : Nat) (ops : List Op) :
    (∀ email : String,
      ((run ⟨users, [], next⟩ ops).otps.filter fun o => o.Email == email).length ≤ 1) ∧
    (∀ (now : Time) (isEmail : String → Bool) (req : ForgotPasswordRequest) (b0 b1 b2 : Fin 256),
      validateForgotPasswordRequest isEmail req = none →
      (∃ u ∈ (run ⟨users, [], next⟩ ops).users, u.Email = req.Email) →
      ((ForgotPassword (run ⟨users, [], next⟩ ops) now isEmail req b0 b1 b2 false).2.1.otps.filter
          fun o => o.Email == req.Email) =
        [issuedOTP (run ⟨users, [], next⟩ ops) now req b0 b1 b2] ∧
      (issuedOTP (run ⟨users, [], next⟩ ops) now req b0 b1 b2).Attempts = 0 ∧
      (issuedOTP (run ⟨users, [], next⟩ ops) now req b0 b1 b2).OTP = generateOTP b0 b1 b2 ∧
      (∀ (now2 : Time) (req2 : ResetPasswordRequest) (hash : String → Option String)
          (updateErr : Bool),
        req2.Email = req.Email → req2.OTP ≠ generateOTP b0 b1 b2 →
        (ResetPassword (ForgotPassword (run ⟨users, [], next⟩ ops) now isEmail req b0 b1 b2
            false).2.1 now2 isEmail req2 hash updateErr).1.status ≠ 200 ∧
        (ResetPassword (ForgotPassword (run ⟨users, [], next⟩ ops) now isEmail req b0 b1 b2
            false).2.1 now2 isEmail req2 hash updateErr).2.1.users =
          (ForgotPassword (run ⟨users, [], next⟩ ops) now isEmail req b0 b1 b2
            false).2.1.users)) := by
  have hinv : (run ⟨users, [], next⟩ ops).OneCodePerEmail :=
    OneCodePerEmail_run ops _ ⟨List.nodup_nil, List.nodup_nil, fun o ho => by cases ho⟩
  constructor
  · intro email
    have hsub : (((run ⟨users, [], next⟩ ops).otps.filter fun o => o.Email == email).map
        (·.Email)).Nodup :=
      List.Nodup.sublist (List.Sublist.map _ (List.filter_sublist _)) hinv.1
    have hlen := RfpQuoteService.length_le_one_of_nodup_of_forall_eq email hsub (by
      intro e he
      obtain ⟨o, ho, rfl⟩ := List.mem_map.mp he
      simpa using (List.mem_filter.mp ho).2)
    simpa using hlen
  · intro now isEmail req b0 b1 b2 hvalid hreg
    have hout := ForgotPassword_outstanding _ now isEmail req b0 b1 b2 hvalid hreg hinv.2.2
    refine ⟨?_, rfl, rfl, fun now2 req2 hash updateErr he hw => ?_⟩
    · rw [ForgotPassword_issues _ now isEmail req b0 b1 b2 hvalid hreg]
      simp only [List.filter_append]
      have hempty : (((run ⟨users, [], next⟩ ops).otps.filter fun o =>
          !(o.Email == req.Email)).filter fun o => o.Email == req.Email) = [] := by
        rw [List.filter_eq_nil_iff]
        intro o ho
        have := (List.mem_filter.mp ho).2
        simpa using this
      rw [hempty]
      simp [issuedOTP]
    · exact ResetPassword_other_code _ now2 isEmail req2 hash updateErr _ hout he hw

theorem one_outstanding_code_per_email_witness :
    (ResetPassword (ForgotPassword registeredStore 0 (fun _ => true) sampleForgot 0 16 146
        false).2.1 5 (fun _ => true) (sampleReset "111111") (fun p => some p)
        false).1.status ≠ 200 :=
  ((one_outstanding_code_per_email [sampleUser] 1 []).2 0 (fun _ => true) sampleForgot 0 16 146
    (by decide) (by decide)).2.2.2 5 (sampleReset "111111") (fun p => some p) false
    (by decide) (by decide) |>.1

/-! ## Round trip of a password reset -/

/-- C28: `ForgotPassword` for the registered `sampleUser` draws the bytes 255, 255, 255 and
stores the code `16777215`.  Submitted at once with a new password of 13 characters, that code
is turned down by the request validation (`otp` must have length 6): the answer is 400, the
record stays, and the password is not changed.  The defect is that of `generateOTP`. -/
theorem reset_round_trip_fails_validation :
    (ForgotPassword registeredStore 0 (fun _ => true) sampleForgot 255 255 255 false).2.1.otps =
        [⟨1, "asha@example.com", "16777215", 0, 15 * Minute⟩] ∧
      ResetPassword
          (ForgotPassword registeredStore 0 (fun _ => true) sampleForgot 255 255 255 false).2.1
          1 (fun _ => true) (sampleReset "16777215") (fun p => some p) false =
        (⟨400, "field OTP is len"⟩,
          (ForgotPassword registeredStore 0 (fun _ => true) sampleForgot 255 255 255 false).2.1,
          []) ∧
      (ForgotPassword registeredStore 0 (fun _ => true) sampleForgot 255 255 255
        false).2.1.users = [sampleUser] := by
  decide

/-- When the generated code has six characters the round trip goes through: the code submitted
before expiry with a new password of at least 8 characters is accepted, the password of the user
found for the email becomes the hash, and no record of the email is left. -/
theorem reset_round_trip_of_six_characters (s : Store) (t now : Time) (isEmail : String → Bool)
    (freq : ForgotPasswordRequest) (b0 b1 b2 : Fin 256) (newPassword hashed : String)
    (hash : String → Option String)
    (hvalid : validateForgotPasswordRequest isEmail freq = none)
    (hreg : ∃ u ∈ s.users, u.Email = freq.Email) (hids : ∀ o ∈ s.otps, o.ID < s.nextOTPID)
    (hlen : (generateOTP b0 b1 b2).length = 6) (hpw : 8 ≤ newPassword.length)
    (hh : hash newPassword = some hashed) (htime : now ≤ t + 15 * Minute) :
    (ResetPassword (ForgotPassword s t isEmail freq b0 b1 b2 false).2.1 now isEmail
        ⟨freq.Email, generateOTP b0 b1 b2, newPassword⟩ hash false).1 =
      ⟨200, "Password reset successful"⟩ ∧
    (∀ o ∈ (ResetPassword (ForgotPassword s t isEmail freq b0 b1 b2 false).2.1 now isEmail
        ⟨freq.Email, generateOTP b0 b1 b2, newPassword⟩ hash false).2.1.otps,
      o.Email ≠ freq.Email) ∧
    (∃ u ∈ (ResetPassword (ForgotPassword s t isEmail freq b0 b1 b2 false).2.1 now isEmail
        ⟨freq.Email, generateOTP b0 b1 b2, newPassword⟩ hash false).2.1.users,
      u.Email = freq.Email ∧ u.Password = hashed) := by
  have hout := ForgotPassword_outstanding s t isEmail freq b0 b1 b2 hvalid hreg hids
  have hfind : (ForgotPassword s t isEmail freq b0 b1 b2 false).2.1.otps.find?
      (fun o => o.Email == freq.Email) = some (issuedOTP s t freq b0 b1 b2) :=
    find?_Email_eq_some _ (issuedOTP s t freq b0 b1 b2) hout.1
      fun o ho he => hout.2 o ho (Or.inl he)
  have husers : (ForgotPassword s t isEmail freq b0 b1 b2 false).2.1.users = s.users := by
    rw [ForgotPassword_issues s t isEmail freq b0 b1 b2 hvalid hreg]
  have hne : freq.Email ≠ "" := by
    intro h
    simp [validateForgotPasswordRequest, h] at hvalid
  have hmail : isEmail freq.Email = true := by
    by_contra h
    simp [validateForgotPasswordRequest, hne, h] at hvalid
  have hotp : generateOTP b0 b1 b2 ≠ "" := by
    intro h
    rw [h] at hlen
    exact absurd hlen (by decide)
  have hpwne : newPassword ≠ "" := by
    intro h
    rw [h] at hpw
    exact absurd hpw (by decide)
  have hv : validateResetPasswordRequest isEmail ⟨freq.Email, generateOTP b0 b1 b2, newPassword⟩
      = none := by
    simp [validateResetPasswordRequest, hne, hmail, hotp, hlen, hpwne, not_lt.mpr hpw]
  have hexp : ¬ now > (issuedOTP s t freq b0 b1 b2).ExpiresAt := not_lt.mpr htime
  cases hu : s.users.find? (fun u => u.Email == freq.Email) with
  | none =>
    obtain ⟨u, hum, he⟩ := hreg
    have := List.find?_eq_none.mp hu u hum
    simp [he] at this
  | some user =>
    have hum : user ∈ s.users := List.mem_of_find?_eq_some hu
    have hue : user.Email = freq.Email := by simpa using List.find?_some hu
    have hatt : ¬ (issuedOTP s t freq b0 b1 b2).Attempts ≥ 3 := by
      simp [issuedOTP]
    have hsame : ¬ (issuedOTP s t freq b0 b1 b2).OTP ≠ generateOTP b0 b1 b2 := by
      simp [issuedOTP]
    have heq : ResetPassword (ForgotPassword s t isEmail freq b0 b1 b2 false).2.1 now isEmail
        ⟨freq.Email, generateOTP b0 b1 b2, newPassword⟩ hash false =
        (⟨200, "Password reset successful"⟩,
          Store.deleteOTP
            { (ForgotPassword s t isEmail freq b0 b1 b2 false).2.1 with
              users := s.users.map fun u =>
                if u.ID = user.ID then { u with Password := hashed, UpdatedAt := now } else u }
            (issuedOTP s t freq b0 b1 b2),
          [⟨freq.Email, "Password Reset Successful"⟩]) := by
      simp only [ResetPassword, hv, hfind, hexp, hatt, hsame, if_false, husers, hu, hh]
      simp
    rw [heq]
    refine ⟨rfl, ?_, ?_⟩
    · intro o ho he
      have hmem := List.mem_filter.mp ho
      have := hout.2 o hmem.1 (Or.inl he)
      subst this
      simp at hmem
    · exact ⟨{ user with Password := hashed, UpdatedAt := now },
        List.mem_map.mpr ⟨user, hum, by simp⟩, hue, rfl⟩

/-! ## Token lifetimes -/

theorem NewNumericDate_add (t k : Int) :
    NewNumericDate (t + k * Second) = NewNumericDate t + k * Second := by
  unfold NewNumericDate
  rw [Int.add_mul_emod_self]
  ring

/-- C26: the access token of `GenerateTokenPair` expires 24 minutes after its issue time, which
is not 15 minutes, while the access token of `RefreshAccessToken` expires 15 minutes after its
issue time; the refresh token expires 7 days after its issue time. -/
theorem GenerateTokenPair_access_token_lives_24_minutes (now : Time) (userID : Nat)
    (role : String) (claims : Claims) :
    (GenerateTokenPair now userID role).2.ExpiresAt - (GenerateTokenPair now userID role).2.IssuedAt
        = 24 * Minute ∧
    (24 * Minute ≠ 15 * Minute) ∧
    (GenerateTokenPair now userID role).1.ExpiresAt - (GenerateTokenPair now userID role).1.IssuedAt
        = 7 * (24 * Hour) ∧
    (∃ access : Claims, RefreshAccessToken now (some claims) = some access ∧
      access.ExpiresAt - access.IssuedAt = 15 * Minute) := by
  have h24 : Minute * 24 * 1 = 1440 * Second := by simp [Minute, Second]
  have h7 : Hour * 24 * 7 = 604800 * Second := by simp [Hour, Minute, Second]
  have h15 : Minute * 15 = 900 * Second := by simp [Minute, Second]
  refine ⟨?_, by simp [Minute], ?_, ⟨_, rfl, ?_⟩⟩
  · simp only [GenerateTokenPair, generateToken]
    rw [h24, NewNumericDate_add]
    simp [Minute, Second]
  · simp only [GenerateTokenPair, generateToken]
    rw [h7, NewNumericDate_add]
    simp [Hour, Minute, Second]
  · simp only [generateToken]
    rw [h15, NewNumericDate_add]
    simp [Minute, Second]

end AuthService

namespace Listing

/-! ## Pagination -/

/-- C30: for the query value `page=9223372036854775807` and no `limit` the effective page is
that number and the effective limit is 10, and the product `(page - 1) * limit` wraps: the
offset handed to the query is -20, a negative number. -/
theorem offset_negative_for_largest_page :
    (paginate "9223372036854775807" "" 0).2.CurrentPage = 9223372036854775807 ∧
      (paginate "9223372036854775807" "" 0).2.PerPage = 10 ∧
      (paginate "9223372036854775807" "" 0).1 = -20 ∧
      (paginate "9223372036854775807" "" 0).1 < 0 := by
  decide

/-! ## What holds of the pagination -/

theorem wrapInt_of_range (x : Int) (h1 : -(2 ^ 63) ≤ x) (h2 : x < 2 ^ 63) : wrapInt x = x := by
  unfold wrapInt
  omega

theorem Atoi_range (s : String) (v : Int) (h : Atoi s = some v) :
    -(2 ^ 63) ≤ v ∧ v ≤ 2 ^ 63 - 1 := by
  have key : ∀ (c : Bool) (v0 : Int),
      (if c = true then none
        else if v0 < -(2 ^ 63) ∨ v0 > 2 ^ 63 - 1 then none else some v0) = some v →
      -(2 ^ 63) ≤ v ∧ v ≤ 2 ^ 63 - 1 := by
    intro c v0 hc
    by_cases h1 : c = true
    · rw [if_pos h1] at hc
      exact absurd hc (by simp)
    · rw [if_neg h1] at hc
      by_cases h2 : v0 < -(2 ^ 63) ∨ v0 > 2 ^ 63 - 1
      · rw [if_pos h2] at hc
        exact absurd hc (by simp)
      · rw [if_neg h2] at hc
        have hv := Option.some.inj hc
        rw [← hv]
        rw [not_or, not_lt, not_lt] at h2
        exact h2
  unfold Atoi at h
  simp only at h
  exact key _ _ h

/-- The effective page is at least 1 and within the range of `int`; it is 1 when the value is
absent, not a number, or not positive. -/
theorem effectivePage_bounds (pageStr : String) :
    1 ≤ effectivePage pageStr ∧ effectivePage pageStr ≤ 2 ^ 63 - 1 ∧
      effectivePage "" = 1 ∧
      (Atoi pageStr = none → effectivePage pageStr = 1) ∧
      (∀ p, Atoi pageStr = some p → p ≤ 0 → effectivePage pageStr = 1) := by
  refine ⟨?_, ?_, by decide, ?_, ?_⟩
  · unfold effectivePage
    by_cases he : pageStr ≠ ""
    · rw [if_pos he]
      cases hp : Atoi pageStr with
      | none => simp
      | some p =>
        by_cases h0 : p > 0
        · simp only [h0, if_true]; omega
        · simp [h0]
    · rw [if_neg he]
  · unfold effectivePage
    by_cases he : pageStr ≠ ""
    · rw [if_pos he]
      cases hp : Atoi pageStr with
      | none => simp
      | some p =>
        have := (Atoi_range pageStr p hp).2
        by_cases h0 : p > 0
        · simp only [h0, if_true]; exact this
        · simp [h0]
    · rw [if_neg he]; norm_num
  · intro hn
    unfold effectivePage
    by_cases he : pageStr ≠ ""
    · rw [if_pos he, hn]
    · rw [if_neg he]
  · intro p hp h0
    unfold effectivePage
    by_cases he : pageStr ≠ ""
    · rw [if_pos he, hp]
      simp [not_lt.mpr h0]
    · rw [if_neg he]

/-- The effective limit lies between 1 and 100; it is 10 when the value is absent, not a number,
or outside 1..100. -/
theorem effectiveLimit_bounds (limitStr : String) :
    1 ≤ effectiveLimit limitStr ∧ effectiveLimit limitStr ≤ 100 ∧
      effectiveLimit "" = 10 ∧
      (Atoi limitStr = none → effectiveLimit limitStr = 10) ∧
      (∀ l, Atoi limitStr = some l → (l ≤ 0 ∨ 100 < l) → effectiveLimit limitStr = 10) := by
  have key : 1 ≤ effectiveLimit limitStr ∧ effectiveLimit limitStr ≤ 100 := by
    unfold effectiveLimit
    by_cases he : limitStr ≠ ""
    · rw [if_pos he]
      cases hp : Atoi limitStr with
      | none => simp
      | some l =>
        by_cases h0 : l > 0 ∧ l ≤ 100
        · simp only [if_pos h0]
          exact ⟨by omega, h0.2⟩
        · simp only [if_neg h0]
          norm_num
    · rw [if_neg he]; norm_num
  refine ⟨key.1, key.2, by decide, ?_, ?_⟩
  · intro hn
    unfold effectiveLimit
    by_cases he : limitStr ≠ ""
    · rw [if_pos he, hn]
    · rw [if_neg he]
  · intro l hl h0
    unfold effectiveLimit
    by_cases he : limitStr ≠ ""
    · rw [if_pos he, hl]
      have : ¬ (l > 0 ∧ l ≤ 100) := fun hb =>
        h0.elim (fun h => absurd hb.1 (not_lt.mpr h)) (fun h => absurd hb.2 (not_le.mpr h))
      simp only [this, if_false]
    · rw [if_neg he]

/-- While the product `(page - 1) * limit` stays within the range of `int` the offset is that
product and is not negative. -/
theorem pageOffset_exact (pageStr limitStr : String) (total : Int)
    (hfit : (effectivePage pageStr - 1) * effectiveLimit limitStr < 2 ^ 63) :
    (paginate pageStr limitStr total).1 =
        (effectivePage pageStr - 1) * effectiveLimit limitStr ∧
      0 ≤ (paginate pageStr limitStr total).1 := by
  have hp := effectivePage_bounds pageStr
  have hl := effectiveLimit_bounds limitStr
  have hnn : 0 ≤ (effectivePage pageStr - 1) * effectiveLimit limitStr :=
    mul_nonneg (by omega) (by omega)
  have h1 : wrapInt (effectivePage pageStr - 1) = effectivePage pageStr - 1 :=
    wrapInt_of_range _ (by omega) (by omega)
  have h2 : (paginate pageStr limitStr total).1 =
      (effectivePage pageStr - 1) * effectiveLimit limitStr := by
    simp only [paginate, pageOffset, h1]
    exact wrapInt_of_range _ (by omega) hfit
  exact ⟨h2, h2 ▸ hnn⟩

/-- For a row count `total ≥ 0` that leaves room for the limit, `total_pages` is the ceiling of
`total / limit`: the least `n ≥ 0` with `n * limit ≥ total`. -/
theorem totalPages_ceiling (pageStr limitStr : String) (total : Int) (h0 : 0 ≤ total)
    (hfit : total + 100 < 2 ^ 63) :
    0 ≤ (paginate pageStr limitStr total).2.TotalPages ∧
      total ≤ (paginate pageStr limitStr total).2.TotalPages *
        (paginate pageStr limitStr total).2.PerPage ∧
      (∀ n : Int, 0 ≤ n → total ≤ n * (paginate pageStr limitStr total).2.PerPage →
        (paginate pageStr limitStr total).2.TotalPages ≤ n) := by
  have hl := effectiveLimit_bounds limitStr
  obtain ⟨hl1, hl100, -⟩ := hl
  generalize hlim : effectiveLimit limitStr = limit at hl1 hl100
  have ha : wrapInt (total + limit) = total + limit := wrapInt_of_range _ (by omega) (by omega)
  have hb : wrapInt (total + limit - 1) = total + limit - 1 :=
    wrapInt_of_range _ (by omega) (by omega)
  have hnum : 0 ≤ total + limit - 1 := by omega
  have hq0 : 0 ≤ (total + limit - 1) / limit := Int.ediv_nonneg hnum (by omega)
  have hqle : (total + limit - 1) / limit ≤ total + limit - 1 :=
    Int.ediv_le_self _ hnum
  have htp : (paginate pageStr limitStr total).2.TotalPages = (total + limit - 1) / limit := by
    simp only [paginate, totalPagesOf, hlim, ha, hb]
    rw [Int.tdiv_eq_ediv hnum (by omega)]
    exact wrapInt_of_range _ (by omega) (by omega)
  have hpp : (paginate pageStr limitStr total).2.PerPage = limit := by
    simp only [paginate, hlim]
  rw [htp, hpp]
  have hlpos : 0 < limit := by omega
  have hlow : (total + limit - 1) / limit * limit ≤ total + limit - 1 :=
    Int.ediv_mul_le _ (by omega)
  have hup : total + limit - 1 < ((total + limit - 1) / limit + 1) * limit :=
    Int.lt_ediv_add_one_mul_self _ hlpos
  refine ⟨hq0, ?_, ?_⟩
  · have : ((total + limit - 1) / limit + 1) * limit =
        (total + limit - 1) / limit * limit + limit := by ring
    omega
  · intro n _ hn
    by_contra hlt
    have hle : n + 1 ≤ (total + limit - 1) / limit := by omega
    have hmul : (n + 1) * limit ≤ (total + limit - 1) / limit * limit :=
      mul_le_mul_of_nonneg_right hle (by omega)
    have : (n + 1) * limit = n * limit + limit := by ring
    omega

end Listing
